import Mathlib

/-! # Verification development for the `gio-smtp-server` protocol engine

Shallow embedding of

* `d_smtp_state.cpp`      : the protocol finite-state machine,
* `d_smtp_command.cpp`    : the command parser,
* `d_timeout.cpp`         : the timeout controller,
* `d_smtp_connection.cpp` : the connection driver,
* `d_smtp_server.cpp`     : the supervisor,

followed by theorems about them.  Bytes are natural numbers, a pointer into
the command buffer is the index of the byte it points to, a nullable pointer
is an `Option Nat`, and a function that may read outside the buffer returns
an `Option` whose `none` stands for that undefined behaviour.
-/

namespace GioSmtp

/-! ## d_smtp_command.hpp / d_smtp_state.hpp : enumerations -/

/-- The enumeration `SMTP_COMMAND` of `d_smtp_command.hpp`. -/
inductive SMTP_COMMAND where
  | UNKNOWN
  | HELO
  | EHLO
  | MAIL
  | RCPT
  | DATA
  | QUIT
  deriving DecidableEq, Repr, Fintype

/-- The enumeration `SMTP_STATE` of `d_smtp_state.hpp`. -/
inductive SMTP_STATE where
  | ERROR
  | GREETING_SENDING
  | GREETING_SENT
  | HELO_RECEIVED
  | HELO_ACCEPTED
  | EHLO_RECEIVED
  | EHLO_ACCEPTED
  | MAIL_RECEIVED
  | MAIL_ACCEPTED
  | RCPT_RECEIVED
  | RCPT_ACCEPTED
  | DATA_RECEIVED
  | DATA_ACCEPTED
  | DATA_ENDED
  | QUIT_RECEIVED
  | QUIT_ACCEPTED
  | CLOSE
  deriving DecidableEq, Repr, Fintype

/-! ## d_smtp_state.cpp : the protocol FSM -/

/-- The object `struct _DSmtpState`: its only data field is `state`. -/
structure DSmtpState where
  state : SMTP_STATE
  deriving DecidableEq, Repr

/-- The instance initialiser `d_smtp_state_init`. -/
def d_smtp_state_init : DSmtpState :=
  { state := SMTP_STATE.ERROR }

/-- The constructor `d_smtp_state_new`: a new object, initialised by
`d_smtp_state_init`. -/
def d_smtp_state_new : DSmtpState :=
  d_smtp_state_init

/-- The getter `d_smtp_state_get_current_state`. -/
def d_smtp_state_get_current_state (smtp_state : DSmtpState) : SMTP_STATE :=
  smtp_state.state

/-- The function `d_smtp_state_next_by_write_complete`: the `switch` computes
`new_state` (initially `SMTP_STATE_ERROR`), the object is updated and the
result is `state != SMTP_STATE_ERROR`.  Returns the result and the updated
object. -/
def d_smtp_state_next_by_write_complete (smtp_state : DSmtpState) :
    Bool × DSmtpState :=
  let new_state : SMTP_STATE :=
    match smtp_state.state with
    | SMTP_STATE.GREETING_SENDING => SMTP_STATE.GREETING_SENT
    | SMTP_STATE.HELO_RECEIVED => SMTP_STATE.HELO_ACCEPTED
    | SMTP_STATE.EHLO_RECEIVED => SMTP_STATE.EHLO_ACCEPTED
    | SMTP_STATE.MAIL_RECEIVED => SMTP_STATE.MAIL_ACCEPTED
    | SMTP_STATE.RCPT_RECEIVED => SMTP_STATE.RCPT_ACCEPTED
    | SMTP_STATE.DATA_RECEIVED => SMTP_STATE.DATA_ACCEPTED
    | SMTP_STATE.DATA_ENDED => SMTP_STATE.DATA_ENDED
    | SMTP_STATE.QUIT_RECEIVED => SMTP_STATE.QUIT_ACCEPTED
    | SMTP_STATE.QUIT_ACCEPTED => SMTP_STATE.CLOSE
    | _ => SMTP_STATE.ERROR
  let smtp_state := { smtp_state with state := new_state }
  (decide (smtp_state.state ≠ SMTP_STATE.ERROR), smtp_state)

/-- The function `d_smtp_state_next_state_by_command`: the `switch` on the
current state with its `if / else if` chains on the command; `new_state`
starts as `SMTP_STATE_ERROR`.  Returns the result and the updated object. -/
def d_smtp_state_next_state_by_command (smtp_state : DSmtpState)
    (command : SMTP_COMMAND) : Bool × DSmtpState :=
  let new_state : SMTP_STATE :=
    match smtp_state.state with
    | SMTP_STATE.GREETING_SENDING
    | SMTP_STATE.GREETING_SENT =>
        if command = SMTP_COMMAND.HELO then SMTP_STATE.HELO_RECEIVED
        else if command = SMTP_COMMAND.EHLO then SMTP_STATE.EHLO_RECEIVED
        else SMTP_STATE.ERROR
    | SMTP_STATE.HELO_ACCEPTED =>
        if command = SMTP_COMMAND.MAIL then SMTP_STATE.MAIL_RECEIVED
        else if command = SMTP_COMMAND.QUIT then SMTP_STATE.QUIT_ACCEPTED
        else SMTP_STATE.ERROR
    | SMTP_STATE.EHLO_RECEIVED =>
        if command = SMTP_COMMAND.MAIL then SMTP_STATE.MAIL_RECEIVED
        else if command = SMTP_COMMAND.QUIT then SMTP_STATE.QUIT_ACCEPTED
        else SMTP_STATE.ERROR
    | SMTP_STATE.MAIL_ACCEPTED =>
        if command = SMTP_COMMAND.RCPT then SMTP_STATE.RCPT_RECEIVED
        else if command = SMTP_COMMAND.QUIT then SMTP_STATE.QUIT_ACCEPTED
        else SMTP_STATE.ERROR
    | SMTP_STATE.RCPT_ACCEPTED =>
        if command = SMTP_COMMAND.RCPT then SMTP_STATE.RCPT_RECEIVED
        else if command = SMTP_COMMAND.QUIT then SMTP_STATE.QUIT_ACCEPTED
        else if command = SMTP_COMMAND.DATA then SMTP_STATE.DATA_RECEIVED
        else SMTP_STATE.ERROR
    | SMTP_STATE.DATA_ACCEPTED => SMTP_STATE.ERROR
    | SMTP_STATE.DATA_ENDED =>
        if command = SMTP_COMMAND.QUIT then SMTP_STATE.QUIT_ACCEPTED
        else SMTP_STATE.ERROR
    | _ => SMTP_STATE.ERROR
  let smtp_state := { smtp_state with state := new_state }
  (decide (smtp_state.state ≠ SMTP_STATE.ERROR), smtp_state)

/-- The function `d_smtp_state_set_next_state`: stores the given state and
returns `TRUE`. -/
def d_smtp_state_set_next_state (smtp_state : DSmtpState) (state : SMTP_STATE) :
    Bool × DSmtpState :=
  (true, { smtp_state with state := state })

/-! ## d_smtp_command.cpp : the command parser

The command bytes are a `List Nat` (one number below 256 per byte).  A
pointer into the buffer `line` is the index of the byte it points to, the
null pointer is `none`.  Reading a byte outside the buffer has no defined
result: the functions below return `none` for it, and every `some _` result
was computed from bytes of the buffer only. -/

/-- The bytes of a string literal (all literals of the parser are ASCII). -/
def bytes (s : String) : List Nat :=
  s.toList.map Char.toNat

/-- The macro `CRLF`. -/
def CRLF : List Nat := bytes "\r\n"

/-- The object `struct _DSmtpCommand`. -/
structure DSmtpCommand where
  command : SMTP_COMMAND
  response_code : Nat
  command_bytes : Option (List Nat)
  deriving DecidableEq, Repr

/-- The constructor `d_smtp_command_new`: the object system clears the
instance and `d_smtp_command_init` sets `command` to `SMTP_COMMAND_UNKNOWN`. -/
def d_smtp_command_new : DSmtpCommand :=
  { command := SMTP_COMMAND.UNKNOWN, response_code := 0, command_bytes := none }

/-- The function `d_smtp_command_set_bytes`. -/
def d_smtp_command_set_bytes (smtp_command : DSmtpCommand)
    (command_bytes : List Nat) : DSmtpCommand :=
  { smtp_command with command_bytes := some command_bytes }

/-- The getter `d_smtp_command_get_smtp_command`. -/
def d_smtp_command_get_smtp_command (smtp_command : DSmtpCommand) : SMTP_COMMAND :=
  smtp_command.command

/-- The getter `d_smtp_command_get_response_code`. -/
def d_smtp_command_get_response_code (smtp_command : DSmtpCommand) : Nat :=
  smtp_command.response_code

/-- The library function `strstr(haystack, needle)`, scanning the bytes that
remain at index `i`: the index of the first occurrence of `needle`,
`some none` (the null pointer) when the terminating NUL is met first, `none`
when the scan leaves the buffer. -/
def strstr_from (needle : List Nat) : List Nat → Nat → Option (Option Nat)
  | [], i => if needle = [] then some (some i) else none
  | b :: rest, i =>
      if needle <+: b :: rest then some (some i)
      else if b = 0 then some none
      else strstr_from needle rest (i + 1)

/-- The call `strstr(line, needle)`. -/
def strstr (line needle : List Nat) : Option (Option Nat) :=
  strstr_from needle line 0

/-- The loop of `eat_tok`, over the characters of `word` that remain:
`if(*begin != word[index]) break; if(begin == end) break; begin++;`.
Leaving the loop by a `break` gives `index < length`, hence the null
pointer. -/
def eat_tok_loop (line : List Nat) (end_ : Option Nat) :
    List Nat → Nat → Option (Option Nat)
  | [], begin => some (some begin)
  | w :: word, begin =>
      match line.get? begin with
      | none => none
      | some b =>
          if b ≠ w then some none
          else if some begin = end_ then some none
          else eat_tok_loop line end_ word (begin + 1)

/-- The function `eat_tok(begin, end, word)`. -/
def eat_tok (line : List Nat) (begin : Option Nat) (end_ : Option Nat)
    (word : List Nat) : Option (Option Nat) :=
  match begin with
  | none => some none
  | some begin => eat_tok_loop line end_ word begin

/-- The loop of `find_until`, `for(; *begin != *word && begin != end; begin++);`
over the bytes that remain at `begin`; `c` is `*word`.  Returns the value of
`begin` after the loop. -/
def find_until_loop (end_ : Option Nat) (c : Nat) : List Nat → Nat → Option Nat
  | [], _ => none
  | b :: rest, begin =>
      if b ≠ c ∧ some begin ≠ end_ then find_until_loop end_ c rest (begin + 1)
      else some begin

/-- The function `find_until(begin, end, word)`. -/
def find_until (line : List Nat) (begin : Nat) (end_ : Option Nat)
    (word : List Nat) : Option (Option Nat) :=
  match find_until_loop end_ (word.headD 0) (line.drop begin) begin with
  | none => none
  | some begin =>
      if some begin = end_ then some none
      else eat_tok line (some begin) end_ word

/-- The bytes of the NUL-terminated string that starts with the given bytes;
`none` when no NUL is among them. -/
def c_string : List Nat → Option (List Nat)
  | [] => none
  | b :: rest => if b = 0 then some [] else (c_string rest).map (fun s => b :: s)

/-- The library call `g_string_free(g_string_new_len(init, len), FALSE)`: a
new NUL-terminated string holding the `len` bytes at `init`, or, for a
negative `len`, the NUL-terminated string at `init`.  As a string the result
ends at its first NUL. -/
def g_string_new_len (line : List Nat) (init : Nat) (len : Int) : Option (List Nat) :=
  if len < 0 then c_string (line.drop init)
  else if init + len.toNat ≤ line.length then
    some (((line.drop init).take len.toNat).takeWhile (fun b => b ≠ 0))
  else none

/-- The function `get_tok(begin, end, wordb, worde, &token)`: the returned
pointer and the value of `*token` after the call (`none` when it was left
unallocated).  The callers only test the returned pointer against null. -/
def get_tok (line : List Nat) (begin : Option Nat) (end_ : Option Nat)
    (wordb worde : List Nat) : Option (Option Nat × Option (List Nat)) :=
  match begin with
  | none => some (none, none)
  | some begin =>
      match eat_tok line (some begin) end_ wordb with
      | none => none
      | some none => some (none, none)
      | some (some p1) =>
          match find_until line p1 end_ worde with
          | none => none
          | some none => some (none, none)
          | some (some p2) =>
              let p2 : Int := (p2 : Int) - 1
              match g_string_new_len line p1 (p2 - (p1 : Int)) with
              | none => none
              | some token => some (some p2.toNat, some token)

/-- What a call of the parser leaves behind: the `gboolean` it returns, the
command object after the call, and the string the handler extracted and
logged (the HELO domain, the MAIL or RCPT address token), if any. -/
structure ProcessOutcome where
  result : Bool
  smtp_command : DSmtpCommand
  token : Option (List Nat)
  deriving DecidableEq, Repr

/-- The loop `for(; *p == ' '; p++);` of the HELO handler over the bytes that
remain at `p`. -/
def skip_spaces : List Nat → Nat → Option Nat
  | [], _ => none
  | b :: rest, p => if b = 32 then skip_spaces rest (p + 1) else some p

/-- The function `d_smtp_command_process_command_helo`.  The difference
`end - p` has no defined value when `strstr` returned the null pointer. -/
def d_smtp_command_process_command_helo (smtp_command : DSmtpCommand)
    (line : List Nat) : Option ProcessOutcome :=
  match strstr line CRLF with
  | none => none
  | some end_ =>
      match skip_spaces (line.drop 4) 4 with
      | none => none
      | some p =>
          match end_ with
          | none => none
          | some e =>
              match g_string_new_len line p ((e : Int) - (p : Int)) with
              | none => none
              | some domain =>
                  some { result := true
                         smtp_command :=
                           { smtp_command with
                             command := SMTP_COMMAND.HELO, response_code := 250 }
                         token := some domain }

/-- The function `d_smtp_command_process_command_ehlo`. -/
def d_smtp_command_process_command_ehlo (smtp_command : DSmtpCommand)
    (_line : List Nat) : Option ProcessOutcome :=
  some { result := false, smtp_command := smtp_command, token := none }

/-- The common body of `d_smtp_command_process_command_mail` and
`d_smtp_command_process_command_rcpt`, which differ in the two words, in the
command they record, and in nothing else. -/
def process_command_address (smtp_command : DSmtpCommand) (line : List Nat)
    (verb keyword : List Nat) (command : SMTP_COMMAND) : Option ProcessOutcome :=
  match strstr line CRLF with
  | none => none
  | some end_ =>
      let begin : Option Nat := some 0
      match eat_tok line begin end_ verb with
      | none => none
      | some begin =>
      match eat_tok line begin end_ (bytes " ") with
      | none => none
      | some begin =>
      match eat_tok line begin end_ keyword with
      | none => none
      | some begin =>
      match eat_tok line begin end_ (bytes ":") with
      | none => none
      | some begin =>
      match get_tok line begin end_ (bytes "<") (bytes ">") with
      | none => none
      | some (begin, token) =>
          if begin.isSome then
            some { result := true
                   smtp_command :=
                     { smtp_command with command := command, response_code := 250 }
                   token := token }
          else
            some { result := false, smtp_command := smtp_command, token := none }

/-- The function `d_smtp_command_process_command_mail`. -/
def d_smtp_command_process_command_mail (smtp_command : DSmtpCommand)
    (line : List Nat) : Option ProcessOutcome :=
  process_command_address smtp_command line (bytes "MAIL") (bytes "FROM")
    SMTP_COMMAND.MAIL

/-- The function `d_smtp_command_process_command_rcpt`. -/
def d_smtp_command_process_command_rcpt (smtp_command : DSmtpCommand)
    (line : List Nat) : Option ProcessOutcome :=
  process_command_address smtp_command line (bytes "RCPT") (bytes "TO")
    SMTP_COMMAND.RCPT

/-- The common body of `d_smtp_command_process_command_data` and
`d_smtp_command_process_command_quit`, which differ in the word, in the
command and in the response code they record. -/
def process_command_bare (smtp_command : DSmtpCommand) (line : List Nat)
    (verb : List Nat) (command : SMTP_COMMAND) (response_code : Nat) :
    Option ProcessOutcome :=
  match strstr line CRLF with
  | none => none
  | some end_ =>
      match eat_tok line (some 0) end_ verb with
      | none => none
      | some begin =>
          if begin.isSome then
            some { result := true
                   smtp_command :=
                     { smtp_command with
                       command := command, response_code := response_code }
                   token := none }
          else
            some { result := false, smtp_command := smtp_command, token := none }

/-- The function `d_smtp_command_process_command_data`. -/
def d_smtp_command_process_command_data (smtp_command : DSmtpCommand)
    (line : List Nat) : Option ProcessOutcome :=
  process_command_bare smtp_command line (bytes "DATA") SMTP_COMMAND.DATA 354

/-- The function `d_smtp_command_process_command_quit`. -/
def d_smtp_command_process_command_quit (smtp_command : DSmtpCommand)
    (line : List Nat) : Option ProcessOutcome :=
  process_command_bare smtp_command line (bytes "QUIT") SMTP_COMMAND.QUIT 221

/-- The function `d_smtp_command_process_command`: the `switch` over the
command, `FALSE` for a command without a case. -/
def d_smtp_command_process_command (smtp_command : DSmtpCommand)
    (line : List Nat) (command : SMTP_COMMAND) : Option ProcessOutcome :=
  match command with
  | SMTP_COMMAND.HELO => d_smtp_command_process_command_helo smtp_command line
  | SMTP_COMMAND.EHLO => d_smtp_command_process_command_ehlo smtp_command line
  | SMTP_COMMAND.MAIL => d_smtp_command_process_command_mail smtp_command line
  | SMTP_COMMAND.RCPT => d_smtp_command_process_command_rcpt smtp_command line
  | SMTP_COMMAND.DATA => d_smtp_command_process_command_data smtp_command line
  | SMTP_COMMAND.QUIT => d_smtp_command_process_command_quit smtp_command line
  | SMTP_COMMAND.UNKNOWN =>
      some { result := false, smtp_command := smtp_command, token := none }

/-- The four-byte verb `cmd` of `d_smtp_command_process`, as the string that
`strncpy(cmd,buffer,4)[4] = 0` leaves: the first four bytes up to a NUL. -/
def verb_of (buffer : List Nat) : List Nat :=
  (buffer.take 4).takeWhile (fun b => b ≠ 0)

/-- The function `d_smtp_command_process`. -/
def d_smtp_command_process (smtp_command : DSmtpCommand) : Option ProcessOutcome :=
  match smtp_command.command_bytes with
  | none => some { result := false, smtp_command := smtp_command, token := none }
  | some buffer =>
      let count := buffer.length
      if count < 4 ∨ count > 1024 then
        some { result := false, smtp_command := smtp_command, token := none }
      else
        let cmd := verb_of buffer
        if cmd = bytes "QUIT" then
          d_smtp_command_process_command smtp_command buffer SMTP_COMMAND.QUIT
        else if cmd = bytes "HELO" then
          d_smtp_command_process_command smtp_command buffer SMTP_COMMAND.HELO
        else if cmd = bytes "EHLO" then
          d_smtp_command_process_command smtp_command buffer SMTP_COMMAND.EHLO
        else if cmd = bytes "MAIL" then
          d_smtp_command_process_command smtp_command buffer SMTP_COMMAND.MAIL
        else if cmd = bytes "RCPT" then
          d_smtp_command_process_command smtp_command buffer SMTP_COMMAND.RCPT
        else if cmd = bytes "DATA" then
          d_smtp_command_process_command smtp_command buffer SMTP_COMMAND.DATA
        else
          some { result := false, smtp_command := smtp_command, token := none }

/-- The parser as the connection driver runs it in
`d_smtp_connection_test_input`: a new command object, `set_bytes`, then
`process`. -/
def parse (input : List Nat) : Option ProcessOutcome :=
  d_smtp_command_process (d_smtp_command_set_bytes d_smtp_command_new input)

/-! ## The transition tables as the specification words them -/

/-- The OnCommand table of the specification: `some t` where the table has a
cell for the state and the command, `none` where it has none. -/
def onCommandTable : SMTP_STATE → SMTP_COMMAND → Option SMTP_STATE
  | SMTP_STATE.GREETING_SENDING, SMTP_COMMAND.HELO => some SMTP_STATE.HELO_RECEIVED
  | SMTP_STATE.GREETING_SENDING, SMTP_COMMAND.EHLO => some SMTP_STATE.EHLO_RECEIVED
  | SMTP_STATE.GREETING_SENT, SMTP_COMMAND.HELO => some SMTP_STATE.HELO_RECEIVED
  | SMTP_STATE.GREETING_SENT, SMTP_COMMAND.EHLO => some SMTP_STATE.EHLO_RECEIVED
  | SMTP_STATE.HELO_ACCEPTED, SMTP_COMMAND.MAIL => some SMTP_STATE.MAIL_RECEIVED
  | SMTP_STATE.HELO_ACCEPTED, SMTP_COMMAND.QUIT => some SMTP_STATE.QUIT_ACCEPTED
  | SMTP_STATE.EHLO_RECEIVED, SMTP_COMMAND.MAIL => some SMTP_STATE.MAIL_RECEIVED
  | SMTP_STATE.EHLO_RECEIVED, SMTP_COMMAND.QUIT => some SMTP_STATE.QUIT_ACCEPTED
  | SMTP_STATE.MAIL_ACCEPTED, SMTP_COMMAND.RCPT => some SMTP_STATE.RCPT_RECEIVED
  | SMTP_STATE.MAIL_ACCEPTED, SMTP_COMMAND.QUIT => some SMTP_STATE.QUIT_ACCEPTED
  | SMTP_STATE.RCPT_ACCEPTED, SMTP_COMMAND.RCPT => some SMTP_STATE.RCPT_RECEIVED
  | SMTP_STATE.RCPT_ACCEPTED, SMTP_COMMAND.DATA => some SMTP_STATE.DATA_RECEIVED
  | SMTP_STATE.RCPT_ACCEPTED, SMTP_COMMAND.QUIT => some SMTP_STATE.QUIT_ACCEPTED
  | SMTP_STATE.DATA_ENDED, SMTP_COMMAND.QUIT => some SMTP_STATE.QUIT_ACCEPTED
  | _, _ => none

/-- The OnWriteComplete list of the specification: the nine listed
transitions, every other state yielding `ERROR`. -/
def onWriteCompleteTable : SMTP_STATE → SMTP_STATE
  | SMTP_STATE.GREETING_SENDING => SMTP_STATE.GREETING_SENT
  | SMTP_STATE.HELO_RECEIVED => SMTP_STATE.HELO_ACCEPTED
  | SMTP_STATE.EHLO_RECEIVED => SMTP_STATE.EHLO_ACCEPTED
  | SMTP_STATE.MAIL_RECEIVED => SMTP_STATE.MAIL_ACCEPTED
  | SMTP_STATE.RCPT_RECEIVED => SMTP_STATE.RCPT_ACCEPTED
  | SMTP_STATE.DATA_RECEIVED => SMTP_STATE.DATA_ACCEPTED
  | SMTP_STATE.DATA_ENDED => SMTP_STATE.DATA_ENDED
  | SMTP_STATE.QUIT_RECEIVED => SMTP_STATE.QUIT_ACCEPTED
  | SMTP_STATE.QUIT_ACCEPTED => SMTP_STATE.CLOSE
  | SMTP_STATE.ERROR => SMTP_STATE.ERROR
  | SMTP_STATE.GREETING_SENT => SMTP_STATE.ERROR
  | SMTP_STATE.HELO_ACCEPTED => SMTP_STATE.ERROR
  | SMTP_STATE.EHLO_ACCEPTED => SMTP_STATE.ERROR
  | SMTP_STATE.MAIL_ACCEPTED => SMTP_STATE.ERROR
  | SMTP_STATE.RCPT_ACCEPTED => SMTP_STATE.ERROR
  | SMTP_STATE.DATA_ACCEPTED => SMTP_STATE.ERROR
  | SMTP_STATE.CLOSE => SMTP_STATE.ERROR

/-! ## Runs of the FSM under the events of the connection driver -/

/-- The three operations the driver applies to the FSM object:
`d_smtp_state_next_state_by_command`, `d_smtp_state_next_by_write_complete`
and `d_smtp_state_set_next_state`. -/
inductive Event where
  | command (c : SMTP_COMMAND)
  | write_complete
  | force (s : SMTP_STATE)
  deriving DecidableEq, Repr

/-- One event applied to the FSM object: the returned `gboolean` and the
object after the call. -/
def fsm_step (smtp_state : DSmtpState) : Event → Bool × DSmtpState
  | Event.command c => d_smtp_state_next_state_by_command smtp_state c
  | Event.write_complete => d_smtp_state_next_by_write_complete smtp_state
  | Event.force s => d_smtp_state_set_next_state smtp_state s

/-- The FSM object after a finite sequence of events. -/
def fsm_run (smtp_state : DSmtpState) : List Event → DSmtpState
  | [] => smtp_state
  | e :: es => fsm_run (fsm_step smtp_state e).2 es

/-- The commands of a sequence of events that the FSM accepted (the call
returned TRUE), in order. -/
def accepted_commands (smtp_state : DSmtpState) : List Event → List SMTP_COMMAND
  | [] => []
  | Event.command c :: es =>
      if (fsm_step smtp_state (Event.command c)).1 then
        c :: accepted_commands (fsm_step smtp_state (Event.command c)).2 es
      else
        accepted_commands (fsm_step smtp_state (Event.command c)).2 es
  | e :: es => accepted_commands (fsm_step smtp_state e).2 es

/-- Whether an event is one the read and write handlers of the driver issue
in the given state: any command, a write completion, and
`d_smtp_state_set_next_state(SMTP_STATE_DATA_ENDED)`, the latter in state
`SMTP_STATE_DATA_ACCEPTED` only (`d_smtp_connection_read_handle`). -/
def driver_event_ok (smtp_state : DSmtpState) : Event → Bool
  | Event.force s =>
      decide (s = SMTP_STATE.DATA_ENDED) &&
        decide (smtp_state.state = SMTP_STATE.DATA_ACCEPTED)
  | _ => true

/-- Whether every event of the sequence is one the driver issues in the state
it is applied in. -/
def driver_run (smtp_state : DSmtpState) : List Event → Bool
  | [] => true
  | e :: es => driver_event_ok smtp_state e && driver_run (fsm_step smtp_state e).2 es

/-- Whether an event is `d_smtp_state_set_next_state`. -/
def Event.is_force : Event → Bool
  | Event.force _ => true
  | _ => false

/-! ## The accepted command words as the specification words them -/

/-- The word `g MAIL RCPT+ DATA QUIT` with `k + 1` recipients. -/
def full_word (g : SMTP_COMMAND) (k : Nat) : List SMTP_COMMAND :=
  [g, SMTP_COMMAND.MAIL] ++ List.replicate (k + 1) SMTP_COMMAND.RCPT ++
    [SMTP_COMMAND.DATA, SMTP_COMMAND.QUIT]

/-- The word `g MAIL RCPT+` cut short by a QUIT after a RCPT, with `k + 1`
recipients. -/
def rcpt_quit_word (g : SMTP_COMMAND) (k : Nat) : List SMTP_COMMAND :=
  [g, SMTP_COMMAND.MAIL] ++ List.replicate (k + 1) SMTP_COMMAND.RCPT ++
    [SMTP_COMMAND.QUIT]

/-- A prefix of a word `(HELO|EHLO) MAIL RCPT+ DATA QUIT`, or of such a word
cut short by a QUIT placed directly after the HELO/EHLO, after the MAIL or
after a RCPT. -/
def TransactionPrefix (w : List SMTP_COMMAND) : Prop :=
  ∃ g k, (g = SMTP_COMMAND.HELO ∨ g = SMTP_COMMAND.EHLO) ∧
    (w <+: full_word g k ∨
     w <+: [g, SMTP_COMMAND.QUIT] ∨
     w <+: [g, SMTP_COMMAND.MAIL, SMTP_COMMAND.QUIT] ∨
     w <+: rcpt_quit_word g k)

/-- The position inside a mail transaction, used to follow an accepted
command word from left to right. -/
inductive Phase where
  | start
  | greeted
  | mail
  | rcpt
  | data
  | done
  deriving DecidableEq, Repr, Fintype

/-- The phase after one more command of the word, `none` when the command
cannot come next. -/
def Phase.next : Phase → SMTP_COMMAND → Option Phase
  | Phase.start, SMTP_COMMAND.HELO => some Phase.greeted
  | Phase.start, SMTP_COMMAND.EHLO => some Phase.greeted
  | Phase.greeted, SMTP_COMMAND.MAIL => some Phase.mail
  | Phase.greeted, SMTP_COMMAND.QUIT => some Phase.done
  | Phase.mail, SMTP_COMMAND.RCPT => some Phase.rcpt
  | Phase.mail, SMTP_COMMAND.QUIT => some Phase.done
  | Phase.rcpt, SMTP_COMMAND.RCPT => some Phase.rcpt
  | Phase.rcpt, SMTP_COMMAND.DATA => some Phase.data
  | Phase.rcpt, SMTP_COMMAND.QUIT => some Phase.done
  | Phase.data, SMTP_COMMAND.QUIT => some Phase.done
  | _, _ => none

/-- Whether a command word can be followed from the given phase. -/
def Phase.follows : Phase → List SMTP_COMMAND → Bool
  | _, [] => true
  | p, c :: w =>
      match p.next c with
      | some q => q.follows w
      | none => false

/-- The phase of a mail transaction an FSM state stands for. -/
def phase_of : SMTP_STATE → Phase
  | SMTP_STATE.GREETING_SENDING => Phase.start
  | SMTP_STATE.GREETING_SENT => Phase.start
  | SMTP_STATE.HELO_RECEIVED => Phase.greeted
  | SMTP_STATE.HELO_ACCEPTED => Phase.greeted
  | SMTP_STATE.EHLO_RECEIVED => Phase.greeted
  | SMTP_STATE.EHLO_ACCEPTED => Phase.greeted
  | SMTP_STATE.MAIL_RECEIVED => Phase.mail
  | SMTP_STATE.MAIL_ACCEPTED => Phase.mail
  | SMTP_STATE.RCPT_RECEIVED => Phase.rcpt
  | SMTP_STATE.RCPT_ACCEPTED => Phase.rcpt
  | SMTP_STATE.DATA_RECEIVED => Phase.data
  | SMTP_STATE.DATA_ACCEPTED => Phase.data
  | SMTP_STATE.DATA_ENDED => Phase.data
  | SMTP_STATE.QUIT_RECEIVED => Phase.done
  | SMTP_STATE.QUIT_ACCEPTED => Phase.done
  | SMTP_STATE.CLOSE => Phase.done
  | SMTP_STATE.ERROR => Phase.done

/-! ## d_timeout.cpp : the timeout controller

The timer sources of the main loop that a controller created are kept in a
`MainLoop`: `g_timeout_add_seconds` adds a source under a new non-zero id,
`g_source_remove` removes the source of an id.  The cancellable object is
represented by its state, cancelled or not. -/

/-- The enumeration `TIMEOUT_OPERATION` of `d_timeout.hpp`. -/
inductive TIMEOUT_OPERATION where
  | READ
  | WRITE
  | CLOSE
  deriving DecidableEq, Repr, Fintype

/-- The object `struct _DTimeout`; `cancelable` is the state of the
`GCancellable` it points to (`true`: cancelled). -/
structure DTimeout where
  cancelable : Bool
  cancelable_id : Nat
  current_timeout_operation : TIMEOUT_OPERATION
  read_timout_value : Nat
  write_timout_value : Nat
  close_timout_value : Nat
  current_timeout_source_id : Nat
  deriving DecidableEq, Repr

/-- The timeout sources of the main loop, each with its id and its interval in
seconds, and the id the next source gets. -/
structure MainLoop where
  sources : List (Nat × Nat)
  next_source_id : Nat
  deriving DecidableEq, Repr

/-- A main loop without sources; ids start at 1. -/
def main_loop_new : MainLoop :=
  { sources := [], next_source_id := 1 }

/-- The library call `g_timeout_add_seconds(interval, function, data)`: the id
of the new source and the main loop with that source. -/
def g_timeout_add_seconds (loop : MainLoop) (interval : Nat) : Nat × MainLoop :=
  (loop.next_source_id,
   { sources := loop.sources ++ [(loop.next_source_id, interval)]
     next_source_id := loop.next_source_id + 1 })

/-- The library call `g_source_remove(id)`. -/
def g_source_remove (loop : MainLoop) (id : Nat) : MainLoop :=
  { loop with sources := loop.sources.filter (fun src => src.1 ≠ id) }

/-- The constructor `d_timeout_new`: the object system clears the instance and
`d_timeout_init` creates the cancellable object and sets the three values
to 10. -/
def d_timeout_new : DTimeout :=
  { cancelable := false
    cancelable_id := 0
    current_timeout_operation := TIMEOUT_OPERATION.READ
    read_timout_value := 10
    write_timout_value := 10
    close_timout_value := 10
    current_timeout_source_id := 0 }

/-- The function `d_timeout_get_value`. -/
def d_timeout_get_value (timeout : DTimeout) (timeout_type : TIMEOUT_OPERATION) : Nat :=
  match timeout_type with
  | TIMEOUT_OPERATION.READ => timeout.read_timout_value
  | TIMEOUT_OPERATION.WRITE => timeout.write_timout_value
  | TIMEOUT_OPERATION.CLOSE => timeout.close_timout_value

/-- The function `d_timeout_set_value`. -/
def d_timeout_set_value (timeout : DTimeout) (timeout_type : TIMEOUT_OPERATION)
    (timeout_value : Nat) : DTimeout :=
  match timeout_type with
  | TIMEOUT_OPERATION.READ => { timeout with read_timout_value := timeout_value }
  | TIMEOUT_OPERATION.WRITE => { timeout with write_timout_value := timeout_value }
  | TIMEOUT_OPERATION.CLOSE => { timeout with close_timout_value := timeout_value }

/-- The function `d_timeout_connect`; `handler_id` is the id that
`g_cancellable_connect` returns. -/
def d_timeout_connect (timeout : DTimeout) (handler_id : Nat) : DTimeout :=
  { timeout with cancelable_id := handler_id }

/-- The function `d_timeout_stop`; the operation type is not looked at. -/
def d_timeout_stop (timeout : DTimeout) (loop : MainLoop)
    (_timeout_type : TIMEOUT_OPERATION) : DTimeout × MainLoop :=
  if timeout.current_timeout_source_id ≠ 0 then
    ({ timeout with current_timeout_source_id := 0 },
     g_source_remove loop timeout.current_timeout_source_id)
  else
    (timeout, loop)

/-- The function `d_timeout_start`. -/
def d_timeout_start (timeout : DTimeout) (loop : MainLoop)
    (timeout_type : TIMEOUT_OPERATION) : DTimeout × MainLoop :=
  let (timeout, loop) := d_timeout_stop timeout loop timeout_type
  let timeout := { timeout with current_timeout_operation := timeout_type }
  let timeout_value := d_timeout_get_value timeout timeout_type
  let timeout := if timeout.cancelable then { timeout with cancelable := false } else timeout
  let (id, loop) := g_timeout_add_seconds loop timeout_value
  ({ timeout with current_timeout_source_id := id }, loop)

/-- The callback `internal_timeout_function`, run by the main loop when the
source `id` expires: the cancellable object is cancelled, the stored id is
cleared, and the main loop drops the source (`G_SOURCE_REMOVE`). -/
def internal_timeout_function (timeout : DTimeout) (loop : MainLoop) (id : Nat) :
    DTimeout × MainLoop :=
  ({ timeout with cancelable := true, current_timeout_source_id := 0 },
   g_source_remove loop id)

/-! ## d_smtp_connection.cpp : the connection driver

The asynchronous operations on the socket are kept as the list of operations
that were issued and have not completed; the buffers handed to
`g_output_stream_write_all_async` and the emissions of the `disconnected`
signal are recorded. -/

/-- The macro `DATA_END`. -/
def DATA_END : List Nat := bytes ".\r\n"

/-- An asynchronous operation issued on the socket of a connection. -/
inductive IoOperation where
  | read
  | write
  | close
  deriving DecidableEq, Repr

/-- The object `struct _DSmtpConnection` (without its socket). -/
structure DSmtpConnection where
  my_host_name : List Nat
  timeout : DTimeout
  state : DSmtpState
  writing_bytes : Option (List Nat)
  deriving DecidableEq, Repr

/-- A connection with what surrounds it: the timeout sources of the main
loop, the operations outstanding on the socket, the buffers handed to the
socket for writing so far, in order, and the number of emissions of the
`disconnected` signal so far. -/
structure Driver where
  connection : DSmtpConnection
  loop : MainLoop
  outstanding : List IoOperation
  written : List (List Nat)
  disconnected : Nat
  deriving DecidableEq, Repr

/-- The decimal digits of a number, as `%d` prints a non-negative `int`. -/
def decimal (n : Nat) : List Nat :=
  (Nat.toDigits 10 n).map Char.toNat

/-- The bytes of a NUL-terminated string given by its bytes: those before the
first NUL. -/
def c_str (s : List Nat) : List Nat :=
  s.takeWhile (fun b => b ≠ 0)

/-- The library call `g_strstr_len(haystack, haystack_len, needle)` for a
non-negative length, over the bytes that remain at index `p`: the index of
the first occurrence of `needle` that lies within the length and before any
NUL, or `none`. -/
def g_strstr_len_from (needle : List Nat) : List Nat → Nat → Option Nat
  | [], _ => none
  | b :: rest, p =>
      if (b :: rest).length < needle.length then none
      else if b = 0 then none
      else if needle <+: b :: rest then some p
      else g_strstr_len_from needle rest (p + 1)

/-- The library call `g_strstr_len(haystack, haystack_len, needle)` on the
bytes of a buffer (a buffer without bytes has no data pointer, and the
result is the null pointer). -/
def g_strstr_len (haystack needle : List Nat) : Option Nat :=
  if needle = [] then (if haystack = [] then none else some 0)
  else g_strstr_len_from needle haystack 0

/-- The instance initialiser `d_smtp_connection_init`; the handler id that
`g_cancellable_connect` returns is taken to be 1. -/
def d_smtp_connection_init : DSmtpConnection :=
  { my_host_name := bytes "localhost"
    timeout := d_timeout_connect d_timeout_new 1
    state := d_smtp_state_new
    writing_bytes := none }

/-- The function `d_smtp_connection_write_bytes`: the WRITE timeout is
started, the write is issued, the buffer is kept in `writing_bytes`. -/
def d_smtp_connection_write_bytes (d : Driver) (bytes : List Nat) : Driver :=
  let (timeout, loop) :=
    d_timeout_start d.connection.timeout d.loop TIMEOUT_OPERATION.WRITE
  { d with
    connection := { d.connection with timeout := timeout, writing_bytes := some bytes }
    loop := loop
    outstanding := d.outstanding ++ [IoOperation.write]
    written := d.written ++ [bytes] }

/-- The function `d_smtp_connection_send_response_text`: `strlen` bytes of
the text are written. -/
def d_smtp_connection_send_response_text (d : Driver) (response_text : List Nat) :
    Driver :=
  d_smtp_connection_write_bytes d (c_str response_text)

/-- The function `d_smtp_connection_send_response_code`: the text is
`g_strdup_printf("%d %s\r\n", response_code, my_host_name)`. -/
def d_smtp_connection_send_response_code (d : Driver) (response_code : Nat) : Driver :=
  d_smtp_connection_send_response_text d
    (decimal response_code ++ bytes " " ++ c_str d.connection.my_host_name ++ bytes "\r\n")

/-- The function `d_smtp_connection_close`: the CLOSE timeout is started and
the close of the socket is issued. -/
def d_smtp_connection_close (d : Driver) : Driver :=
  let (timeout, loop) :=
    d_timeout_start d.connection.timeout d.loop TIMEOUT_OPERATION.CLOSE
  { d with
    connection := { d.connection with timeout := timeout }
    loop := loop
    outstanding := d.outstanding ++ [IoOperation.close] }

/-- The function `d_smtp_connection_test_input`: the returned `gboolean` and
the driver after the call; `none` when the parser reads outside the
buffer. -/
def d_smtp_connection_test_input (d : Driver) (bytes : List Nat) :
    Option (Bool × Driver) :=
  let smtp_command := d_smtp_command_set_bytes d_smtp_command_new bytes
  match d_smtp_command_process smtp_command with
  | none => none
  | some outcome =>
      if outcome.result = false then some (false, d)
      else
        let smtp_command := outcome.smtp_command
        let command := d_smtp_command_get_smtp_command smtp_command
        if command = SMTP_COMMAND.UNKNOWN then some (false, d)
        else
          let (accepted, state) :=
            d_smtp_state_next_state_by_command d.connection.state command
          let d := { d with connection := { d.connection with state := state } }
          if accepted = false then some (false, d)
          else
            let response_code := d_smtp_command_get_response_code smtp_command
            some (true, d_smtp_connection_send_response_code d response_code)

/-- The completion handler `d_smtp_connection_read_handle`; `bytes` is what
`g_input_stream_read_bytes_finish` returned, `none` for a failed or cancelled
read. -/
def d_smtp_connection_read_handle (d : Driver) (bytes : Option (List Nat)) :
    Option Driver :=
  let (timeout, loop) :=
    d_timeout_stop d.connection.timeout d.loop TIMEOUT_OPERATION.READ
  let d := { d with connection := { d.connection with timeout := timeout }, loop := loop }
  match bytes with
  | none => some (d_smtp_connection_close d)
  | some bytes =>
      let state := d_smtp_state_get_current_state d.connection.state
      if state = SMTP_STATE.DATA_ACCEPTED then
        if (g_strstr_len bytes DATA_END).isSome then
          let (_, state) :=
            d_smtp_state_set_next_state d.connection.state SMTP_STATE.DATA_ENDED
          let d := { d with connection := { d.connection with state := state } }
          some (d_smtp_connection_send_response_code d 250)
        else
          some { d with outstanding := d.outstanding ++ [IoOperation.read] }
      else
        match d_smtp_connection_test_input d bytes with
        | none => none
        | some (ok, d) => if ok = false then some (d_smtp_connection_close d) else some d

/-- The completion handler `d_smtp_connection_write_handle`; `ok` and
`bytes_written` are what `g_output_stream_write_all_finish` returned. -/
def d_smtp_connection_write_handle (d : Driver) (ok : Bool) (bytes_written : Nat) :
    Driver :=
  let (timeout, loop) :=
    d_timeout_stop d.connection.timeout d.loop TIMEOUT_OPERATION.WRITE
  let d := { d with connection := { d.connection with timeout := timeout }, loop := loop }
  if ok = false then d_smtp_connection_close d
  else
    let expected_bytes :=
      match d.connection.writing_bytes with
      | some b => b.length
      | none => 0
    if bytes_written ≠ expected_bytes then d_smtp_connection_close d
    else
      let (accepted, state) := d_smtp_state_next_by_write_complete d.connection.state
      let d := { d with connection := { d.connection with state := state } }
      if accepted = false then d_smtp_connection_close d
      else
        let state := d_smtp_state_get_current_state d.connection.state
        if state = SMTP_STATE.CLOSE then d_smtp_connection_close d
        else
          let (timeout, loop) :=
            d_timeout_start d.connection.timeout d.loop TIMEOUT_OPERATION.READ
          { d with
            connection := { d.connection with timeout := timeout }
            loop := loop
            outstanding := d.outstanding ++ [IoOperation.read] }

/-- The completion handler `d_smtp_connection_close_handle`: the CLOSE
timeout is stopped and `disconnected` is emitted, whatever
`g_io_stream_close_finish` returns. -/
def d_smtp_connection_close_handle (d : Driver) (_ok : Bool) (_cancelled : Bool) :
    Driver :=
  let (timeout, loop) :=
    d_timeout_stop d.connection.timeout d.loop TIMEOUT_OPERATION.CLOSE
  { d with
    connection := { d.connection with timeout := timeout }
    loop := loop
    disconnected := d.disconnected + 1 }

/-- Setting a construct property of type `guint` with range 1 to 240 through
`g_object_new`: the object system passes a value in the range to the setter
and refuses a value outside of it. -/
def construct_timeout (timeout : DTimeout) (timeout_type : TIMEOUT_OPERATION)
    (timeout_value : Nat) : DTimeout :=
  if 1 ≤ timeout_value ∧ timeout_value ≤ 240 then
    d_timeout_set_value timeout timeout_type timeout_value
  else timeout

/-- The function `d_smtp_connection_set_socket`. -/
def d_smtp_connection_set_socket (d : Driver) : Driver :=
  { d with
    connection :=
      { d.connection with
        state :=
          (d_smtp_state_set_next_state d.connection.state
            SMTP_STATE.GREETING_SENDING).2 } }

/-- The constructor `d_smtp_connection_new_with_timeouts`, in a main loop
without sources of this connection: the object is initialised, the three
properties are set, the greeting is sent and the FSM is set to
`GREETING_SENDING`. -/
def d_smtp_connection_new_with_timeouts (read_timeout write_timeout close_timeout : Nat) :
    Driver :=
  let connection := d_smtp_connection_init
  let timeout := construct_timeout connection.timeout TIMEOUT_OPERATION.READ read_timeout
  let timeout := construct_timeout timeout TIMEOUT_OPERATION.WRITE write_timeout
  let timeout := construct_timeout timeout TIMEOUT_OPERATION.CLOSE close_timeout
  let d : Driver :=
    { connection := { connection with timeout := timeout }
      loop := main_loop_new
      outstanding := []
      written := []
      disconnected := 0 }
  let d := d_smtp_connection_set_socket d
  let d := d_smtp_connection_send_response_text d
    (bytes "220 " ++ c_str d.connection.my_host_name ++
      bytes " SMTP example mail server\r\n")
  { d with
    connection :=
      { d.connection with
        state :=
          (d_smtp_state_set_next_state d.connection.state
            SMTP_STATE.GREETING_SENDING).2 } }

/-- What the main loop delivers to a connection: the completion of an
outstanding operation with its result, or the expiry of a timeout source. -/
inductive Completion where
  | read_done (bytes : List Nat)
  | read_failed (cancelled : Bool)
  | write_done (bytes_written : Nat)
  | write_failed (bytes_written : Nat)
  | close_done
  | close_failed (cancelled : Bool)
  | timer_expired (id : Nat)
  deriving DecidableEq, Repr

/-- One delivery of the main loop: the completed operation leaves the list of
outstanding operations and its handler runs; an expiring source must be a
source of the main loop.  `none` when nothing of that kind is outstanding,
or when the parser reads outside the buffer. -/
def driver_step (d : Driver) : Completion → Option Driver
  | Completion.read_done bytes =>
      if IoOperation.read ∈ d.outstanding then
        d_smtp_connection_read_handle
          { d with outstanding := d.outstanding.erase IoOperation.read } (some bytes)
      else none
  | Completion.read_failed _ =>
      if IoOperation.read ∈ d.outstanding then
        d_smtp_connection_read_handle
          { d with outstanding := d.outstanding.erase IoOperation.read } none
      else none
  | Completion.write_done bytes_written =>
      if IoOperation.write ∈ d.outstanding then
        some (d_smtp_connection_write_handle
          { d with outstanding := d.outstanding.erase IoOperation.write } true bytes_written)
      else none
  | Completion.write_failed bytes_written =>
      if IoOperation.write ∈ d.outstanding then
        some (d_smtp_connection_write_handle
          { d with outstanding := d.outstanding.erase IoOperation.write } false bytes_written)
      else none
  | Completion.close_done =>
      if IoOperation.close ∈ d.outstanding then
        some (d_smtp_connection_close_handle
          { d with outstanding := d.outstanding.erase IoOperation.close } true false)
      else none
  | Completion.close_failed cancelled =>
      if IoOperation.close ∈ d.outstanding then
        some (d_smtp_connection_close_handle
          { d with outstanding := d.outstanding.erase IoOperation.close } false cancelled)
      else none
  | Completion.timer_expired id =>
      if id ∈ d.loop.sources.map Prod.fst then
        let (timeout, loop) := internal_timeout_function d.connection.timeout d.loop id
        some { d with connection := { d.connection with timeout := timeout }, loop := loop }
      else none

/-- The driver after a finite sequence of deliveries. -/
def driver_steps (d : Driver) : List Completion → Option Driver
  | [] => some d
  | c :: cs =>
      match driver_step d c with
      | none => none
      | some d => driver_steps d cs

/-! ## d_smtp_server.cpp : the supervisor -/

/-- The object `struct _DSmtpServer`: the list of live connections, each
given by the address of its object, and the cap. -/
structure DSmtpServer where
  connections : List Nat
  max_connections_count : Nat
  deriving DecidableEq, Repr

/-- The instance initialiser `d_smtp_server_init` on the cleared instance. -/
def d_smtp_server_init : DSmtpServer :=
  { connections := [], max_connections_count := 100 }

/-- The handler `d_smtp_server_accept_handler`: `client_socket` tells whether
`g_socket_listener_accept_socket_finish` returned a socket, `connection` is
the object that `d_smtp_connection_new_with_timeouts` returns when it is
called.  Returns the server after the call and whether the new socket was
shut down and closed. -/
def d_smtp_server_accept_handler (smtp_server : DSmtpServer) (client_socket : Bool)
    (connection : Nat) : DSmtpServer × Bool :=
  if client_socket = false then (smtp_server, false)
  else
    let connections_count := smtp_server.connections.length
    if connections_count ≥ smtp_server.max_connections_count then (smtp_server, true)
    else
      ({ smtp_server with connections := smtp_server.connections ++ [connection] }, false)

/-- The handler `d_smtp_server_connection_disconnected`: `g_list_find`, then
`g_list_remove`, which removes the first element equal to the connection. -/
def d_smtp_server_connection_disconnected (smtp_server : DSmtpServer)
    (connection : Nat) : DSmtpServer :=
  if connection ∈ smtp_server.connections then
    { smtp_server with connections := smtp_server.connections.erase connection }
  else smtp_server

/-- What reaches the supervisor: a completed accept, or the `disconnected`
signal of a connection. -/
inductive ServerEvent where
  | accept (client_socket : Bool) (connection : Nat)
  | disconnected (connection : Nat)
  deriving DecidableEq, Repr

/-- The supervisor after one event. -/
def server_step (smtp_server : DSmtpServer) : ServerEvent → DSmtpServer
  | ServerEvent.accept client_socket connection =>
      (d_smtp_server_accept_handler smtp_server client_socket connection).1
  | ServerEvent.disconnected connection =>
      d_smtp_server_connection_disconnected smtp_server connection

/-- The supervisor after a finite sequence of events. -/
def server_steps (smtp_server : DSmtpServer) : List ServerEvent → DSmtpServer
  | [] => smtp_server
  | e :: es => server_steps (server_step smtp_server e) es

/-! ## What a caller observes of a parse -/

/-- The success flag, the command variant, the response code and the
extracted token of an outcome of the parser. -/
def ProcessOutcome.observed (o : ProcessOutcome) :
    Bool × SMTP_COMMAND × Nat × Option (List Nat) :=
  (o.result, o.smtp_command.command, o.smtp_command.response_code, o.token)

/-! ## Observations on runs of the driver -/

/-- Whether a delivery is the completion of the close operation, successful,
failed or cancelled. -/
def Completion.is_close : Completion → Bool
  | Completion.close_done => true
  | Completion.close_failed _ => true
  | _ => false

/-- A reply starts with one of the response codes 220, 221, 250, 354 and a
space. -/
def starts_with_code (reply : List Nat) : Prop :=
  bytes "220 " <+: reply ∨ bytes "221 " <+: reply ∨ bytes "250 " <+: reply ∨
    bytes "354 " <+: reply

/-! ## A sample dialogue -/

/-- The deliveries of a dialogue up to the reply to DATA: the greeting is
written in full, then HELO, MAIL, RCPT and DATA are read, each reply being
written in full. -/
def dialogue_to_data : List Completion :=
  [Completion.write_done 40,
   Completion.read_done (bytes "HELO client.example\r\n"), Completion.write_done 15,
   Completion.read_done (bytes "MAIL FROM:<a@x>\r\n"), Completion.write_done 15,
   Completion.read_done (bytes "RCPT TO:<b@y>\r\n"), Completion.write_done 15,
   Completion.read_done (bytes "DATA\r\n"), Completion.write_done 15]

/-! ## d_smtp_connection.cpp : the timeout accessors and properties -/

/-- The function `d_smtp_connection_get_read_timeout`. -/
def d_smtp_connection_get_read_timeout (connection : DSmtpConnection) : Nat :=
  d_timeout_get_value connection.timeout TIMEOUT_OPERATION.READ

/-- The function `d_smtp_connection_get_write_timeout`; the source passes
`TIMEOUT_OPERATION_CLOSE` to `d_timeout_get_value`. -/
def d_smtp_connection_get_write_timeout (connection : DSmtpConnection) : Nat :=
  d_timeout_get_value connection.timeout TIMEOUT_OPERATION.CLOSE

/-- The function `d_smtp_connection_get_close_timeout`. -/
def d_smtp_connection_get_close_timeout (connection : DSmtpConnection) : Nat :=
  d_timeout_get_value connection.timeout TIMEOUT_OPERATION.CLOSE

/-- The function `d_smtp_connection_set_read_timeout`. -/
def d_smtp_connection_set_read_timeout (connection : DSmtpConnection)
    (timeout_value : Nat) : DSmtpConnection :=
  { connection with
    timeout := d_timeout_set_value connection.timeout TIMEOUT_OPERATION.READ timeout_value }

/-- The function `d_smtp_connection_set_write_timeout`. -/
def d_smtp_connection_set_write_timeout (connection : DSmtpConnection)
    (timeout_value : Nat) : DSmtpConnection :=
  { connection with
    timeout := d_timeout_set_value connection.timeout TIMEOUT_OPERATION.WRITE timeout_value }

/-- The function `d_smtp_connection_set_close_timeout`. -/
def d_smtp_connection_set_close_timeout (connection : DSmtpConnection)
    (timeout_value : Nat) : DSmtpConnection :=
  { connection with
    timeout := d_timeout_set_value connection.timeout TIMEOUT_OPERATION.CLOSE timeout_value }

/-- The property ids `PROP_READ_TIMEOUT`, `PROP_WRITE_TIMEOUT` and
`PROP_CLOSE_TIMEOUT`. -/
inductive ConnectionProperty where
  | PROP_READ_TIMEOUT
  | PROP_WRITE_TIMEOUT
  | PROP_CLOSE_TIMEOUT
  deriving DecidableEq, Repr

/-- The function `d_smtp_connection_get_property`: the value it stores for
the property. -/
def d_smtp_connection_get_property (connection : DSmtpConnection)
    (prop_id : ConnectionProperty) : Nat :=
  match prop_id with
  | ConnectionProperty.PROP_READ_TIMEOUT =>
      d_timeout_get_value connection.timeout TIMEOUT_OPERATION.READ
  | ConnectionProperty.PROP_WRITE_TIMEOUT =>
      d_timeout_get_value connection.timeout TIMEOUT_OPERATION.WRITE
  | ConnectionProperty.PROP_CLOSE_TIMEOUT =>
      d_timeout_get_value connection.timeout TIMEOUT_OPERATION.CLOSE

/-- The function `d_smtp_connection_set_property`. -/
def d_smtp_connection_set_property (connection : DSmtpConnection)
    (prop_id : ConnectionProperty) (value : Nat) : DSmtpConnection :=
  match prop_id with
  | ConnectionProperty.PROP_READ_TIMEOUT =>
      d_smtp_connection_set_read_timeout connection value
  | ConnectionProperty.PROP_WRITE_TIMEOUT =>
      d_smtp_connection_set_write_timeout connection value
  | ConnectionProperty.PROP_CLOSE_TIMEOUT =>
      d_smtp_connection_set_close_timeout connection value

/-! ## Runs of the timeout controller -/

/-- What happens to a timeout controller: a call of `d_timeout_start`, of
`d_timeout_stop` or of `d_timeout_set_value`, or the expiry of a timeout
source of the main loop. -/
inductive TimeoutEvent where
  | start (timeout_type : TIMEOUT_OPERATION)
  | stop (timeout_type : TIMEOUT_OPERATION)
  | set_value (timeout_type : TIMEOUT_OPERATION) (timeout_value : Nat)
  | expire (id : Nat)
  deriving DecidableEq, Repr

/-- The controller and the main loop after one event; an expiring source
must be a source of the main loop, `none` otherwise. -/
def timeout_step (st : DTimeout × MainLoop) : TimeoutEvent → Option (DTimeout × MainLoop)
  | TimeoutEvent.start k => some (d_timeout_start st.1 st.2 k)
  | TimeoutEvent.stop k => some (d_timeout_stop st.1 st.2 k)
  | TimeoutEvent.set_value k v => some (d_timeout_set_value st.1 k v, st.2)
  | TimeoutEvent.expire id =>
      if id ∈ st.2.sources.map Prod.fst then some (internal_timeout_function st.1 st.2 id)
      else none

/-- The controller and the main loop after a finite sequence of events. -/
def timeout_steps (st : DTimeout × MainLoop) : List TimeoutEvent →
    Option (DTimeout × MainLoop)
  | [] => some st
  | e :: es =>
      match timeout_step st e with
      | none => none
      | some st => timeout_steps st es

/-- The state of a controller and of the sources it created fit together: no
source exists and the stored id is 0, or exactly one source exists and the
stored id is its id, which is not 0; and the main loop hands out ids that
are not 0 and are larger than the ids in use. -/
def timer_invariant (timeout : DTimeout) (loop : MainLoop) : Prop :=
  ((loop.sources = [] ∧ timeout.current_timeout_source_id = 0) ∨
    (∃ interval, loop.sources = [(timeout.current_timeout_source_id, interval)] ∧
      timeout.current_timeout_source_id ≠ 0)) ∧
  0 < loop.next_source_id ∧
  ∀ src ∈ loop.sources, src.1 < loop.next_source_id

/-! ## The FSM states in which the driver writes and reads -/

/-- The six `*_RECEIVED` states. -/
def SMTP_STATE.is_received : SMTP_STATE → Bool
  | SMTP_STATE.HELO_RECEIVED => true
  | SMTP_STATE.EHLO_RECEIVED => true
  | SMTP_STATE.MAIL_RECEIVED => true
  | SMTP_STATE.RCPT_RECEIVED => true
  | SMTP_STATE.DATA_RECEIVED => true
  | SMTP_STATE.QUIT_RECEIVED => true
  | _ => false

/-- The `*_ACCEPTED` state that matches a `*_RECEIVED` state. -/
def SMTP_STATE.accepted_of : SMTP_STATE → SMTP_STATE
  | SMTP_STATE.HELO_RECEIVED => SMTP_STATE.HELO_ACCEPTED
  | SMTP_STATE.EHLO_RECEIVED => SMTP_STATE.EHLO_ACCEPTED
  | SMTP_STATE.MAIL_RECEIVED => SMTP_STATE.MAIL_ACCEPTED
  | SMTP_STATE.RCPT_RECEIVED => SMTP_STATE.RCPT_ACCEPTED
  | SMTP_STATE.DATA_RECEIVED => SMTP_STATE.DATA_ACCEPTED
  | SMTP_STATE.QUIT_RECEIVED => SMTP_STATE.QUIT_ACCEPTED
  | s => s

/-- The states in which a write may be outstanding: `GREETING_SENDING`, the
`*_RECEIVED` states of HELO, EHLO, MAIL, RCPT and DATA, `DATA_ENDED` and
`QUIT_ACCEPTED`. -/
def SMTP_STATE.write_pending : SMTP_STATE → Bool
  | SMTP_STATE.GREETING_SENDING => true
  | SMTP_STATE.HELO_RECEIVED => true
  | SMTP_STATE.EHLO_RECEIVED => true
  | SMTP_STATE.MAIL_RECEIVED => true
  | SMTP_STATE.RCPT_RECEIVED => true
  | SMTP_STATE.DATA_RECEIVED => true
  | SMTP_STATE.DATA_ENDED => true
  | SMTP_STATE.QUIT_ACCEPTED => true
  | _ => false

/-- The state that the transition function writes for a command in every
branch that names the command: the `*_RECEIVED` state of HELO, EHLO, MAIL,
RCPT and DATA, and `QUIT_ACCEPTED` for QUIT. -/
def SMTP_COMMAND.entered_state : SMTP_COMMAND → SMTP_STATE
  | SMTP_COMMAND.HELO => SMTP_STATE.HELO_RECEIVED
  | SMTP_COMMAND.EHLO => SMTP_STATE.EHLO_RECEIVED
  | SMTP_COMMAND.MAIL => SMTP_STATE.MAIL_RECEIVED
  | SMTP_COMMAND.RCPT => SMTP_STATE.RCPT_RECEIVED
  | SMTP_COMMAND.DATA => SMTP_STATE.DATA_RECEIVED
  | SMTP_COMMAND.QUIT => SMTP_STATE.QUIT_ACCEPTED
  | SMTP_COMMAND.UNKNOWN => SMTP_STATE.ERROR

/-- The states in which a read may be outstanding: the states that a
completed write leaves behind, `CLOSE` apart. -/
def SMTP_STATE.read_pending : SMTP_STATE → Bool
  | SMTP_STATE.GREETING_SENT => true
  | SMTP_STATE.HELO_ACCEPTED => true
  | SMTP_STATE.EHLO_ACCEPTED => true
  | SMTP_STATE.MAIL_ACCEPTED => true
  | SMTP_STATE.RCPT_ACCEPTED => true
  | SMTP_STATE.DATA_ACCEPTED => true
  | SMTP_STATE.DATA_ENDED => true
  | _ => false

/-- The outstanding operations of a driver fit its FSM state: a write alone,
in a state in which a write may be outstanding; a read alone, in a state in
which a read may be outstanding; a close alone; or nothing. -/
def driver_io_invariant (d : Driver) : Prop :=
  (d.outstanding = [IoOperation.write] ∧
      d.connection.state.state.write_pending = true) ∨
  (d.outstanding = [IoOperation.read] ∧
      d.connection.state.state.read_pending = true) ∨
  d.outstanding = [IoOperation.close] ∨
  d.outstanding = []

/-- What one delivery does between the driver `d` before and the driver
`d1` after it, as far as the outstanding operations, the buffers written and
the `*_RECEIVED` states go: in a `*_RECEIVED` state nothing is written and the
state is kept or left for the matching `*_ACCEPTED` state; a `*_RECEIVED`
state is entered by the completion of the read alone, with one buffer written
and the write alone outstanding; one buffer at most is written, and only on
the completion of the read, with the write alone outstanding afterwards. -/
def driver_step_facts (d d1 : Driver) : Prop :=
  (d.connection.state.state.is_received = true →
    d1.written = d.written ∧
    (d1.connection.state.state = d.connection.state.state ∨
      d1.connection.state.state = d.connection.state.state.accepted_of)) ∧
  (d1.connection.state.state.is_received = true →
    d1.connection.state.state ≠ d.connection.state.state →
    d.outstanding = [IoOperation.read] ∧ d1.outstanding = [IoOperation.write] ∧
    ∃ reply, d1.written = d.written ++ [reply]) ∧
  (d1.written = d.written ∨
    (∃ reply, d1.written = d.written ++ [reply]) ∧
      d.outstanding = [IoOperation.read] ∧ d1.outstanding = [IoOperation.write])

/-! ## Theorems : the FSM -/

/-- C1: for every state and every command, `d_smtp_state_next_state_by_command`
sets the state to the target of the OnCommand table and returns TRUE when the
table has a cell, and sets the state to ERROR and returns FALSE otherwise. -/
theorem next_state_by_command_eq_table (S : SMTP_STATE) (C : SMTP_COMMAND) :
    d_smtp_state_next_state_by_command { state := S } C =
      (match onCommandTable S C with
       | some target => (true, { state := target })
       | none => (false, { state := SMTP_STATE.ERROR })) := by
  cases S <;> cases C <;> rfl

/-- C2: for every state, `d_smtp_state_next_by_write_complete` sets the state
to the target listed for OnWriteComplete (ERROR for the eight states without a
listed transition) and returns TRUE exactly when the resulting state is not
ERROR. -/
theorem next_by_write_complete_eq_table (S : SMTP_STATE) :
    (d_smtp_state_next_by_write_complete { state := S }).2 =
        { state := onWriteCompleteTable S } ∧
      ((d_smtp_state_next_by_write_complete { state := S }).1 = true ↔
        (d_smtp_state_next_by_write_complete { state := S }).2.state ≠
          SMTP_STATE.ERROR) := by
  cases S <;> decide

/-- C4: in `EHLO_RECEIVED`, a `*_RECEIVED` state, the commands MAIL and QUIT
are accepted by `d_smtp_state_next_state_by_command` (the FSM moves to
`MAIL_RECEIVED` and `QUIT_ACCEPTED`), while `EHLO_ACCEPTED` accepts no
command at all; the five other `*_RECEIVED` states reject every command. -/
theorem ehlo_received_accepts_commands :
    d_smtp_state_next_state_by_command { state := SMTP_STATE.EHLO_RECEIVED }
        SMTP_COMMAND.MAIL = (true, { state := SMTP_STATE.MAIL_RECEIVED }) ∧
    d_smtp_state_next_state_by_command { state := SMTP_STATE.EHLO_RECEIVED }
        SMTP_COMMAND.QUIT = (true, { state := SMTP_STATE.QUIT_ACCEPTED }) ∧
    (∀ C, d_smtp_state_next_state_by_command { state := SMTP_STATE.EHLO_ACCEPTED } C =
        (false, { state := SMTP_STATE.ERROR })) ∧
    (∀ C,
      d_smtp_state_next_state_by_command { state := SMTP_STATE.HELO_RECEIVED } C =
        (false, { state := SMTP_STATE.ERROR }) ∧
      d_smtp_state_next_state_by_command { state := SMTP_STATE.MAIL_RECEIVED } C =
        (false, { state := SMTP_STATE.ERROR }) ∧
      d_smtp_state_next_state_by_command { state := SMTP_STATE.RCPT_RECEIVED } C =
        (false, { state := SMTP_STATE.ERROR }) ∧
      d_smtp_state_next_state_by_command { state := SMTP_STATE.DATA_RECEIVED } C =
        (false, { state := SMTP_STATE.ERROR }) ∧
      d_smtp_state_next_state_by_command { state := SMTP_STATE.QUIT_RECEIVED } C =
        (false, { state := SMTP_STATE.ERROR })) := by
  refine ⟨rfl, rfl, ?_, ?_⟩
  · intro C
    cases C <;> rfl
  · intro C
    cases C <;> exact ⟨rfl, rfl, rfl, rfl, rfl⟩

/-- Events other than `force` leave an FSM in `ERROR` in `ERROR`. -/
theorem fsm_run_error (evs : List Event) (h : ∀ e ∈ evs, e.is_force = false) :
    fsm_run { state := SMTP_STATE.ERROR } evs = { state := SMTP_STATE.ERROR } := by
  induction evs with
  | nil => rfl
  | cons e es ih =>
      have he : e.is_force = false := h e (List.mem_cons_self e es)
      have hes : ∀ e' ∈ es, e'.is_force = false :=
        fun e' h' => h e' (List.mem_cons_of_mem e h')
      cases e with
      | command c =>
          have hstep : fsm_step { state := SMTP_STATE.ERROR } (Event.command c) =
              (false, { state := SMTP_STATE.ERROR }) := by
            cases c <;> rfl
          simp only [fsm_run, hstep]
          exact ih hes
      | write_complete =>
          simp only [fsm_run]
          exact ih hes
      | force s => simp [Event.is_force] at he

/-- C5: from `ERROR` and from `CLOSE` every command event and the
write-complete event are rejected (FALSE is returned, the state is `ERROR`
afterwards), and an FSM in `ERROR` is in `ERROR` after every finite sequence
of command and write-complete events. -/
theorem error_close_terminal :
    (∀ C, d_smtp_state_next_state_by_command { state := SMTP_STATE.ERROR } C =
        (false, { state := SMTP_STATE.ERROR })) ∧
    d_smtp_state_next_by_write_complete { state := SMTP_STATE.ERROR } =
        (false, { state := SMTP_STATE.ERROR }) ∧
    (∀ C, d_smtp_state_next_state_by_command { state := SMTP_STATE.CLOSE } C =
        (false, { state := SMTP_STATE.ERROR })) ∧
    d_smtp_state_next_by_write_complete { state := SMTP_STATE.CLOSE } =
        (false, { state := SMTP_STATE.ERROR }) ∧
    (∀ evs : List Event, (∀ e ∈ evs, e.is_force = false) →
      fsm_run { state := SMTP_STATE.ERROR } evs = { state := SMTP_STATE.ERROR }) := by
  refine ⟨?_, rfl, ?_, rfl, fsm_run_error⟩
  · intro C
    cases C <;> rfl
  · intro C
    cases C <;> rfl

/-- Witness of `error_close_terminal`: a command and a write completion
applied in `ERROR`. -/
theorem error_close_terminal_witness :
    (∀ e ∈ [Event.command SMTP_COMMAND.HELO, Event.write_complete],
        e.is_force = false) ∧
    fsm_run { state := SMTP_STATE.ERROR }
        [Event.command SMTP_COMMAND.HELO, Event.write_complete] =
      { state := SMTP_STATE.ERROR } :=
  ⟨by decide,
   error_close_terminal.2.2.2.2
     [Event.command SMTP_COMMAND.HELO, Event.write_complete] (by decide)⟩

/-! ## Theorems : runs of the FSM -/

/-- A command either is accepted and moves the phase forward by that
command, or is rejected and leaves the FSM in `ERROR`. -/
theorem command_step_phase (S : SMTP_STATE) (c : SMTP_COMMAND) :
    ((d_smtp_state_next_state_by_command { state := S } c).1 = true ∧
      (phase_of S).next c =
        some (phase_of (d_smtp_state_next_state_by_command { state := S } c).2.state)) ∨
    ((d_smtp_state_next_state_by_command { state := S } c).1 = false ∧
      (d_smtp_state_next_state_by_command { state := S } c).2 =
        { state := SMTP_STATE.ERROR }) := by
  cases S <;> cases c <;> decide

/-- A write completion keeps the phase or leaves the FSM in `ERROR`. -/
theorem write_complete_phase (S : SMTP_STATE) :
    phase_of (d_smtp_state_next_by_write_complete { state := S }).2.state = phase_of S ∨
    (d_smtp_state_next_by_write_complete { state := S }).2 =
      { state := SMTP_STATE.ERROR } := by
  cases S <;> decide

/-- In `ERROR` the driver's events accept no command. -/
theorem accepted_commands_error (evs : List Event)
    (h : driver_run { state := SMTP_STATE.ERROR } evs = true) :
    accepted_commands { state := SMTP_STATE.ERROR } evs = [] := by
  induction evs with
  | nil => rfl
  | cons e es ih =>
      cases e with
      | command c =>
          have hstep : fsm_step { state := SMTP_STATE.ERROR } (Event.command c) =
              (false, { state := SMTP_STATE.ERROR }) := by
            cases c <;> rfl
          simp only [driver_run, driver_event_ok, Bool.true_and, hstep] at h
          simp only [accepted_commands, hstep]
          simpa using ih h
      | write_complete =>
          have hstep : fsm_step { state := SMTP_STATE.ERROR } Event.write_complete =
              (false, { state := SMTP_STATE.ERROR }) := rfl
          simp only [driver_run, driver_event_ok, Bool.true_and, hstep] at h
          simp only [accepted_commands, hstep]
          exact ih h
      | force s =>
          simp [driver_run, driver_event_ok] at h

/-- The accepted commands of a driver run can be followed from the phase of
the state the run starts in. -/
theorem accepted_commands_follow (evs : List Event) :
    ∀ S : SMTP_STATE, driver_run { state := S } evs = true →
      (phase_of S).follows (accepted_commands { state := S } evs) = true := by
  induction evs with
  | nil => intro S _; rfl
  | cons e es ih =>
      intro S h
      cases e with
      | command c =>
          simp only [driver_run, driver_event_ok, Bool.true_and, fsm_step] at h
          simp only [accepted_commands, fsm_step]
          rcases command_step_phase S c with ⟨hok, hph⟩ | ⟨hno, herr⟩
          · rw [if_pos hok]
            simp only [Phase.follows, hph]
            exact ih _ h
          · rw [if_neg (by simp [hno])]
            rw [herr] at h ⊢
            rw [accepted_commands_error es h]
            rfl
      | write_complete =>
          simp only [driver_run, driver_event_ok, Bool.true_and, fsm_step] at h
          simp only [accepted_commands, fsm_step]
          rcases write_complete_phase S with hph | herr
          · rw [← hph]
            exact ih _ h
          · rw [herr] at h ⊢
            rw [accepted_commands_error es h]
            rfl
      | force s =>
          simp only [driver_run, driver_event_ok, Bool.and_eq_true, decide_eq_true_eq,
            fsm_step, d_smtp_state_set_next_state] at h
          obtain ⟨⟨hs, hS⟩, hrun⟩ := h
          subst hs
          subst hS
          simp only [accepted_commands, fsm_step, d_smtp_state_set_next_state]
          exact ih _ hrun

/-- A driver run of a concatenation is a driver run of its first part,
followed by a driver run of the second part from the state reached. -/
theorem driver_run_append (evs1 evs2 : List Event) :
    ∀ s : DSmtpState, driver_run s (evs1 ++ evs2) =
      (driver_run s evs1 && driver_run (fsm_run s evs1) evs2) := by
  induction evs1 with
  | nil => intro s; simp [driver_run, fsm_run]
  | cons e es ih =>
      intro s
      show (driver_event_ok s e && driver_run (fsm_step s e).2 (es ++ evs2)) = _
      rw [ih]
      simp only [driver_run, fsm_run, Bool.and_assoc]

/-! ## Theorems : command words -/

/-- Nothing follows the end of a transaction. -/
theorem follows_done (w : List SMTP_COMMAND) (h : Phase.done.follows w = true) :
    w = [] := by
  cases w with
  | nil => rfl
  | cons c w => cases c <;> simp [Phase.follows, Phase.next] at h

/-- After DATA only a QUIT follows. -/
theorem follows_data (w : List SMTP_COMMAND) (h : Phase.data.follows w = true) :
    w = [] ∨ w = [SMTP_COMMAND.QUIT] := by
  cases w with
  | nil => exact Or.inl rfl
  | cons c w =>
      cases c <;> simp [Phase.follows, Phase.next] at h
      exact Or.inr (by rw [follows_done w h])

/-- After a RCPT: further RCPTs, then nothing, a QUIT, a DATA or DATA QUIT. -/
theorem follows_rcpt (w : List SMTP_COMMAND) (h : Phase.rcpt.follows w = true) :
    ∃ j t, w = List.replicate j SMTP_COMMAND.RCPT ++ t ∧
      (t = [] ∨ t = [SMTP_COMMAND.QUIT] ∨ t = [SMTP_COMMAND.DATA] ∨
        t = [SMTP_COMMAND.DATA, SMTP_COMMAND.QUIT]) := by
  induction w with
  | nil => exact ⟨0, [], rfl, Or.inl rfl⟩
  | cons c w ih =>
      cases c <;> simp [Phase.follows, Phase.next] at h
      · obtain ⟨j, t, hw, ht⟩ := ih h
        exact ⟨j + 1, t, by rw [hw, List.replicate_succ, List.cons_append], ht⟩
      · rcases follows_data w h with hw | hw
        · exact ⟨0, [SMTP_COMMAND.DATA], by simp [hw], Or.inr (Or.inr (Or.inl rfl))⟩
        · exact ⟨0, [SMTP_COMMAND.DATA, SMTP_COMMAND.QUIT], by simp [hw],
            Or.inr (Or.inr (Or.inr rfl))⟩
      · exact ⟨0, [SMTP_COMMAND.QUIT], by simp [follows_done w h], Or.inr (Or.inl rfl)⟩

/-- A word that can be followed from the start is a prefix of a transaction
word or of one cut short by a QUIT. -/
theorem follows_start_transaction (w : List SMTP_COMMAND)
    (h : Phase.start.follows w = true) : TransactionPrefix w := by
  have key : ∀ g, (g = SMTP_COMMAND.HELO ∨ g = SMTP_COMMAND.EHLO) →
      ∀ w1, Phase.greeted.follows w1 = true → TransactionPrefix (g :: w1) := by
    intro g hg w1 h1
    cases w1 with
    | nil => exact ⟨g, 0, hg, Or.inr (Or.inl ⟨[SMTP_COMMAND.QUIT], rfl⟩)⟩
    | cons c w2 =>
        cases c <;> simp [Phase.follows, Phase.next] at h1
        · -- MAIL
          cases w2 with
          | nil => exact ⟨g, 0, hg, Or.inr (Or.inr (Or.inl ⟨[SMTP_COMMAND.QUIT], rfl⟩))⟩
          | cons c w3 =>
              cases c <;> simp [Phase.follows, Phase.next] at h1
              · -- RCPT
                obtain ⟨j, t, hw, ht⟩ := follows_rcpt w3 h1
                subst hw
                rcases ht with ht | ht | ht | ht <;> subst ht
                · exact ⟨g, j, hg, Or.inl ⟨[SMTP_COMMAND.DATA, SMTP_COMMAND.QUIT], by
                    simp [full_word, List.replicate_succ]⟩⟩
                · exact ⟨g, j, hg, Or.inr (Or.inr (Or.inr ⟨[], by
                    simp [rcpt_quit_word, List.replicate_succ]⟩))⟩
                · exact ⟨g, j, hg, Or.inl ⟨[SMTP_COMMAND.QUIT], by
                    simp [full_word, List.replicate_succ]⟩⟩
                · exact ⟨g, j, hg, Or.inl ⟨[], by
                    simp [full_word, List.replicate_succ]⟩⟩
              · -- QUIT
                rw [follows_done w3 h1]
                exact ⟨g, 0, hg, Or.inr (Or.inr (Or.inl ⟨[], rfl⟩))⟩
        · -- QUIT
          rw [follows_done w2 h1]
          exact ⟨g, 0, hg, Or.inr (Or.inl ⟨[], rfl⟩)⟩
  cases w with
  | nil => exact ⟨SMTP_COMMAND.HELO, 0, Or.inl rfl, Or.inl ⟨_, rfl⟩⟩
  | cons c w1 =>
      cases c <;> simp [Phase.follows, Phase.next] at h
      · exact key _ (Or.inl rfl) w1 h
      · exact key _ (Or.inr rfl) w1 h

/-- In a word that can be followed, the command `b` occurs only after a
command satisfying `A`, provided `b` cannot come next in the phases of `P`
and these phases are left only by a command satisfying `A`. -/
theorem follows_only_after (A : SMTP_COMMAND → Bool) (b : SMTP_COMMAND)
    (P : Phase → Bool)
    (h1 : ∀ p, P p = true → p.next b = none)
    (h2 : ∀ p c q, P p = true → p.next c = some q → A c = false → P q = true) :
    ∀ (pre : List SMTP_COMMAND) (p : Phase) (post : List SMTP_COMMAND),
      P p = true → p.follows (pre ++ b :: post) = true → ∃ x ∈ pre, A x = true := by
  intro pre
  induction pre with
  | nil =>
      intro p post hp h
      simp [Phase.follows, h1 p hp] at h
  | cons c pre ih =>
      intro p post hp h
      simp only [List.cons_append, Phase.follows] at h
      cases hq : p.next c with
      | none => simp [hq] at h
      | some q =>
          simp only [hq] at h
          cases hA : A c with
          | true => exact ⟨c, List.mem_cons_self c pre, hA⟩
          | false =>
              obtain ⟨x, hx, hAx⟩ := ih q post (h2 p c q hp hq hA) h
              exact ⟨x, List.mem_cons_of_mem c hx, hAx⟩

/-- In a word that can be followed, nothing comes after a QUIT. -/
theorem follows_quit_last :
    ∀ (pre : List SMTP_COMMAND) (p : Phase) (post : List SMTP_COMMAND),
      p.follows (pre ++ SMTP_COMMAND.QUIT :: post) = true → post = [] := by
  intro pre
  induction pre with
  | nil =>
      intro p post h
      cases p <;> simp [Phase.follows, Phase.next] at h <;> exact follows_done post h
  | cons c pre ih =>
      intro p post h
      simp only [List.cons_append, Phase.follows] at h
      cases hq : p.next c with
      | none => simp [hq] at h
      | some q =>
          simp only [hq] at h
          exact ih q post h

/-- A word that can be followed holds at most one MAIL, and none once the
MAIL is past. -/
theorem follows_count_mail :
    ∀ (w : List SMTP_COMMAND) (p : Phase), p.follows w = true →
      w.count SMTP_COMMAND.MAIL ≤
        (if p = Phase.start ∨ p = Phase.greeted then 1 else 0) := by
  intro w
  induction w with
  | nil => intro p _; simp
  | cons c w ih =>
      intro p h
      simp only [Phase.follows] at h
      cases hq : p.next c with
      | none => simp [hq] at h
      | some q =>
          simp only [hq] at h
          have hw := ih q h
          cases p <;> cases c <;> simp [Phase.next] at hq <;> subst hq <;>
            simp [List.count_cons] at hw ⊢ <;> omega

/-- A word that can be followed holds at most one DATA, and none once the
DATA is past. -/
theorem follows_count_data :
    ∀ (w : List SMTP_COMMAND) (p : Phase), p.follows w = true →
      w.count SMTP_COMMAND.DATA ≤
        (if p = Phase.data ∨ p = Phase.done then 0 else 1) := by
  intro w
  induction w with
  | nil => intro p _; simp
  | cons c w ih =>
      intro p h
      simp only [Phase.follows] at h
      cases hq : p.next c with
      | none => simp [hq] at h
      | some q =>
          simp only [hq] at h
          have hw := ih q h
          cases p <;> cases c <;> simp [Phase.next] at hq <;> subst hq <;>
            simp [List.count_cons] at hw ⊢ <;> omega

/-- C3: on every run from `GREETING_SENDING` under the driver's events
(commands, write completions, and the forced `DATA_ENDED` in `DATA_ACCEPTED`
only), the accepted commands form a prefix of a word
`(HELO|EHLO) MAIL RCPT+ DATA QUIT` or of such a word cut short by a QUIT after
the greeting command, the MAIL or a RCPT; MAIL and DATA are accepted at most
once, DATA only after a RCPT, RCPT only after a MAIL, MAIL only after a HELO
or EHLO, from `DATA_ENDED` on only QUIT is accepted, and nothing is accepted
after a QUIT. -/
theorem accepted_commands_transaction (evs : List Event)
    (h : driver_run { state := SMTP_STATE.GREETING_SENDING } evs = true) :
    TransactionPrefix (accepted_commands { state := SMTP_STATE.GREETING_SENDING } evs) ∧
    (accepted_commands { state := SMTP_STATE.GREETING_SENDING } evs).count
        SMTP_COMMAND.MAIL ≤ 1 ∧
    (accepted_commands { state := SMTP_STATE.GREETING_SENDING } evs).count
        SMTP_COMMAND.DATA ≤ 1 ∧
    (∀ pre post, accepted_commands { state := SMTP_STATE.GREETING_SENDING } evs =
        pre ++ SMTP_COMMAND.DATA :: post → SMTP_COMMAND.RCPT ∈ pre) ∧
    (∀ pre post, accepted_commands { state := SMTP_STATE.GREETING_SENDING } evs =
        pre ++ SMTP_COMMAND.RCPT :: post → SMTP_COMMAND.MAIL ∈ pre) ∧
    (∀ pre post, accepted_commands { state := SMTP_STATE.GREETING_SENDING } evs =
        pre ++ SMTP_COMMAND.MAIL :: post →
          SMTP_COMMAND.HELO ∈ pre ∨ SMTP_COMMAND.EHLO ∈ pre) ∧
    (∀ evs1 evs2, evs = evs1 ++ evs2 →
        (fsm_run { state := SMTP_STATE.GREETING_SENDING } evs1).state =
          SMTP_STATE.DATA_ENDED →
        ∀ c ∈ accepted_commands
            (fsm_run { state := SMTP_STATE.GREETING_SENDING } evs1) evs2,
          c = SMTP_COMMAND.QUIT) ∧
    (∀ pre post, accepted_commands { state := SMTP_STATE.GREETING_SENDING } evs =
        pre ++ SMTP_COMMAND.QUIT :: post → post = []) := by
  have hf : Phase.start.follows
      (accepted_commands { state := SMTP_STATE.GREETING_SENDING } evs) = true :=
    accepted_commands_follow evs SMTP_STATE.GREETING_SENDING h
  refine ⟨follows_start_transaction _ hf, ?_, ?_, ?_, ?_, ?_, ?_, ?_⟩
  · simpa using follows_count_mail _ _ hf
  · simpa using follows_count_data _ _ hf
  · intro pre post hw
    rw [hw] at hf
    obtain ⟨x, hx, hA⟩ := follows_only_after (fun c => decide (c = SMTP_COMMAND.RCPT))
      SMTP_COMMAND.DATA
      (fun p => decide (p ≠ Phase.rcpt))
      (by decide) (by decide) pre Phase.start post (by decide) hf
    simp only [decide_eq_true_eq] at hA
    exact hA ▸ hx
  · intro pre post hw
    rw [hw] at hf
    obtain ⟨x, hx, hA⟩ := follows_only_after (fun c => decide (c = SMTP_COMMAND.MAIL))
      SMTP_COMMAND.RCPT
      (fun p => decide (p ≠ Phase.mail ∧ p ≠ Phase.rcpt))
      (by decide) (by decide) pre Phase.start post (by decide) hf
    simp only [decide_eq_true_eq] at hA
    exact hA ▸ hx
  · intro pre post hw
    rw [hw] at hf
    obtain ⟨x, hx, hA⟩ := follows_only_after
      (fun c => decide (c = SMTP_COMMAND.HELO ∨ c = SMTP_COMMAND.EHLO))
      SMTP_COMMAND.MAIL
      (fun p => decide (p ≠ Phase.greeted))
      (by decide) (by decide) pre Phase.start post (by decide) hf
    simp only [decide_eq_true_eq] at hA
    rcases hA with hA | hA
    · exact Or.inl (hA ▸ hx)
    · exact Or.inr (hA ▸ hx)
  · intro evs1 evs2 hevs hst c hc
    rw [hevs, driver_run_append, Bool.and_eq_true] at h
    have h2 := h.2
    have hs : fsm_run { state := SMTP_STATE.GREETING_SENDING } evs1 =
        { state := SMTP_STATE.DATA_ENDED } := by
      cases hr : fsm_run { state := SMTP_STATE.GREETING_SENDING } evs1 with
      | mk st =>
          rw [hr] at hst
          simp only at hst
          rw [hst]
    rw [hs] at h2 hc
    have hfol := accepted_commands_follow evs2 SMTP_STATE.DATA_ENDED h2
    rcases follows_data _ hfol with hw | hw
    · rw [hw] at hc
      simp at hc
    · rw [hw] at hc
      simpa using hc
  · intro pre post hw
    rw [hw] at hf
    exact follows_quit_last pre Phase.start post hf

/-- Witness of `accepted_commands_transaction`: the complete dialogue HELO,
MAIL, RCPT, DATA, end of data, QUIT, each followed by its write completion. -/
theorem accepted_commands_transaction_witness :
    driver_run { state := SMTP_STATE.GREETING_SENDING }
        [Event.write_complete,
         Event.command SMTP_COMMAND.HELO, Event.write_complete,
         Event.command SMTP_COMMAND.MAIL, Event.write_complete,
         Event.command SMTP_COMMAND.RCPT, Event.write_complete,
         Event.command SMTP_COMMAND.DATA, Event.write_complete,
         Event.force SMTP_STATE.DATA_ENDED, Event.write_complete,
         Event.command SMTP_COMMAND.QUIT, Event.write_complete] = true ∧
    TransactionPrefix (accepted_commands { state := SMTP_STATE.GREETING_SENDING }
        [Event.write_complete,
         Event.command SMTP_COMMAND.HELO, Event.write_complete,
         Event.command SMTP_COMMAND.MAIL, Event.write_complete,
         Event.command SMTP_COMMAND.RCPT, Event.write_complete,
         Event.command SMTP_COMMAND.DATA, Event.write_complete,
         Event.force SMTP_STATE.DATA_ENDED, Event.write_complete,
         Event.command SMTP_COMMAND.QUIT, Event.write_complete]) :=
  ⟨by decide, (accepted_commands_transaction _ (by decide)).1⟩

/-! ## Theorems : the scanning primitives of the parser -/

/-- The macro `CRLF` is the two bytes 13, 10. -/
theorem CRLF_eq : CRLF = [13, 10] := rfl

/-- A list whose bytes up to the first NUL are four bytes long starts with
these four bytes. -/
theorem take_four_of_verb (buffer word : List Nat) (hw : word.length = 4)
    (h : verb_of buffer = word) : buffer.take 4 = word := by
  unfold verb_of at h
  have hpre : (buffer.take 4).takeWhile (fun b => b ≠ 0) <+: buffer.take 4 :=
    List.takeWhile_prefix _
  rw [h] at hpre
  have hlen : (buffer.take 4).length ≤ word.length := by
    rw [hw, List.length_take]
    exact Nat.min_le_left _ _
  exact (List.IsPrefix.eq_of_length_le hpre hlen).symm

/-- Taking bytes while they are not `c` is the identity on a list without
`c`. -/
theorem takeWhile_ne_of_not_mem (c : Nat) (l : List Nat) (h : c ∉ l) :
    l.takeWhile (fun b => b ≠ c) = l := by
  induction l with
  | nil => rfl
  | cons b l ih =>
      have hb : b ≠ c := fun hbc => h (hbc ▸ List.mem_cons_self b l)
      have hl : c ∉ l := fun hm => h (List.mem_cons_of_mem b hm)
      rw [List.takeWhile_cons, if_pos (by simpa using hb), ih hl]

/-- No CRLF starts inside a list without CR that is followed by a list
without CRLF. -/
theorem no_crlf_append (A B : List Nat) (hA : 13 ∉ A) (hB : ¬ [13, 10] <:+: B) :
    ¬ [13, 10] <:+: A ++ B := by
  induction A with
  | nil => simpa using hB
  | cons a A ih =>
      have ha : a ≠ 13 := fun h => hA (h ▸ List.mem_cons_self a A)
      have hA' : 13 ∉ A := fun hm => hA (List.mem_cons_of_mem a hm)
      rw [List.cons_append, List.infix_cons_iff]
      rintro (hp | hi)
      · obtain ⟨t, ht⟩ := hp
        simp only [List.cons_append, List.cons.injEq] at ht
        exact ha ht.1.symm
      · exact ih hA' hi

/-- The call `strstr(line, CRLF)` on NUL-free bytes without CRLF that are
followed by a CRLF finds that CRLF. -/
theorem strstr_from_first (rest : List Nat) :
    ∀ (L : List Nat) (i : Nat), 0 ∉ L → ¬ [13, 10] <:+: L →
      strstr_from [13, 10] (L ++ 13 :: 10 :: rest) i = some (some (i + L.length)) := by
  intro L
  induction L with
  | nil =>
      intro i _ _
      simp [strstr_from]
  | cons b L ih =>
      intro i h0 hinf
      have hb : b ≠ 0 := fun h => h0 (h ▸ List.mem_cons_self b L)
      have h0' : 0 ∉ L := fun hm => h0 (List.mem_cons_of_mem b hm)
      rw [List.infix_cons_iff, not_or] at hinf
      have hnp : ¬ [13, 10] <+: b :: (L ++ 13 :: 10 :: rest) := by
        rintro ⟨t, ht⟩
        cases L with
        | nil => simp at ht
        | cons c L' =>
            simp only [List.cons_append, List.cons.injEq] at ht
            exact hinf.1 ⟨L', by simp [ht.1, ht.2.1]⟩
      show strstr_from [13, 10] (b :: (L ++ 13 :: 10 :: rest)) i = _
      rw [strstr_from, if_neg hnp, if_neg hb, ih (i + 1) h0' hinf.2]
      simp only [List.length_cons]
      congr 2
      omega

/-- The byte right after a prefix `pre` of the buffer. -/
theorem get?_after (pre : List Nat) (x : Nat) (t : List Nat) :
    (pre ++ x :: t).get? pre.length = some x := by
  induction pre with
  | nil => rfl
  | cons a pre ih => simpa using ih

/-- The loop of `eat_tok` on a line `pre ++ suf` that ends at the CRLF, begun
after `pre`, for a word without CR: the pointer after the word when the word
starts `suf`, the null pointer otherwise. -/
theorem eat_tok_loop_spec (rest : List Nat) :
    ∀ (word pre suf : List Nat), 13 ∉ word →
      eat_tok_loop (pre ++ suf ++ 13 :: 10 :: rest) (some (pre ++ suf).length) word
          pre.length =
        some (if word <+: suf then some (pre.length + word.length) else none) := by
  intro word
  induction word with
  | nil =>
      intro pre suf _
      simp [eat_tok_loop]
  | cons w word ih =>
      intro pre suf hw
      have hw13 : w ≠ 13 := fun h => hw (h ▸ List.mem_cons_self w word)
      have hword : 13 ∉ word := fun hm => hw (List.mem_cons_of_mem w hm)
      cases suf with
      | nil =>
          have hget : (pre ++ [] ++ 13 :: 10 :: rest).get? pre.length = some 13 := by
            simpa using get?_after pre 13 (10 :: rest)
          rw [eat_tok_loop, hget]
          simp [Ne.symm hw13]
      | cons b suf =>
          have hget : (pre ++ b :: suf ++ 13 :: 10 :: rest).get? pre.length = some b := by
            simpa using get?_after pre b (suf ++ 13 :: 10 :: rest)
          rw [eat_tok_loop, hget]
          by_cases hb : b = w
          · subst hb
            have hne : ¬ (some pre.length = some (pre ++ b :: suf).length) := by
              simp
            have hih := ih (pre ++ [b]) suf hword
            simp only [List.append_assoc, List.singleton_append, List.length_append,
              List.length_singleton] at hih
            simp only [ne_eq, not_true_eq_false, if_false, hne, List.append_assoc,
              List.cons_append]
            simp only [List.append_assoc, List.cons_append] at hih
            rw [List.length_append pre (b :: suf), hih]
            simp only [List.prefix_cons_inj, List.length_cons]
            congr 1
            by_cases hp : word <+: suf
            · simp [hp]; omega
            · simp [hp]
          · have hnp : ¬ (w :: word <+: b :: suf) := by
              rintro ⟨t, ht⟩
              simp only [List.cons_append, List.cons.injEq] at ht
              exact hb ht.1.symm
            simp [hb, hnp]

/-- A call of `eat_tok` in a chain of calls from the start of the line: when
the pointer stands after `A` if `A` starts the line and is null otherwise,
the result stands after `A ++ word` if that starts the line and is null
otherwise. -/
theorem eat_tok_chain (L rest A word : List Nat) (hw : 13 ∉ word) :
    eat_tok (L ++ 13 :: 10 :: rest) (if A <+: L then some A.length else none)
        (some L.length) word =
      some (if A ++ word <+: L then some (A ++ word).length else none) := by
  by_cases hA : A <+: L
  · obtain ⟨suf, rfl⟩ := hA
    rw [if_pos (List.prefix_append A suf)]
    simp only [eat_tok]
    rw [eat_tok_loop_spec rest word A suf hw]
    simp only [List.prefix_append_right_inj, List.length_append]
  · have hAw : ¬ (A ++ word <+: L) := fun h =>
      hA ((List.prefix_append A word).trans h)
    rw [if_neg hA, if_neg hAw]
    rfl

/-- The loop of `find_until` on a line `pre ++ suf` that ends at the CRLF,
begun after `pre`: it stops at the first byte `c` of `suf`, or at the CR. -/
theorem find_until_loop_spec (rest : List Nat) (c : Nat) :
    ∀ (suf pre : List Nat),
      find_until_loop (some (pre ++ suf).length) c (suf ++ 13 :: 10 :: rest)
          pre.length =
        some (pre.length + (suf.takeWhile (fun b => b ≠ c)).length) := by
  intro suf
  induction suf with
  | nil =>
      intro pre
      simp [find_until_loop]
  | cons b suf ih =>
      intro pre
      have hih := ih (pre ++ [b])
      simp only [List.append_assoc, List.singleton_append, List.length_append,
        List.length_singleton] at hih
      by_cases hb : b = c
      · subst hb
        simp [find_until_loop]
      · have hcond : b ≠ c ∧ some pre.length ≠ some (pre ++ b :: suf).length := by
          refine ⟨hb, ?_⟩
          simp
        rw [List.cons_append, find_until_loop, if_pos hcond,
          List.length_append pre (b :: suf), hih]
        rw [List.takeWhile_cons, if_pos (by simpa using hb)]
        simp only [List.length_cons]
        congr 1
        omega

/-- A list that holds `c` splits at its first `c`. -/
theorem split_at_first (c : Nat) (l : List Nat) (h : c ∈ l) :
    ∃ r, l = l.takeWhile (fun b => b ≠ c) ++ c :: r := by
  induction l with
  | nil => simp at h
  | cons b l ih =>
      by_cases hb : b = c
      · subst hb
        exact ⟨l, by simp⟩
      · have hl : c ∈ l := by
          rcases List.mem_cons.mp h with h' | h'
          · exact absurd h'.symm hb
          · exact h'
        obtain ⟨r, hr⟩ := ih hl
        refine ⟨r, ?_⟩
        rw [List.takeWhile_cons, if_pos (by simpa using hb), List.cons_append, ← hr]

/-- The bytes taken before the first `c` do not hold `c`. -/
theorem not_mem_takeWhile_ne (c : Nat) (l : List Nat) :
    c ∉ l.takeWhile (fun b => b ≠ c) := by
  intro h
  have := List.mem_takeWhile_imp h
  simp at this

/-- A decomposition at a first `c` is the one `takeWhile` computes. -/
theorem takeWhile_of_split (c : Nat) (a r : List Nat) (ha : c ∉ a) :
    (a ++ c :: r).takeWhile (fun b => b ≠ c) = a := by
  induction a with
  | nil => simp
  | cons b a ih =>
      have hb : b ≠ c := fun h => ha (h ▸ List.mem_cons_self b a)
      have ha' : c ∉ a := fun hm => ha (List.mem_cons_of_mem b hm)
      rw [List.cons_append, List.takeWhile_cons, if_pos (by simpa using hb), ih ha']

/-- The call `g_string_new_len(init, len)` on `len` NUL-free bytes of the
buffer gives these bytes. -/
theorem g_string_new_len_spec (pre tok post : List Nat) (h0 : 0 ∉ tok) :
    g_string_new_len (pre ++ tok ++ post) pre.length (tok.length : Int) = some tok := by
  unfold g_string_new_len
  have hlen : ¬ ((tok.length : Int) < 0) := by omega
  have hin : pre.length + ((tok.length : Int)).toNat ≤ (pre ++ tok ++ post).length := by
    simp only [Int.toNat_ofNat, List.length_append]
    omega
  rw [if_neg hlen, if_pos hin]
  simp only [Int.toNat_ofNat, List.append_assoc, List.drop_left, List.take_left]
  rw [takeWhile_ne_of_not_mem 0 tok h0]

/-- The call `find_until(begin, end, word)` for a one-byte word `c` on a line
`lit ++ suf` that ends at the CRLF, begun after `lit`: the pointer after the
first `c` of `suf`, the null pointer when `suf` holds none. -/
theorem find_until_spec (rest lit suf : List Nat) (c : Nat) (hc : c ≠ 13) :
    find_until (lit ++ suf ++ 13 :: 10 :: rest) lit.length (some (lit ++ suf).length) [c] =
      some (if c ∈ suf then
              some (lit.length + (suf.takeWhile (fun b => b ≠ c)).length + 1)
            else none) := by
  unfold find_until
  have hdrop : (lit ++ suf ++ 13 :: 10 :: rest).drop lit.length = suf ++ 13 :: 10 :: rest := by
    rw [List.append_assoc, List.drop_left]
  rw [hdrop]
  simp only [List.headD_cons]
  rw [find_until_loop_spec rest c suf lit]
  by_cases hmem : c ∈ suf
  · obtain ⟨r, hr⟩ := split_at_first c suf hmem
    have hne : ¬ (some (lit.length + (suf.takeWhile (fun b => b ≠ c)).length) =
        some (lit ++ suf).length) := by
      have : (suf.takeWhile (fun b => b ≠ c)).length < suf.length := by
        conv_rhs => rw [hr]
        simp
      simp only [Option.some.injEq, List.length_append]
      omega
    simp only [hne, if_false, if_pos hmem, eat_tok]
    have hspec := eat_tok_loop_spec rest [c] (lit ++ suf.takeWhile (fun b => b ≠ c))
      (c :: r) (by simpa using hc.symm)
    have hline : lit ++ suf.takeWhile (fun b => b ≠ c) ++ c :: r = lit ++ suf := by
      rw [List.append_assoc, ← hr]
    rw [hline] at hspec
    simp only [List.length_append] at hspec ⊢
    rw [hspec]
    simp
  · have heq : suf.takeWhile (fun b => b ≠ c) = suf := takeWhile_ne_of_not_mem c suf hmem
    rw [heq]
    simp [hmem]

/-- The call `get_tok(begin, end, wordb, worde, &token)` in a chain of calls
from the start of a NUL-free line that ends at the CRLF, for a one-byte
`worde`: when `A ++ wordb` starts the line and a byte `c` follows somewhere,
the pointer to the first such byte and the bytes before it; the null pointer
and no token otherwise. -/
theorem get_tok_spec (L rest A wordb : List Nat) (c : Nat) (h0 : 0 ∉ L)
    (hwb : 13 ∉ wordb) (hc : c ≠ 13) :
    get_tok (L ++ 13 :: 10 :: rest) (if A <+: L then some A.length else none)
        (some L.length) wordb [c] =
      some (if A ++ wordb <+: L ∧ c ∈ L.drop (A ++ wordb).length then
              (some ((A ++ wordb).length +
                  ((L.drop (A ++ wordb).length).takeWhile (fun b => b ≠ c)).length),
               some ((L.drop (A ++ wordb).length).takeWhile (fun b => b ≠ c)))
            else (none, none)) := by
  have hchain := eat_tok_chain L rest A wordb hwb
  by_cases hA : A <+: L
  · rw [if_pos hA] at hchain ⊢
    simp only [get_tok, hchain]
    by_cases hAw : A ++ wordb <+: L
    · obtain ⟨suf, hsuf⟩ := hAw
      subst hsuf
      have hdrop : (A ++ wordb ++ suf).drop (A ++ wordb).length = suf := List.drop_left _ _
      rw [hdrop]
      simp only [List.prefix_append, if_true, true_and]
      rw [find_until_spec rest (A ++ wordb) suf c hc]
      by_cases hmem : c ∈ suf
      · obtain ⟨r, hr⟩ := split_at_first c suf hmem
        simp only [if_pos hmem]
        have h0tok : 0 ∉ suf.takeWhile (fun b => b ≠ c) := by
          intro hm
          apply h0
          have : 0 ∈ suf := (List.takeWhile_prefix _).subset hm
          simp [this]
        have hgs := g_string_new_len_spec (A ++ wordb) (suf.takeWhile (fun b => b ≠ c))
          (c :: r ++ 13 :: 10 :: rest) h0tok
        have hline : A ++ wordb ++ suf.takeWhile (fun b => b ≠ c) ++
            (c :: r ++ 13 :: 10 :: rest) = A ++ wordb ++ suf ++ 13 :: 10 :: rest := by
          conv_rhs => rw [hr]
          simp
        rw [hline] at hgs
        have hint : (((A ++ wordb).length + (suf.takeWhile (fun b => b ≠ c)).length + 1 :
            Nat) : Int) - 1 - ((A ++ wordb).length : Int) =
            ((suf.takeWhile (fun b => b ≠ c)).length : Int) := by
          push_cast
          ring
        rw [hint, hgs]
        simp only [Option.some.injEq, Prod.mk.injEq, and_true]
        omega
      · simp [hmem]
    · simp [hAw]
  · have hAw : ¬ (A ++ wordb <+: L) := fun h =>
      hA ((List.prefix_append A wordb).trans h)
    rw [if_neg hA]
    simp [get_tok, hAw]

/-! ## Theorems : the handlers of the parser -/

/-- The call `strstr(line, CRLF)` on a NUL-free line without CRLF that is
followed by a CRLF points to that CRLF. -/
theorem strstr_line (L rest : List Nat) (h0 : 0 ∉ L) (hL : ¬ [13, 10] <:+: L) :
    strstr (L ++ 13 :: 10 :: rest) CRLF = some (some L.length) := by
  unfold strstr
  rw [CRLF_eq, strstr_from_first rest L 0 h0 hL, Nat.zero_add]

/-- The MAIL and RCPT handlers on a NUL-free line that ends at the first
CRLF of the buffer: the command is accepted, with the bytes before the first
`>` as token, exactly when the line starts with `verb`, a space, `keyword`,
a colon and `<`, and a `>` follows. -/
theorem process_command_address_spec (smtp_command : DSmtpCommand)
    (L rest verb keyword : List Nat) (command : SMTP_COMMAND)
    (h0 : 0 ∉ L) (hL : ¬ [13, 10] <:+: L) (hv : 13 ∉ verb) (hk : 13 ∉ keyword) :
    process_command_address smtp_command (L ++ 13 :: 10 :: rest) verb keyword command =
      some (if verb ++ bytes " " ++ keyword ++ bytes ":" ++ bytes "<" <+: L ∧
                62 ∈ L.drop (verb ++ bytes " " ++ keyword ++ bytes ":" ++ bytes "<").length
            then
              { result := true
                smtp_command :=
                  { smtp_command with command := command, response_code := 250 }
                token := some ((L.drop
                  (verb ++ bytes " " ++ keyword ++ bytes ":" ++ bytes "<").length).takeWhile
                    (fun b => b ≠ 62)) }
            else
              { result := false, smtp_command := smtp_command, token := none }) := by
  have c1 := eat_tok_chain L rest [] verb hv
  have c2 := eat_tok_chain L rest verb (bytes " ") (by decide)
  have c3 := eat_tok_chain L rest (verb ++ bytes " ") keyword hk
  have c4 := eat_tok_chain L rest (verb ++ bytes " " ++ keyword) (bytes ":") (by decide)
  have c5 := get_tok_spec L rest (verb ++ bytes " " ++ keyword ++ bytes ":") (bytes "<")
    62 h0 (by decide) (by decide)
  simp only [List.nil_prefix, if_true, List.length_nil, List.nil_append] at c1
  have hgt : bytes ">" = [62] := rfl
  simp only [process_command_address, strstr_line L rest h0 hL, c1, c2, c3, c4, hgt, c5]
  by_cases hcond : verb ++ bytes " " ++ keyword ++ bytes ":" ++ bytes "<" <+: L ∧
      62 ∈ L.drop (verb ++ bytes " " ++ keyword ++ bytes ":" ++ bytes "<").length
  · simp only [if_pos hcond, Option.isSome_some, if_true]
  · simp only [if_neg hcond, Option.isSome_none, Bool.false_eq_true, if_false]

/-- The loop `for(; *p == ' '; p++);` stops at the first byte that is not a
space. -/
theorem skip_spaces_spec (x : Nat) (u : List Nat) (hx : x ≠ 32) :
    ∀ (t : List Nat) (p : Nat),
      skip_spaces (t ++ x :: u) p = some (p + (t.takeWhile (fun b => b = 32)).length) := by
  intro t
  induction t with
  | nil =>
      intro p
      simp [skip_spaces, hx]
  | cons b t ih =>
      intro p
      by_cases hb : b = 32
      · subst hb
        rw [List.cons_append, skip_spaces, if_pos rfl, ih (p + 1)]
        simp only [decide_True, List.takeWhile_cons_of_pos, List.length_cons]
        congr 1
        omega
      · rw [List.cons_append, skip_spaces, if_neg hb]
        simp [hb]

/-- The HELO handler on a NUL-free buffer whose bytes after the first four,
up to the first CRLF, are `t`: it returns TRUE, records HELO and 250, and the
domain is `t` without its leading spaces. -/
theorem process_command_helo_spec (smtp_command : DSmtpCommand)
    (V t rest : List Nat) (hV : V.length = 4) (h0 : 0 ∉ V ++ t)
    (hL : ¬ [13, 10] <:+: V ++ t) :
    d_smtp_command_process_command_helo smtp_command (V ++ t ++ 13 :: 10 :: rest) =
      some { result := true
             smtp_command :=
               { smtp_command with command := SMTP_COMMAND.HELO, response_code := 250 }
             token := some (t.dropWhile (fun b => b = 32)) } := by
  unfold d_smtp_command_process_command_helo
  rw [strstr_line (V ++ t) rest h0 hL]
  have hdrop : (V ++ t ++ 13 :: 10 :: rest).drop 4 = t ++ 13 :: 10 :: rest := by
    rw [List.append_assoc, ← hV, List.drop_left]
  rw [hdrop, skip_spaces_spec 13 (10 :: rest) (by decide) t 4]
  have hsplit : t.takeWhile (fun b => b = 32) ++ t.dropWhile (fun b => b = 32) = t :=
    List.takeWhile_append_dropWhile _ t
  have h0tok : 0 ∉ t.dropWhile (fun b => b = 32) := by
    intro hm
    apply h0
    have : 0 ∈ t := (List.dropWhile_suffix _).subset hm
    simp [this]
  have hgs := g_string_new_len_spec (V ++ t.takeWhile (fun b => b = 32))
    (t.dropWhile (fun b => b = 32)) (13 :: 10 :: rest) h0tok
  rw [List.append_assoc V, hsplit] at hgs
  have hlen : (V ++ t.takeWhile (fun b => b = 32)).length =
      4 + (t.takeWhile (fun b => b = 32)).length := by
    rw [List.length_append, hV]
  have htl : t.length = (t.takeWhile (fun b => b = 32)).length +
      (t.dropWhile (fun b => b = 32)).length := by
    conv_lhs => rw [← hsplit]
    rw [List.length_append]
  have hint : (((V ++ t).length : Nat) : Int) -
      ((4 + (t.takeWhile (fun b => b = 32)).length : Nat) : Int) =
      ((t.dropWhile (fun b => b = 32)).length : Int) := by
    rw [List.length_append, hV, htl]
    push_cast
    ring
  rw [hlen] at hgs
  simp only [hint, hgs]

/-! ## Theorems : d_smtp_command_process -/

/-- The verb of a buffer that starts with four NUL-free bytes is these four
bytes. -/
theorem verb_of_prefix (input word : List Nat) (hw : word.length = 4) (h0 : 0 ∉ word)
    (hp : word <+: input) : verb_of input = word := by
  obtain ⟨t, rfl⟩ := hp
  unfold verb_of
  rw [← hw, List.take_left]
  exact takeWhile_ne_of_not_mem 0 word h0

/-- A buffer of 4 to 1024 bytes that starts with HELO goes to the HELO
handler. -/
theorem parse_helo (input : List Nat) (h4 : 4 ≤ input.length) (hmax : input.length ≤ 1024)
    (hp : bytes "HELO" <+: input) :
    parse input = d_smtp_command_process_command_helo
      (d_smtp_command_set_bytes d_smtp_command_new input) input := by
  have hv := verb_of_prefix input (bytes "HELO") rfl (by decide) hp
  have hlen : ¬ (input.length < 4 ∨ input.length > 1024) := by omega
  simp only [parse, d_smtp_command_process, d_smtp_command_set_bytes, if_neg hlen, hv]
  rfl

/-- A buffer of 4 to 1024 bytes that starts with MAIL goes to the MAIL
handler. -/
theorem parse_mail (input : List Nat) (h4 : 4 ≤ input.length) (hmax : input.length ≤ 1024)
    (hp : bytes "MAIL" <+: input) :
    parse input = d_smtp_command_process_command_mail
      (d_smtp_command_set_bytes d_smtp_command_new input) input := by
  have hv := verb_of_prefix input (bytes "MAIL") rfl (by decide) hp
  have hlen : ¬ (input.length < 4 ∨ input.length > 1024) := by omega
  simp only [parse, d_smtp_command_process, d_smtp_command_set_bytes, if_neg hlen, hv]
  rfl

/-- A buffer of 4 to 1024 bytes that starts with RCPT goes to the RCPT
handler. -/
theorem parse_rcpt (input : List Nat) (h4 : 4 ≤ input.length) (hmax : input.length ≤ 1024)
    (hp : bytes "RCPT" <+: input) :
    parse input = d_smtp_command_process_command_rcpt
      (d_smtp_command_set_bytes d_smtp_command_new input) input := by
  have hv := verb_of_prefix input (bytes "RCPT") rfl (by decide) hp
  have hlen : ¬ (input.length < 4 ∨ input.length > 1024) := by omega
  simp only [parse, d_smtp_command_process, d_smtp_command_set_bytes, if_neg hlen, hv]
  rfl

/-- A buffer of 4 to 1024 bytes that starts with DATA goes to the DATA
handler. -/
theorem parse_data (input : List Nat) (h4 : 4 ≤ input.length) (hmax : input.length ≤ 1024)
    (hp : bytes "DATA" <+: input) :
    parse input = d_smtp_command_process_command_data
      (d_smtp_command_set_bytes d_smtp_command_new input) input := by
  have hv := verb_of_prefix input (bytes "DATA") rfl (by decide) hp
  have hlen : ¬ (input.length < 4 ∨ input.length > 1024) := by omega
  simp only [parse, d_smtp_command_process, d_smtp_command_set_bytes, if_neg hlen, hv]
  rfl

/-- A buffer of 4 to 1024 bytes that starts with QUIT goes to the QUIT
handler. -/
theorem parse_quit (input : List Nat) (h4 : 4 ≤ input.length) (hmax : input.length ≤ 1024)
    (hp : bytes "QUIT" <+: input) :
    parse input = d_smtp_command_process_command_quit
      (d_smtp_command_set_bytes d_smtp_command_new input) input := by
  have hv := verb_of_prefix input (bytes "QUIT") rfl (by decide) hp
  have hlen : ¬ (input.length < 4 ∨ input.length > 1024) := by omega
  simp only [parse, d_smtp_command_process, d_smtp_command_set_bytes, if_neg hlen, hv]
  rfl

/-- C6: `d_smtp_command_process` returns FALSE on every input shorter than 4
or longer than 1024 bytes, whatever its content, and for every length `n`
from 6 to 1024 it returns TRUE on the input of exactly `n` bytes made of
`HELO`, `n - 6` spaces and a CRLF. -/
theorem process_length_check :
    (∀ input : List Nat, input.length < 4 ∨ 1024 < input.length →
      parse input =
        some { result := false
               smtp_command := d_smtp_command_set_bytes d_smtp_command_new input
               token := none }) ∧
    (∀ n : Nat, 6 ≤ n → n ≤ 1024 →
      (bytes "HELO" ++ List.replicate (n - 6) 32 ++ CRLF).length = n ∧
      ∃ out, parse (bytes "HELO" ++ List.replicate (n - 6) 32 ++ CRLF) = some out ∧
        out.result = true) := by
  constructor
  · intro input h
    have hlen : input.length < 4 ∨ input.length > 1024 := h
    simp only [parse, d_smtp_command_process, d_smtp_command_set_bytes, if_pos hlen]
  · intro n h6 hmax
    have hlength : (bytes "HELO" ++ List.replicate (n - 6) 32 ++ CRLF).length = n := by
      have h1 : (bytes "HELO").length = 4 := rfl
      have h2 : CRLF.length = 2 := rfl
      rw [List.length_append, List.length_append, List.length_replicate, h1, h2]
      omega
    refine ⟨hlength, ?_⟩
    have hp : bytes "HELO" <+: bytes "HELO" ++ List.replicate (n - 6) 32 ++ CRLF := by
      rw [List.append_assoc]
      exact List.prefix_append _ _
    rw [parse_helo _ (by omega) (by omega) hp]
    have h13 : 13 ∉ bytes "HELO" ++ List.replicate (n - 6) 32 := by
      intro hm
      rcases List.mem_append.mp hm with hm | hm
      · revert hm; decide
      · have := List.eq_of_mem_replicate hm
        omega
    have h0 : 0 ∉ bytes "HELO" ++ List.replicate (n - 6) 32 := by
      intro hm
      rcases List.mem_append.mp hm with hm | hm
      · revert hm; decide
      · have := List.eq_of_mem_replicate hm
        omega
    have hL : ¬ [13, 10] <:+: bytes "HELO" ++ List.replicate (n - 6) 32 := by
      have := no_crlf_append (bytes "HELO" ++ List.replicate (n - 6) 32) [] h13 (by decide)
      simpa using this
    have hspec := process_command_helo_spec
      (d_smtp_command_set_bytes d_smtp_command_new
        (bytes "HELO" ++ List.replicate (n - 6) 32 ++ [13, 10]))
      (bytes "HELO") (List.replicate (n - 6) 32) [] rfl h0 hL
    rw [CRLF_eq, hspec]
    exact ⟨_, rfl, rfl⟩

/-- Witness of `process_length_check`: the 3-byte input `HEL` and an input of
1025 bytes are rejected, and an input of exactly 1024 bytes is accepted. -/
theorem process_length_check_witness :
    parse (bytes "HEL") =
        some { result := false
               smtp_command := d_smtp_command_set_bytes d_smtp_command_new (bytes "HEL")
               token := none } ∧
    parse (List.replicate 1025 65) =
        some { result := false
               smtp_command :=
                 d_smtp_command_set_bytes d_smtp_command_new (List.replicate 1025 65)
               token := none } ∧
    (bytes "HELO" ++ List.replicate (1024 - 6) 32 ++ CRLF).length = 1024 ∧
    ∃ out, parse (bytes "HELO" ++ List.replicate (1024 - 6) 32 ++ CRLF) = some out ∧
      out.result = true :=
  ⟨process_length_check.1 (bytes "HEL") (Or.inl (by decide)),
   process_length_check.1 (List.replicate 1025 65)
     (Or.inr (by rw [List.length_replicate]; omega)),
   process_length_check.2 1024 (by decide) (by decide)⟩

/-- Whenever the HELO handler returns, it returned TRUE and recorded HELO and
250. -/
theorem process_command_helo_result (smtp_command : DSmtpCommand) (line : List Nat)
    (out : ProcessOutcome)
    (h : d_smtp_command_process_command_helo smtp_command line = some out) :
    out.smtp_command.command = SMTP_COMMAND.HELO ∧
      out.smtp_command.response_code = 250 := by
  unfold d_smtp_command_process_command_helo at h
  split at h
  · simp at h
  · split at h
    · simp at h
    · split at h
      · simp at h
      · split at h
        · simp at h
        · simp only [Option.some.injEq] at h
          subst h
          exact ⟨rfl, rfl⟩

/-- Whenever the MAIL or RCPT handler returns TRUE, it recorded its command
and 250. -/
theorem process_command_address_result (smtp_command : DSmtpCommand)
    (line verb keyword : List Nat) (command : SMTP_COMMAND) (out : ProcessOutcome)
    (h : process_command_address smtp_command line verb keyword command = some out)
    (hr : out.result = true) :
    out.smtp_command.command = command ∧ out.smtp_command.response_code = 250 := by
  unfold process_command_address at h
  split at h
  · simp at h
  simp only [] at h
  split at h
  · simp at h
  split at h
  · simp at h
  split at h
  · simp at h
  split at h
  · simp at h
  split at h
  · simp at h
  split at h
  · simp only [Option.some.injEq] at h
    subst h
    exact ⟨rfl, rfl⟩
  · simp only [Option.some.injEq] at h
    subst h
    simp at hr

/-- Whenever the DATA or QUIT handler returns TRUE, it recorded its command
and its response code. -/
theorem process_command_bare_result (smtp_command : DSmtpCommand)
    (line verb : List Nat) (command : SMTP_COMMAND) (code : Nat) (out : ProcessOutcome)
    (h : process_command_bare smtp_command line verb command code = some out)
    (hr : out.result = true) :
    out.smtp_command.command = command ∧ out.smtp_command.response_code = code := by
  unfold process_command_bare at h
  split at h
  · simp at h
  split at h
  · simp at h
  split at h
  · simp only [Option.some.injEq] at h
    subst h
    exact ⟨rfl, rfl⟩
  · simp only [Option.some.injEq] at h
    subst h
    simp at hr

/-- Whenever `d_smtp_command_process` returns TRUE on a new command
object, the first four bytes of the input are one of HELO, MAIL, RCPT, DATA,
QUIT, the recorded command is that verb, and the recorded response code is
250 for HELO, MAIL and RCPT, 354 for DATA and 221 for QUIT. -/
theorem parse_result_verb (input : List Nat) (out : ProcessOutcome)
    (h : parse input = some out) (hr : out.result = true) :
    (input.take 4 = bytes "HELO" ∧ out.smtp_command.command = SMTP_COMMAND.HELO ∧
        out.smtp_command.response_code = 250) ∨
    (input.take 4 = bytes "MAIL" ∧ out.smtp_command.command = SMTP_COMMAND.MAIL ∧
        out.smtp_command.response_code = 250) ∨
    (input.take 4 = bytes "RCPT" ∧ out.smtp_command.command = SMTP_COMMAND.RCPT ∧
        out.smtp_command.response_code = 250) ∨
    (input.take 4 = bytes "DATA" ∧ out.smtp_command.command = SMTP_COMMAND.DATA ∧
        out.smtp_command.response_code = 354) ∨
    (input.take 4 = bytes "QUIT" ∧ out.smtp_command.command = SMTP_COMMAND.QUIT ∧
        out.smtp_command.response_code = 221) := by
  simp only [parse, d_smtp_command_process, d_smtp_command_set_bytes] at h
  have hfalse : ∀ c : DSmtpCommand,
      some ({ result := false, smtp_command := c, token := none } : ProcessOutcome) =
        some out → False := by
    intro c hc
    simp only [Option.some.injEq] at hc
    subst hc
    simp at hr
  split at h
  · exact (hfalse _ h).elim
  · split at h
    · rename_i hv
      have ht := take_four_of_verb input (bytes "QUIT") rfl hv
      have := process_command_bare_result _ _ _ _ _ _ h hr
      exact Or.inr (Or.inr (Or.inr (Or.inr ⟨ht, this⟩)))
    · split at h
      · rename_i hv
        have ht := take_four_of_verb input (bytes "HELO") rfl hv
        have := process_command_helo_result _ _ _ h
        exact Or.inl ⟨ht, this⟩
      · split at h
        · exact (hfalse _ h).elim
        · split at h
          · rename_i hv
            have ht := take_four_of_verb input (bytes "MAIL") rfl hv
            have := process_command_address_result _ _ _ _ _ _ h hr
            exact Or.inr (Or.inl ⟨ht, this⟩)
          · split at h
            · rename_i hv
              have ht := take_four_of_verb input (bytes "RCPT") rfl hv
              have := process_command_address_result _ _ _ _ _ _ h hr
              exact Or.inr (Or.inr (Or.inl ⟨ht, this⟩))
            · split at h
              · rename_i hv
                have ht := take_four_of_verb input (bytes "DATA") rfl hv
                have := process_command_bare_result _ _ _ _ _ _ h hr
                exact Or.inr (Or.inr (Or.inr (Or.inl ⟨ht, this⟩)))
              · exact (hfalse _ h).elim

/-- C7: whenever `d_smtp_command_process` returns TRUE on a new command
object, the first four bytes of the input are one of HELO, MAIL, RCPT, DATA,
QUIT, the recorded command is that verb, and the recorded response code is
250 for HELO, MAIL and RCPT, 354 for DATA and 221 for QUIT. -/
theorem process_records_verb (input : List Nat) (out : ProcessOutcome)
    (h : parse input = some out) (hr : out.result = true) :
    (input.take 4 = bytes "HELO" ∧ out.smtp_command.command = SMTP_COMMAND.HELO ∧
        out.smtp_command.response_code = 250) ∨
    (input.take 4 = bytes "MAIL" ∧ out.smtp_command.command = SMTP_COMMAND.MAIL ∧
        out.smtp_command.response_code = 250) ∨
    (input.take 4 = bytes "RCPT" ∧ out.smtp_command.command = SMTP_COMMAND.RCPT ∧
        out.smtp_command.response_code = 250) ∨
    (input.take 4 = bytes "DATA" ∧ out.smtp_command.command = SMTP_COMMAND.DATA ∧
        out.smtp_command.response_code = 354) ∨
    (input.take 4 = bytes "QUIT" ∧ out.smtp_command.command = SMTP_COMMAND.QUIT ∧
        out.smtp_command.response_code = 221) :=
  parse_result_verb input out h hr

/-- Witness of `process_records_verb`: the input `DATA` followed by CRLF. -/
theorem process_records_verb_witness :
    parse (bytes "DATA\r\n") =
      some { result := true
             smtp_command :=
               { command := SMTP_COMMAND.DATA, response_code := 354
                 command_bytes := some (bytes "DATA\r\n") }
             token := none } ∧
    (((bytes "DATA\r\n").take 4 = bytes "HELO" ∧ SMTP_COMMAND.DATA = SMTP_COMMAND.HELO ∧
        354 = 250) ∨
    ((bytes "DATA\r\n").take 4 = bytes "MAIL" ∧ SMTP_COMMAND.DATA = SMTP_COMMAND.MAIL ∧
        354 = 250) ∨
    ((bytes "DATA\r\n").take 4 = bytes "RCPT" ∧ SMTP_COMMAND.DATA = SMTP_COMMAND.RCPT ∧
        354 = 250) ∨
    ((bytes "DATA\r\n").take 4 = bytes "DATA" ∧ SMTP_COMMAND.DATA = SMTP_COMMAND.DATA ∧
        354 = 354) ∨
    ((bytes "DATA\r\n").take 4 = bytes "QUIT" ∧ SMTP_COMMAND.DATA = SMTP_COMMAND.QUIT ∧
        354 = 221)) :=
  ⟨by decide, process_records_verb (bytes "DATA\r\n")
    { result := true
      smtp_command :=
        { command := SMTP_COMMAND.DATA, response_code := 354
          command_bytes := some (bytes "DATA\r\n") }
      token := none } (by decide) rfl⟩

/-- A line starts with `lit` and holds a `>` after it exactly when it is
`lit`, bytes `a` without `>`, a `>`, and some rest. -/
theorem address_form_iff (lit L : List Nat) :
    (lit <+: L ∧ 62 ∈ L.drop lit.length) ↔
      ∃ a r, L = lit ++ a ++ bytes ">" ++ r ∧ 62 ∉ a := by
  have hgt : bytes ">" = [62] := rfl
  constructor
  · rintro ⟨⟨suf, rfl⟩, hmem⟩
    rw [List.drop_left] at hmem
    obtain ⟨r, hr⟩ := split_at_first 62 suf hmem
    refine ⟨suf.takeWhile (fun b => b ≠ 62), r, ?_, not_mem_takeWhile_ne 62 suf⟩
    conv_lhs => rw [hr]
    simp [hgt]
  · rintro ⟨a, r, rfl, -⟩
    refine ⟨⟨a ++ bytes ">" ++ r, by simp⟩, ?_⟩
    rw [List.append_assoc, List.append_assoc, List.drop_left]
    simp [hgt]

/-- The bytes before the first `>` after `lit` in a line of the address
form. -/
theorem address_form_token (lit a r : List Nat) (ha : 62 ∉ a) :
    ((lit ++ a ++ bytes ">" ++ r).drop lit.length).takeWhile (fun b => b ≠ 62) = a := by
  have hgt : bytes ">" = [62] := rfl
  rw [List.append_assoc, List.append_assoc, List.drop_left, hgt]
  exact takeWhile_of_split 62 a r ha

/-- The parser on a NUL-free buffer of 4 to 1024 bytes that starts with MAIL
or RCPT and whose bytes before the first CRLF are `L`: the outcome is decided
by whether `L` starts with the whole literal and a `>` follows. -/
theorem parse_address (input L rest verb keyword : List Nat) (command : SMTP_COMMAND)
    (hcases : (verb = bytes "MAIL" ∧ keyword = bytes "FROM" ∧ command = SMTP_COMMAND.MAIL) ∨
      (verb = bytes "RCPT" ∧ keyword = bytes "TO" ∧ command = SMTP_COMMAND.RCPT))
    (h0 : 0 ∉ input) (h4 : 4 ≤ input.length) (hmax : input.length ≤ 1024)
    (hin : input = L ++ CRLF ++ rest) (hL : ¬ CRLF <:+: L) (hp : verb <+: input) :
    parse input =
      some (if verb ++ bytes " " ++ keyword ++ bytes ":" ++ bytes "<" <+: L ∧
                62 ∈ L.drop (verb ++ bytes " " ++ keyword ++ bytes ":" ++ bytes "<").length
            then
              { result := true
                smtp_command :=
                  { command := command, response_code := 250, command_bytes := some input }
                token := some ((L.drop
                  (verb ++ bytes " " ++ keyword ++ bytes ":" ++ bytes "<").length).takeWhile
                    (fun b => b ≠ 62)) }
            else
              { result := false
                smtp_command := d_smtp_command_set_bytes d_smtp_command_new input
                token := none }) := by
  have hline : input = L ++ 13 :: 10 :: rest := by
    rw [hin, CRLF_eq]
    simp
  have h0L : 0 ∉ L := by
    intro hm
    apply h0
    rw [hline]
    exact List.mem_append_left _ hm
  rw [CRLF_eq] at hL
  clear hin
  subst hline
  rcases hcases with ⟨hv, hk, hc⟩ | ⟨hv, hk, hc⟩
  · subst hv hk hc
    rw [parse_mail _ h4 hmax hp]
    unfold d_smtp_command_process_command_mail
    rw [process_command_address_spec _ L rest _ _ _ h0L hL (by decide) (by decide)]
    rfl
  · subst hv hk hc
    rw [parse_rcpt _ h4 hmax hp]
    unfold d_smtp_command_process_command_rcpt
    rw [process_command_address_spec _ L rest _ _ _ h0L hL (by decide) (by decide)]
    rfl

/-- The three parts of the MAIL / RCPT contract on a NUL-free buffer of 4 to
1024 bytes whose bytes before the first CRLF are `L`: a line of the address
form is accepted with its address as token; a buffer that starts with the
verb but is not of the form is rejected; and nothing else is accepted as that
command. -/
theorem address_accept (input L rest verb keyword lit : List Nat) (command : SMTP_COMMAND)
    (hcases : (verb = bytes "MAIL" ∧ keyword = bytes "FROM" ∧ command = SMTP_COMMAND.MAIL) ∨
      (verb = bytes "RCPT" ∧ keyword = bytes "TO" ∧ command = SMTP_COMMAND.RCPT))
    (hlit : lit = verb ++ bytes " " ++ keyword ++ bytes ":" ++ bytes "<")
    (h0 : 0 ∉ input) (h4 : 4 ≤ input.length) (hmax : input.length ≤ 1024)
    (hin : input = L ++ CRLF ++ rest) (hL : ¬ CRLF <:+: L) :
    (∀ a r, L = lit ++ a ++ bytes ">" ++ r → 62 ∉ a →
      parse input =
        some { result := true
               smtp_command :=
                 { command := command, response_code := 250, command_bytes := some input }
               token := some a }) ∧
    (verb <+: input → (¬ ∃ a r, L = lit ++ a ++ bytes ">" ++ r ∧ 62 ∉ a) →
      parse input =
        some { result := false
               smtp_command := d_smtp_command_set_bytes d_smtp_command_new input
               token := none }) ∧
    (∀ out, parse input = some out → out.result = true →
      out.smtp_command.command = command →
      ∃ a r, L = lit ++ a ++ bytes ">" ++ r ∧ 62 ∉ a) := by
  have hspec := fun hp => parse_address input L rest verb keyword command hcases h0 h4 hmax
    hin hL hp
  rw [← hlit] at hspec
  have hrej : verb <+: input → (¬ ∃ a r, L = lit ++ a ++ bytes ">" ++ r ∧ 62 ∉ a) →
      parse input =
        some { result := false
               smtp_command := d_smtp_command_set_bytes d_smtp_command_new input
               token := none } := by
    intro hp hform
    rw [hspec hp, if_neg (fun hc => hform ((address_form_iff lit L).mp hc))]
  refine ⟨?_, hrej, ?_⟩
  · intro a r hLa ha
    have hp : verb <+: input := by
      refine ⟨bytes " " ++ keyword ++ bytes ":" ++ bytes "<" ++ a ++ bytes ">" ++ r ++
        CRLF ++ rest, ?_⟩
      rw [hin, hLa, hlit]
      simp
    have hcond := (address_form_iff lit L).mpr ⟨a, r, hLa, ha⟩
    rw [hspec hp, if_pos hcond]
    have htok := address_form_token lit a r ha
    rw [← hLa] at htok
    rw [htok]
  · intro out hout hr hcmd
    have hverb := parse_result_verb input out hout hr
    have hp : verb <+: input := by
      rcases hcases with ⟨hv, -, hc⟩ | ⟨hv, -, hc⟩
      · subst hv hc
        rcases hverb with h | h | h | h | h
        · rw [hcmd] at h; exact absurd h.2.1 (by decide)
        · rw [← h.1]; exact List.take_prefix 4 input
        · rw [hcmd] at h; exact absurd h.2.1 (by decide)
        · rw [hcmd] at h; exact absurd h.2.1 (by decide)
        · rw [hcmd] at h; exact absurd h.2.1 (by decide)
      · subst hv hc
        rcases hverb with h | h | h | h | h
        · rw [hcmd] at h; exact absurd h.2.1 (by decide)
        · rw [hcmd] at h; exact absurd h.2.1 (by decide)
        · rw [← h.1]; exact List.take_prefix 4 input
        · rw [hcmd] at h; exact absurd h.2.1 (by decide)
        · rw [hcmd] at h; exact absurd h.2.1 (by decide)
    by_contra hform
    have := hrej hp hform
    rw [hout] at this
    simp only [Option.some.injEq] at this
    rw [this] at hr
    simp at hr

/-- C8: on a NUL-free input of 4 to 1024 bytes whose bytes before the first
CRLF are `L`, `d_smtp_command_process` accepts the input as MAIL exactly when
`L` is `MAIL FROM:<`, an address `a` without `>`, a `>`, and any rest; the
extracted token is then `a`; an input that starts with MAIL and is not of
that form is rejected.  The same holds for RCPT with `RCPT TO:<`. -/
theorem address_commands (input L rest : List Nat)
    (h0 : 0 ∉ input) (h4 : 4 ≤ input.length) (hmax : input.length ≤ 1024)
    (hin : input = L ++ CRLF ++ rest) (hL : ¬ CRLF <:+: L) :
    ((∀ a r, L = bytes "MAIL FROM:<" ++ a ++ bytes ">" ++ r → 62 ∉ a →
        parse input =
          some { result := true
                 smtp_command :=
                   { command := SMTP_COMMAND.MAIL, response_code := 250
                     command_bytes := some input }
                 token := some a }) ∧
      (bytes "MAIL" <+: input →
        (¬ ∃ a r, L = bytes "MAIL FROM:<" ++ a ++ bytes ">" ++ r ∧ 62 ∉ a) →
        parse input =
          some { result := false
                 smtp_command := d_smtp_command_set_bytes d_smtp_command_new input
                 token := none }) ∧
      (∀ out, parse input = some out → out.result = true →
        out.smtp_command.command = SMTP_COMMAND.MAIL →
        ∃ a r, L = bytes "MAIL FROM:<" ++ a ++ bytes ">" ++ r ∧ 62 ∉ a)) ∧
    ((∀ a r, L = bytes "RCPT TO:<" ++ a ++ bytes ">" ++ r → 62 ∉ a →
        parse input =
          some { result := true
                 smtp_command :=
                   { command := SMTP_COMMAND.RCPT, response_code := 250
                     command_bytes := some input }
                 token := some a }) ∧
      (bytes "RCPT" <+: input →
        (¬ ∃ a r, L = bytes "RCPT TO:<" ++ a ++ bytes ">" ++ r ∧ 62 ∉ a) →
        parse input =
          some { result := false
                 smtp_command := d_smtp_command_set_bytes d_smtp_command_new input
                 token := none }) ∧
      (∀ out, parse input = some out → out.result = true →
        out.smtp_command.command = SMTP_COMMAND.RCPT →
        ∃ a r, L = bytes "RCPT TO:<" ++ a ++ bytes ">" ++ r ∧ 62 ∉ a)) :=
  ⟨address_accept input L rest (bytes "MAIL") (bytes "FROM") (bytes "MAIL FROM:<")
      SMTP_COMMAND.MAIL (Or.inl ⟨rfl, rfl, rfl⟩) rfl h0 h4 hmax hin hL,
   address_accept input L rest (bytes "RCPT") (bytes "TO") (bytes "RCPT TO:<")
      SMTP_COMMAND.RCPT (Or.inr ⟨rfl, rfl, rfl⟩) rfl h0 h4 hmax hin hL⟩

/-- Witness of `address_commands`: the line `MAIL FROM:<>` with its CRLF is
accepted as MAIL with the empty token. -/
theorem address_commands_witness :
    (0 ∉ bytes "MAIL FROM:<>\r\n" ∧ 4 ≤ (bytes "MAIL FROM:<>\r\n").length ∧
      (bytes "MAIL FROM:<>\r\n").length ≤ 1024 ∧
      bytes "MAIL FROM:<>\r\n" = bytes "MAIL FROM:<>" ++ CRLF ++ [] ∧
      ¬ CRLF <:+: bytes "MAIL FROM:<>") ∧
    parse (bytes "MAIL FROM:<>\r\n") =
      some { result := true
             smtp_command :=
               { command := SMTP_COMMAND.MAIL, response_code := 250
                 command_bytes := some (bytes "MAIL FROM:<>\r\n") }
             token := some [] } :=
  ⟨⟨by decide, by decide, by decide, by decide, by decide⟩,
   (address_commands (bytes "MAIL FROM:<>\r\n") (bytes "MAIL FROM:<>") []
      (by decide) (by decide) (by decide) (by decide) (by decide)).1.1 [] []
      (by decide) (by decide)⟩

/-- Dropping the leading spaces of `k` spaces followed by bytes that do not
begin with a space leaves these bytes. -/
theorem dropWhile_spaces (k : Nat) (d : List Nat) (hd : d.head? ≠ some 32) :
    (List.replicate k 32 ++ d).dropWhile (fun b => b = 32) = d := by
  induction k with
  | zero =>
      cases d with
      | nil => rfl
      | cons b d =>
          have hb : b ≠ 32 := fun h => hd (by simp [h])
          simp [List.dropWhile_cons, hb]
  | succ k ih =>
      rw [List.replicate_succ, List.cons_append, List.dropWhile_cons]
      simpa using ih

/-- C10: on a NUL-free input of at most 1024 bytes made of `HELO`, `k`
spaces, bytes `d` that do not begin with a space and hold no CRLF (also not
with the CR that follows), a CRLF and any rest, `d_smtp_command_process`
returns TRUE, records HELO and the response code 250, and the domain it
computes is `d`. -/
theorem helo_domain (k : Nat) (d rest : List Nat)
    (h0 : 0 ∉ bytes "HELO" ++ List.replicate k 32 ++ d ++ CRLF ++ rest)
    (hmax : (bytes "HELO" ++ List.replicate k 32 ++ d ++ CRLF ++ rest).length ≤ 1024)
    (hd : d.head? ≠ some 32)
    (hcr : ¬ CRLF <:+: d ++ [13]) :
    parse (bytes "HELO" ++ List.replicate k 32 ++ d ++ CRLF ++ rest) =
      some { result := true
             smtp_command :=
               { command := SMTP_COMMAND.HELO, response_code := 250
                 command_bytes :=
                   some (bytes "HELO" ++ List.replicate k 32 ++ d ++ CRLF ++ rest) }
             token := some d } := by
  have hline : bytes "HELO" ++ List.replicate k 32 ++ d ++ CRLF ++ rest =
      bytes "HELO" ++ (List.replicate k 32 ++ d) ++ 13 :: 10 :: rest := by
    rw [CRLF_eq]
    simp
  rw [hline] at h0 hmax ⊢
  have hp : bytes "HELO" <+: bytes "HELO" ++ (List.replicate k 32 ++ d) ++ 13 :: 10 :: rest := by
    rw [List.append_assoc]
    exact List.prefix_append _ _
  have h4 : 4 ≤ (bytes "HELO" ++ (List.replicate k 32 ++ d) ++ 13 :: 10 :: rest).length := by
    have h1 : (bytes "HELO").length = 4 := rfl
    rw [List.length_append, List.length_append, h1]
    omega
  have h0L : 0 ∉ bytes "HELO" ++ (List.replicate k 32 ++ d) :=
    fun hm => h0 (List.mem_append_left _ hm)
  have h13 : 13 ∉ bytes "HELO" ++ List.replicate k 32 := by
    intro hm
    rcases List.mem_append.mp hm with hm | hm
    · revert hm; decide
    · have := List.eq_of_mem_replicate hm
      omega
  have hdinf : ¬ [13, 10] <:+: d := by
    rw [CRLF_eq] at hcr
    exact fun h => hcr (h.trans (List.prefix_append d [13]).isInfix)
  have hL : ¬ [13, 10] <:+: bytes "HELO" ++ (List.replicate k 32 ++ d) := by
    rw [← List.append_assoc]
    exact no_crlf_append _ d h13 hdinf
  rw [parse_helo _ h4 hmax hp,
    process_command_helo_spec _ (bytes "HELO") (List.replicate k 32 ++ d) rest rfl h0L hL,
    dropWhile_spaces k d hd]
  rfl

/-- Witness of `helo_domain`: `HELO`, one space, the domain
`client.example`, CRLF. -/
theorem helo_domain_witness :
    (0 ∉ bytes "HELO" ++ List.replicate 1 32 ++ bytes "client.example" ++ CRLF ++ [] ∧
      (bytes "HELO" ++ List.replicate 1 32 ++ bytes "client.example" ++ CRLF ++ []).length
        ≤ 1024 ∧
      (bytes "client.example").head? ≠ some 32 ∧
      ¬ CRLF <:+: bytes "client.example" ++ [13]) ∧
    parse (bytes "HELO" ++ List.replicate 1 32 ++ bytes "client.example" ++ CRLF ++ []) =
      some { result := true
             smtp_command :=
               { command := SMTP_COMMAND.HELO, response_code := 250
                 command_bytes :=
                   some (bytes "HELO" ++ List.replicate 1 32 ++ bytes "client.example" ++
                     CRLF ++ []) }
             token := some (bytes "client.example") } :=
  ⟨⟨by decide, by decide, by decide, by decide⟩,
   helo_domain 1 (bytes "client.example") [] (by decide) (by decide) (by decide)
     (by decide)⟩

/-- The call `strstr(line, CRLF)` on a buffer that holds a CRLF returns
inside the buffer: the null pointer, or a pointer to a CR. -/
theorem strstr_from_total :
    ∀ (l : List Nat) (i : Nat), [13, 10] <:+: l →
      ∃ r, strstr_from [13, 10] l i = some r ∧
        ∀ e, r = some e → i ≤ e ∧ l.get? (e - i) = some 13 := by
  intro l
  induction l with
  | nil =>
      intro i h
      simp at h
  | cons b l ih =>
      intro i h
      by_cases hp : [13, 10] <+: b :: l
      · refine ⟨some i, by rw [strstr_from, if_pos hp], ?_⟩
        intro e he
        simp only [Option.some.injEq] at he
        subst he
        obtain ⟨t, ht⟩ := hp
        simp only [List.cons_append, List.cons.injEq] at ht
        simp [ht.1]
      · by_cases hb : b = 0
        · exact ⟨none, by rw [strstr_from, if_neg hp, if_pos hb], by simp⟩
        · have hl : [13, 10] <:+: l := by
            rcases List.infix_cons_iff.mp h with h' | h'
            · exact absurd h' hp
            · exact h'
          obtain ⟨r, hr, hre⟩ := ih (i + 1) hl
          refine ⟨r, by rw [strstr_from, if_neg hp, if_neg hb, hr], ?_⟩
          intro e he
          obtain ⟨hle, hget⟩ := hre e he
          refine ⟨by omega, ?_⟩
          obtain ⟨j, hj⟩ : ∃ j, e - i = j + 1 := ⟨e - (i + 1), by omega⟩
          rw [hj, List.get?_cons_succ]
          have : j = e - (i + 1) := by omega
          rw [this]
          exact hget

/-- The loop of `eat_tok` runs through a word that stands in the buffer when
`end` does not point into the word. -/
theorem eat_tok_loop_match (end_ : Option Nat) :
    ∀ (word pre suf : List Nat),
      (∀ e, end_ = some e → ¬ (pre.length ≤ e ∧ e < pre.length + word.length)) →
      eat_tok_loop (pre ++ word ++ suf) end_ word pre.length =
        some (some (pre.length + word.length)) := by
  intro word
  induction word with
  | nil =>
      intro pre suf _
      simp [eat_tok_loop]
  | cons w word ih =>
      intro pre suf hend
      have hget : (pre ++ w :: word ++ suf).get? pre.length = some w := by
        simpa using get?_after pre w (word ++ suf)
      have hne : ¬ (some pre.length = end_) := by
        intro h
        exact hend pre.length h.symm ⟨le_refl _, by simp⟩
      have hih := ih (pre ++ [w]) suf (by
        intro e he hcon
        apply hend e he
        simp only [List.length_append, List.length_singleton, List.length_cons,
          List.length_nil] at hcon ⊢
        omega)
      simp only [List.append_assoc, List.singleton_append, List.length_append,
        List.length_singleton] at hih
      rw [eat_tok_loop, hget]
      simp only [ne_eq, not_true_eq_false, if_false, hne]
      simp only [List.append_assoc, List.cons_append] at hih ⊢
      rw [hih, List.length_cons]
      congr 2
      omega

/-- The DATA and QUIT handlers on a buffer that holds a CRLF and starts with
a four-byte verb without CR: they return TRUE and record the command and its
response code, whatever follows the verb. -/
theorem process_command_bare_accepts (smtp_command : DSmtpCommand)
    (verb suf : List Nat) (command : SMTP_COMMAND) (code : Nat)
    (hv : 13 ∉ verb) (hcrlf : CRLF <:+: verb ++ suf) :
    process_command_bare smtp_command (verb ++ suf) verb command code =
      some { result := true
             smtp_command :=
               { smtp_command with command := command, response_code := code }
             token := none } := by
  rw [CRLF_eq] at hcrlf
  obtain ⟨r, hr, hre⟩ := strstr_from_total (verb ++ suf) 0 hcrlf
  have hstr : strstr (verb ++ suf) CRLF = some r := by
    unfold strstr
    rw [CRLF_eq, hr]
  have hend : ∀ e, r = some e →
      ¬ (([] : List Nat).length ≤ e ∧ e < ([] : List Nat).length + verb.length) := by
    intro e he hcon
    obtain ⟨-, hget⟩ := hre e he
    simp only [List.length_nil, Nat.zero_add, Nat.sub_zero] at hcon hget
    rw [List.get?_eq_getElem?, List.getElem?_append_left hcon.2] at hget
    exact hv (List.getElem?_mem hget)
  have heat := eat_tok_loop_match r verb [] suf hend
  simp only [List.nil_append, List.length_nil, Nat.zero_add] at heat
  simp only [process_command_bare, hstr, eat_tok, heat, Option.isSome_some, if_true]

/-- C9 (as amended): on every input of 4 to 1024 bytes that begins with DATA
(respectively QUIT) and contains a CRLF, `d_smtp_command_process` returns
TRUE and records DATA with 354 (QUIT with 221), whatever stands between the
verb and the CRLF. -/
theorem bare_commands_accept_arguments (input : List Nat)
    (h4 : 4 ≤ input.length) (hmax : input.length ≤ 1024) (hcrlf : CRLF <:+: input) :
    (bytes "DATA" <+: input →
      parse input =
        some { result := true
               smtp_command :=
                 { command := SMTP_COMMAND.DATA, response_code := 354
                   command_bytes := some input }
               token := none }) ∧
    (bytes "QUIT" <+: input →
      parse input =
        some { result := true
               smtp_command :=
                 { command := SMTP_COMMAND.QUIT, response_code := 221
                   command_bytes := some input }
               token := none }) := by
  constructor
  · intro hp
    rw [parse_data input h4 hmax hp]
    obtain ⟨suf, hsuf⟩ := hp
    subst hsuf
    unfold d_smtp_command_process_command_data
    rw [process_command_bare_accepts _ (bytes "DATA") suf _ _ (by decide) hcrlf]
    rfl
  · intro hp
    rw [parse_quit input h4 hmax hp]
    obtain ⟨suf, hsuf⟩ := hp
    subst hsuf
    unfold d_smtp_command_process_command_quit
    rw [process_command_bare_accepts _ (bytes "QUIT") suf _ _ (by decide) hcrlf]
    rfl

/-- Witness of `bare_commands_accept_arguments`: the input `DATA foo` with
its CRLF. -/
theorem bare_commands_accept_arguments_witness :
    (4 ≤ (bytes "DATA foo\r\n").length ∧ (bytes "DATA foo\r\n").length ≤ 1024 ∧
      CRLF <:+: bytes "DATA foo\r\n" ∧ bytes "DATA" <+: bytes "DATA foo\r\n") ∧
    parse (bytes "DATA foo\r\n") =
      some { result := true
             smtp_command :=
               { command := SMTP_COMMAND.DATA, response_code := 354
                 command_bytes := some (bytes "DATA foo\r\n") }
             token := none } :=
  ⟨⟨by decide, by decide, by decide, by decide⟩,
   (bare_commands_accept_arguments (bytes "DATA foo\r\n") (by decide) (by decide)
      (by decide)).1 (by decide)⟩

/-- C9 (counterexample): the inputs `DATA foo` and `QUIT now`, each with its
CRLF, carry an argument after the verb (bytes other than space and tab stand
between the verb and the CRLF), and `d_smtp_command_process` returns TRUE on
both. -/
theorem bare_command_with_argument_accepted :
    (bytes "DATA foo\r\n" = bytes "DATA" ++ bytes " foo" ++ CRLF ∧
      ¬ (∀ b ∈ bytes " foo", b = 32 ∨ b = 9) ∧
      parse (bytes "DATA foo\r\n") =
        some { result := true
               smtp_command :=
                 { command := SMTP_COMMAND.DATA, response_code := 354
                   command_bytes := some (bytes "DATA foo\r\n") }
               token := none }) ∧
    (bytes "QUIT now\r\n" = bytes "QUIT" ++ bytes " now" ++ CRLF ∧
      ¬ (∀ b ∈ bytes " now", b = 32 ∨ b = 9) ∧
      parse (bytes "QUIT now\r\n") =
        some { result := true
               smtp_command :=
                 { command := SMTP_COMMAND.QUIT, response_code := 221
                   command_bytes := some (bytes "QUIT now\r\n") }
               token := none }) := by
  decide

/-! ## Theorems : rejected input -/

/-- A buffer whose verb is none of the six verbs is rejected by
`d_smtp_command_process`, and the command object keeps `UNKNOWN`. -/
theorem parse_unknown (input : List Nat)
    (hq : verb_of input ≠ bytes "QUIT") (hh : verb_of input ≠ bytes "HELO")
    (he : verb_of input ≠ bytes "EHLO") (hm : verb_of input ≠ bytes "MAIL")
    (hr : verb_of input ≠ bytes "RCPT") (hd : verb_of input ≠ bytes "DATA") :
    parse input =
      some { result := false
             smtp_command := d_smtp_command_set_bytes d_smtp_command_new input
             token := none } := by
  simp only [parse, d_smtp_command_process, d_smtp_command_set_bytes, if_neg hq, if_neg hh,
    if_neg he, if_neg hm, if_neg hr, if_neg hd]
  split <;> rfl

/-- A buffer that starts with EHLO is rejected by `d_smtp_command_process`,
and the command object keeps `UNKNOWN`. -/
theorem parse_ehlo (input : List Nat) (hp : bytes "EHLO" <+: input) :
    parse input =
      some { result := false
             smtp_command := d_smtp_command_set_bytes d_smtp_command_new input
             token := none } := by
  have hv := verb_of_prefix input (bytes "EHLO") rfl (by decide) hp
  simp only [parse, d_smtp_command_process, d_smtp_command_set_bytes, hv]
  split
  · rfl
  · rfl

/-- The read handler on a chunk that the parser rejects, in a state other
than `DATA_ACCEPTED`: nothing is written, the FSM is left as it is, and the
close of the socket is issued. -/
theorem read_handle_parse_failed (d : Driver) (chunk : List Nat) (out : ProcessOutcome)
    (hs : d.connection.state.state ≠ SMTP_STATE.DATA_ACCEPTED)
    (hp : parse chunk = some out) (hr : out.result = false) :
    ∃ d', d_smtp_connection_read_handle d (some chunk) = some d' ∧
      d'.written = d.written ∧ d'.connection.state = d.connection.state ∧
      d'.outstanding = d.outstanding ++ [IoOperation.close] ∧
      d'.disconnected = d.disconnected := by
  have hp' : d_smtp_command_process (d_smtp_command_set_bytes d_smtp_command_new chunk) =
      some out := hp
  have h : d_smtp_connection_read_handle d (some chunk) =
      some (d_smtp_connection_close
        { d with
          connection :=
            { d.connection with
              timeout :=
                (d_timeout_stop d.connection.timeout d.loop TIMEOUT_OPERATION.READ).1 }
          loop := (d_timeout_stop d.connection.timeout d.loop TIMEOUT_OPERATION.READ).2 }) := by
    simp only [d_smtp_connection_read_handle, d_smtp_state_get_current_state, if_neg hs,
      d_smtp_connection_test_input, hp', hr, if_true]
  exact ⟨_, h, by simp [d_smtp_connection_close]⟩

/-- C11: on every input whose first four bytes are EHLO
`d_smtp_command_process` returns FALSE and leaves the command `UNKNOWN`; no
input on which it returns TRUE has recorded EHLO, so the driver never passes
EHLO to the FSM; and in every state other than `DATA_ACCEPTED` the read
handler, given such a chunk, writes nothing, leaves the FSM as it is and
issues the close of the socket. -/
theorem ehlo_rejected :
    (∀ input : List Nat, bytes "EHLO" <+: input →
      parse input =
        some { result := false
               smtp_command :=
                 { command := SMTP_COMMAND.UNKNOWN, response_code := 0
                   command_bytes := some input }
               token := none }) ∧
    (∀ (input : List Nat) (out : ProcessOutcome), parse input = some out →
      out.result = true → out.smtp_command.command ≠ SMTP_COMMAND.EHLO) ∧
    (∀ (d : Driver) (input : List Nat), bytes "EHLO" <+: input →
      d.connection.state.state ≠ SMTP_STATE.DATA_ACCEPTED →
      ∃ d', d_smtp_connection_read_handle d (some input) = some d' ∧
        d'.written = d.written ∧ d'.connection.state = d.connection.state ∧
        d'.outstanding = d.outstanding ++ [IoOperation.close]) := by
  refine ⟨fun input hp => parse_ehlo input hp, ?_, ?_⟩
  · intro input out h hr hc
    rcases parse_result_verb input out h hr with h' | h' | h' | h' | h' <;>
      rw [hc] at h' <;> exact absurd h'.2.1 (by decide)
  · intro d input hp hs
    obtain ⟨d', h1, h2, h3, h4, -⟩ :=
      read_handle_parse_failed d input _ hs (parse_ehlo input hp) rfl
    exact ⟨d', h1, h2, h3, h4⟩

/-- Witness of `ehlo_rejected`: the chunk `EHLO x` with its CRLF, read in
`GREETING_SENT`. -/
theorem ehlo_rejected_witness :
    bytes "EHLO" <+: bytes "EHLO x\r\n" ∧
    parse (bytes "EHLO x\r\n") =
      some { result := false
             smtp_command :=
               { command := SMTP_COMMAND.UNKNOWN, response_code := 0
                 command_bytes := some (bytes "EHLO x\r\n") }
             token := none } :=
  ⟨by decide, ehlo_rejected.1 (bytes "EHLO x\r\n") (by decide)⟩

/-- C12: on every input whose first four bytes are none of HELO, EHLO, MAIL,
RCPT, DATA, QUIT (of 4 to 1024 bytes, or of any other length),
`d_smtp_command_process` returns FALSE and `d_smtp_command_get_smtp_command`
reports `UNKNOWN` afterwards. -/
theorem unknown_verb_rejected (input : List Nat)
    (hverb : input.take 4 ≠ bytes "HELO" ∧ input.take 4 ≠ bytes "EHLO" ∧
      input.take 4 ≠ bytes "MAIL" ∧ input.take 4 ≠ bytes "RCPT" ∧
      input.take 4 ≠ bytes "DATA" ∧ input.take 4 ≠ bytes "QUIT") :
    ∃ out, parse input = some out ∧ out.result = false ∧
      d_smtp_command_get_smtp_command out.smtp_command = SMTP_COMMAND.UNKNOWN := by
  obtain ⟨hh, he, hm, hr, hd, hq⟩ := hverb
  have key : ∀ w : List Nat, w.length = 4 → input.take 4 ≠ w → verb_of input ≠ w :=
    fun w hw hne hv => hne (take_four_of_verb input w hw hv)
  exact ⟨_, parse_unknown input (key _ rfl hq) (key _ rfl hh) (key _ rfl he) (key _ rfl hm)
    (key _ rfl hr) (key _ rfl hd), rfl, rfl⟩

/-- Witness of `unknown_verb_rejected`: the lower-case `helo x` with its
CRLF. -/
theorem unknown_verb_rejected_witness :
    (4 ≤ (bytes "helo x\r\n").length ∧ (bytes "helo x\r\n").length ≤ 1024 ∧
      (bytes "helo x\r\n").take 4 = bytes "helo") ∧
    ∃ out, parse (bytes "helo x\r\n") = some out ∧ out.result = false ∧
      d_smtp_command_get_smtp_command out.smtp_command = SMTP_COMMAND.UNKNOWN :=
  ⟨by decide, unknown_verb_rejected (bytes "helo x\r\n") (by decide)⟩

/-! ## Theorems : the parser reads one line -/

/-- A word without CR that starts a line followed by a CR starts the line. -/
theorem prefix_of_append_cr :
    ∀ (W L t : List Nat), 13 ∉ W → W <+: L ++ 13 :: t → W <+: L := by
  intro W
  induction W with
  | nil => intro L t _ _; exact List.nil_prefix
  | cons w W ih =>
      intro L t hW hp
      have hw : w ≠ 13 := fun h => hW (h ▸ List.mem_cons_self w W)
      have hW' : 13 ∉ W := fun hm => hW (List.mem_cons_of_mem w hm)
      cases L with
      | nil =>
          obtain ⟨u, hu⟩ := hp
          simp only [List.nil_append, List.cons_append, List.cons.injEq] at hu
          exact absurd hu.1 hw
      | cons b L =>
          rw [List.cons_append] at hp
          obtain ⟨u, hu⟩ := hp
          simp only [List.cons_append, List.cons.injEq] at hu
          obtain ⟨hwb, hrest⟩ := hu
          subst hwb
          have := ih L t hW' ⟨u, hrest⟩
          exact (List.prefix_cons_inj w).mpr this

/-- On NUL-free buffers of 4 to 1024 bytes whose bytes before the first CRLF
are `L`, what is observed of the parse is the same for every buffer: it is
decided by `L`. -/
theorem parse_observed_of_line (L : List Nat) (hL : ¬ CRLF <:+: L) :
    ∃ obs : Bool × SMTP_COMMAND × Nat × Option (List Nat),
      ∀ r : List Nat, 0 ∉ L ++ CRLF ++ r → 4 ≤ (L ++ CRLF ++ r).length →
        (L ++ CRLF ++ r).length ≤ 1024 →
        ∃ o, parse (L ++ CRLF ++ r) = some o ∧ o.observed = obs := by
  have hpre : ∀ (W r : List Nat), W <+: L → W <+: L ++ CRLF ++ r := by
    intro W r h
    rw [List.append_assoc]
    exact h.trans (List.prefix_append L _)
  have hline : ∀ r : List Nat, L ++ CRLF ++ r = L ++ 13 :: 10 :: r := by
    intro r
    rw [CRLF_eq]
    simp
  have hL' : ¬ [13, 10] <:+: L := by rwa [CRLF_eq] at hL
  by_cases hH : bytes "HELO" <+: L
  · obtain ⟨t, ht⟩ := hH
    refine ⟨(true, SMTP_COMMAND.HELO, 250, some (t.dropWhile (fun b => b = 32))), ?_⟩
    intro r h0 h4 hmax
    have h0L : 0 ∉ bytes "HELO" ++ t := by
      rw [ht]
      exact fun hm => h0 (by rw [List.append_assoc]; exact List.mem_append_left _ hm)
    rw [parse_helo _ h4 hmax (hpre _ r ⟨t, ht⟩)]
    have hspec := process_command_helo_spec
      (d_smtp_command_set_bytes d_smtp_command_new (L ++ CRLF ++ r)) (bytes "HELO") t r rfl
      h0L (by rw [ht]; exact hL')
    rw [ht, ← hline r] at hspec
    rw [hspec]
    exact ⟨_, rfl, rfl⟩
  by_cases hM : bytes "MAIL" <+: L
  · refine ⟨(if bytes "MAIL" ++ bytes " " ++ bytes "FROM" ++ bytes ":" ++ bytes "<" <+: L ∧
        62 ∈ L.drop
          (bytes "MAIL" ++ bytes " " ++ bytes "FROM" ++ bytes ":" ++ bytes "<").length
      then (true, SMTP_COMMAND.MAIL, 250, some ((L.drop
          (bytes "MAIL" ++ bytes " " ++ bytes "FROM" ++ bytes ":" ++ bytes "<").length).takeWhile
            (fun b => b ≠ 62)))
      else (false, SMTP_COMMAND.UNKNOWN, 0, none)), ?_⟩
    intro r h0 h4 hmax
    rw [parse_address _ L r (bytes "MAIL") (bytes "FROM") SMTP_COMMAND.MAIL
      (Or.inl ⟨rfl, rfl, rfl⟩) h0 h4 hmax rfl hL (hpre _ r hM)]
    refine ⟨_, rfl, ?_⟩
    split <;> rfl
  by_cases hR : bytes "RCPT" <+: L
  · refine ⟨(if bytes "RCPT" ++ bytes " " ++ bytes "TO" ++ bytes ":" ++ bytes "<" <+: L ∧
        62 ∈ L.drop
          (bytes "RCPT" ++ bytes " " ++ bytes "TO" ++ bytes ":" ++ bytes "<").length
      then (true, SMTP_COMMAND.RCPT, 250, some ((L.drop
          (bytes "RCPT" ++ bytes " " ++ bytes "TO" ++ bytes ":" ++ bytes "<").length).takeWhile
            (fun b => b ≠ 62)))
      else (false, SMTP_COMMAND.UNKNOWN, 0, none)), ?_⟩
    intro r h0 h4 hmax
    rw [parse_address _ L r (bytes "RCPT") (bytes "TO") SMTP_COMMAND.RCPT
      (Or.inr ⟨rfl, rfl, rfl⟩) h0 h4 hmax rfl hL (hpre _ r hR)]
    refine ⟨_, rfl, ?_⟩
    split <;> rfl
  have hcrlf : ∀ r : List Nat, CRLF <:+: L ++ CRLF ++ r := fun r => ⟨L, r, rfl⟩
  by_cases hD : bytes "DATA" <+: L
  · refine ⟨(true, SMTP_COMMAND.DATA, 354, none), ?_⟩
    intro r _ h4 hmax
    have hp := hpre _ r hD
    rw [parse_data _ h4 hmax hp]
    obtain ⟨suf, hsuf⟩ := hp
    unfold d_smtp_command_process_command_data
    have hacc := process_command_bare_accepts
      (d_smtp_command_set_bytes d_smtp_command_new (L ++ CRLF ++ r)) (bytes "DATA") suf
      SMTP_COMMAND.DATA 354 (by decide) (by rw [hsuf]; exact hcrlf r)
    rw [hsuf] at hacc
    rw [hacc]
    exact ⟨_, rfl, rfl⟩
  by_cases hQ : bytes "QUIT" <+: L
  · refine ⟨(true, SMTP_COMMAND.QUIT, 221, none), ?_⟩
    intro r _ h4 hmax
    have hp := hpre _ r hQ
    rw [parse_quit _ h4 hmax hp]
    obtain ⟨suf, hsuf⟩ := hp
    unfold d_smtp_command_process_command_quit
    have hacc := process_command_bare_accepts
      (d_smtp_command_set_bytes d_smtp_command_new (L ++ CRLF ++ r)) (bytes "QUIT") suf
      SMTP_COMMAND.QUIT 221 (by decide) (by rw [hsuf]; exact hcrlf r)
    rw [hsuf] at hacc
    rw [hacc]
    exact ⟨_, rfl, rfl⟩
  refine ⟨(false, SMTP_COMMAND.UNKNOWN, 0, none), ?_⟩
  intro r _ _ _
  by_cases hE : bytes "EHLO" <+: L
  · rw [parse_ehlo _ (hpre _ r hE)]
    exact ⟨_, rfl, rfl⟩
  · have key : ∀ W : List Nat, W.length = 4 → 13 ∉ W → ¬ W <+: L →
        verb_of (L ++ CRLF ++ r) ≠ W := by
      intro W hW h13 hn hv
      have htake := take_four_of_verb _ W hW hv
      have hp : W <+: L ++ CRLF ++ r := by
        rw [← htake]
        exact List.take_prefix 4 _
      rw [hline r] at hp
      exact hn (prefix_of_append_cr W L (10 :: r) h13 hp)
    rw [parse_unknown _ (key _ rfl (by decide) hQ) (key _ rfl (by decide) hH)
      (key _ rfl (by decide) hE) (key _ rfl (by decide) hM) (key _ rfl (by decide) hR)
      (key _ rfl (by decide) hD)]
    exact ⟨_, rfl, rfl⟩

/-- C13: for NUL-free inputs `x` and `y` of 4 to 1024 bytes that agree up to
and including their first CRLF (both are `L`, CRLF, and some rest, with no
CRLF in `L`), `d_smtp_command_process` on new command objects returns on
both, with the same success flag, command variant, response code and
token. -/
theorem parse_reads_one_line (L r1 r2 : List Nat) (hL : ¬ CRLF <:+: L)
    (hx0 : 0 ∉ L ++ CRLF ++ r1) (hy0 : 0 ∉ L ++ CRLF ++ r2)
    (hx4 : 4 ≤ (L ++ CRLF ++ r1).length) (hxmax : (L ++ CRLF ++ r1).length ≤ 1024)
    (hy4 : 4 ≤ (L ++ CRLF ++ r2).length) (hymax : (L ++ CRLF ++ r2).length ≤ 1024) :
    ∃ ox oy, parse (L ++ CRLF ++ r1) = some ox ∧ parse (L ++ CRLF ++ r2) = some oy ∧
      ox.result = oy.result ∧ ox.smtp_command.command = oy.smtp_command.command ∧
      ox.smtp_command.response_code = oy.smtp_command.response_code ∧
      ox.token = oy.token := by
  obtain ⟨obs, hobs⟩ := parse_observed_of_line L hL
  obtain ⟨ox, hpx, hox⟩ := hobs r1 hx0 hx4 hxmax
  obtain ⟨oy, hpy, hoy⟩ := hobs r2 hy0 hy4 hymax
  have h : ox.observed = oy.observed := hox.trans hoy.symm
  simp only [ProcessOutcome.observed, Prod.mk.injEq] at h
  exact ⟨ox, oy, hpx, hpy, h.1, h.2.1, h.2.2.1, h.2.2.2⟩

/-- Witness of `parse_reads_one_line`: the line `MAIL FROM:<a@x>` followed by
nothing and followed by the bytes `junk`. -/
theorem parse_reads_one_line_witness :
    ¬ CRLF <:+: bytes "MAIL FROM:<a@x>" ∧
    ∃ ox oy, parse (bytes "MAIL FROM:<a@x>" ++ CRLF ++ []) = some ox ∧
      parse (bytes "MAIL FROM:<a@x>" ++ CRLF ++ bytes "junk") = some oy ∧
      ox.result = oy.result ∧ ox.smtp_command.command = oy.smtp_command.command ∧
      ox.smtp_command.response_code = oy.smtp_command.response_code ∧
      ox.token = oy.token :=
  ⟨by decide,
   parse_reads_one_line (bytes "MAIL FROM:<a@x>") [] (bytes "junk") (by decide)
     (by decide) (by decide) (by decide) (by decide) (by decide) (by decide)⟩

/-! ## Theorems : the end of the message body -/

/-- The scan of `g_strstr_len` finds something exactly when the needle
stands in the bytes with no NUL before it. -/
theorem g_strstr_len_from_isSome (needle : List Nat) (hne : needle ≠ [])
    (h0 : 0 ∉ needle) :
    ∀ (l : List Nat) (p : Nat),
      (g_strstr_len_from needle l p).isSome = true ↔
        ∃ pre post, l = pre ++ needle ++ post ∧ 0 ∉ pre := by
  intro l
  induction l with
  | nil =>
      intro p
      simp only [g_strstr_len_from, Option.isSome_none, Bool.false_eq_true, false_iff]
      rintro ⟨pre, post, h, -⟩
      have hlen := congrArg List.length h
      simp only [List.length_nil, List.length_append] at hlen
      have : needle.length ≠ 0 := fun hz => hne (List.length_eq_zero.mp hz)
      omega
  | cons b rest ih =>
      intro p
      rw [g_strstr_len_from]
      by_cases hshort : (b :: rest).length < needle.length
      · rw [if_pos hshort]
        simp only [Option.isSome_none, Bool.false_eq_true, false_iff]
        rintro ⟨pre, post, h, -⟩
        have hlen := congrArg List.length h
        simp only [List.length_append] at hlen
        omega
      · rw [if_neg hshort]
        by_cases hb : b = 0
        · rw [if_pos hb]
          simp only [Option.isSome_none, Bool.false_eq_true, false_iff]
          rintro ⟨pre, post, h, hpre⟩
          cases pre with
          | nil =>
              cases needle with
              | nil => exact hne rfl
              | cons w ws =>
                  simp only [List.nil_append, List.cons_append, List.cons.injEq] at h
                  exact h0 (by rw [← h.1, hb]; exact List.mem_cons_self 0 ws)
          | cons a pre =>
              simp only [List.cons_append, List.cons.injEq] at h
              exact hpre (by rw [← h.1, hb]; exact List.mem_cons_self 0 pre)
        · rw [if_neg hb]
          by_cases hp : needle <+: b :: rest
          · rw [if_pos hp]
            simp only [Option.isSome_some, true_iff]
            obtain ⟨post, hpost⟩ := hp
            exact ⟨[], post, by simp [hpost], by simp⟩
          · rw [if_neg hp, ih (p + 1)]
            constructor
            · rintro ⟨pre, post, h, hpre⟩
              refine ⟨b :: pre, post, by simp [h], ?_⟩
              intro hm
              rcases List.mem_cons.mp hm with h' | h'
              · exact hb h'.symm
              · exact hpre h'
            · rintro ⟨pre, post, h, hpre⟩
              cases pre with
              | nil =>
                  exact absurd ⟨post, by simpa using h.symm⟩ hp
              | cons a pre =>
                  simp only [List.cons_append, List.cons.injEq] at h
                  exact ⟨pre, post, by simp [h.2], fun hm => hpre (List.mem_cons_of_mem a hm)⟩

/-- The search for `DATA_END` in a chunk succeeds exactly when `.`, CR, LF
stand in the chunk with no NUL before them. -/
theorem data_end_found_iff (chunk : List Nat) :
    (g_strstr_len chunk DATA_END).isSome = true ↔
      ∃ pre post, chunk = pre ++ DATA_END ++ post ∧ 0 ∉ pre := by
  have hne : DATA_END ≠ [] := by decide
  rw [g_strstr_len, if_neg hne]
  exact g_strstr_len_from_isSome DATA_END hne (by decide) chunk 0

/-- The reply to the response code 250 of a connection whose host name is
`localhost`. -/
theorem response_250 (d : Driver) (hh : d.connection.my_host_name = bytes "localhost") :
    (d_smtp_connection_send_response_code d 250).written =
      d.written ++ [bytes "250 localhost\r\n"] := by
  simp only [d_smtp_connection_send_response_code, d_smtp_connection_send_response_text,
    d_smtp_connection_write_bytes, hh]
  have : c_str (decimal 250 ++ bytes " " ++ c_str (bytes "localhost") ++ bytes "\r\n") =
      bytes "250 localhost\r\n" := by decide
  rw [this]

/-- C14 (as amended): in `DATA_ACCEPTED` the read handler ends the body (the
FSM is forced to `DATA_ENDED`, the reply `250 localhost` with CRLF is handed
to the socket and a write is issued) exactly when the chunk holds the three
bytes `.`, CR, LF with no NUL before them, in particular when it holds CR, LF,
`.`, CR, LF after NUL-free bytes; otherwise the FSM stays in `DATA_ACCEPTED`,
nothing is written and a read is issued. -/
theorem data_end_detection (d : Driver) (chunk : List Nat)
    (hs : d.connection.state.state = SMTP_STATE.DATA_ACCEPTED)
    (hh : d.connection.my_host_name = bytes "localhost") :
    ∃ d', d_smtp_connection_read_handle d (some chunk) = some d' ∧
      ((∃ pre post, chunk = pre ++ bytes ".\r\n" ++ post ∧ 0 ∉ pre) →
        d'.connection.state.state = SMTP_STATE.DATA_ENDED ∧
        d'.written = d.written ++ [bytes "250 localhost\r\n"] ∧
        d'.outstanding = d.outstanding ++ [IoOperation.write]) ∧
      ((∃ pre post, chunk = pre ++ bytes "\r\n.\r\n" ++ post ∧ 0 ∉ pre) →
        d'.connection.state.state = SMTP_STATE.DATA_ENDED ∧
        d'.written = d.written ++ [bytes "250 localhost\r\n"] ∧
        d'.outstanding = d.outstanding ++ [IoOperation.write]) ∧
      ((¬ ∃ pre post, chunk = pre ++ bytes ".\r\n" ++ post ∧ 0 ∉ pre) →
        d'.connection.state.state = SMTP_STATE.DATA_ACCEPTED ∧
        d'.written = d.written ∧
        d'.outstanding = d.outstanding ++ [IoOperation.read]) := by
  have hiff := data_end_found_iff chunk
  have hde : DATA_END = bytes ".\r\n" := rfl
  rw [hde] at hiff
  by_cases hfound : ∃ pre post, chunk = pre ++ bytes ".\r\n" ++ post ∧ 0 ∉ pre
  · have hsome := hiff.mpr hfound
    rw [← hde] at hsome
    have hstep : d_smtp_connection_read_handle d (some chunk) =
        some (d_smtp_connection_send_response_code
          { d with
            connection :=
              { d.connection with
                timeout :=
                  (d_timeout_stop d.connection.timeout d.loop TIMEOUT_OPERATION.READ).1
                state := { d.connection.state with state := SMTP_STATE.DATA_ENDED } }
            loop := (d_timeout_stop d.connection.timeout d.loop TIMEOUT_OPERATION.READ).2 }
          250) := by
      simp only [d_smtp_connection_read_handle, d_smtp_state_get_current_state, hs, if_true,
        hsome, d_smtp_state_set_next_state]
    have hres : (d_smtp_connection_send_response_code
          { d with
            connection :=
              { d.connection with
                timeout :=
                  (d_timeout_stop d.connection.timeout d.loop TIMEOUT_OPERATION.READ).1
                state := { d.connection.state with state := SMTP_STATE.DATA_ENDED } }
            loop := (d_timeout_stop d.connection.timeout d.loop TIMEOUT_OPERATION.READ).2 }
          250).connection.state.state = SMTP_STATE.DATA_ENDED ∧
        (d_smtp_connection_send_response_code
          { d with
            connection :=
              { d.connection with
                timeout :=
                  (d_timeout_stop d.connection.timeout d.loop TIMEOUT_OPERATION.READ).1
                state := { d.connection.state with state := SMTP_STATE.DATA_ENDED } }
            loop := (d_timeout_stop d.connection.timeout d.loop TIMEOUT_OPERATION.READ).2 }
          250).written = d.written ++ [bytes "250 localhost\r\n"] ∧
        (d_smtp_connection_send_response_code
          { d with
            connection :=
              { d.connection with
                timeout :=
                  (d_timeout_stop d.connection.timeout d.loop TIMEOUT_OPERATION.READ).1
                state := { d.connection.state with state := SMTP_STATE.DATA_ENDED } }
            loop := (d_timeout_stop d.connection.timeout d.loop TIMEOUT_OPERATION.READ).2 }
          250).outstanding = d.outstanding ++ [IoOperation.write] := by
      exact ⟨rfl, response_250 _ hh, rfl⟩
    exact ⟨_, hstep, fun _ => hres, fun _ => hres, fun hn => absurd hfound hn⟩
  · have hnone : (g_strstr_len chunk DATA_END).isSome = false := by
      rw [hde]
      cases hv : (g_strstr_len chunk (bytes ".\r\n")).isSome with
      | false => rfl
      | true => exact absurd (hiff.mp hv) hfound
    have hstep : d_smtp_connection_read_handle d (some chunk) =
        some { d with
               connection :=
                 { d.connection with
                   timeout :=
                     (d_timeout_stop d.connection.timeout d.loop TIMEOUT_OPERATION.READ).1 }
               loop := (d_timeout_stop d.connection.timeout d.loop TIMEOUT_OPERATION.READ).2
               outstanding := d.outstanding ++ [IoOperation.read] } := by
      simp only [d_smtp_connection_read_handle, d_smtp_state_get_current_state, hs, if_true,
        hnone, Bool.false_eq_true, if_false]
    refine ⟨_, hstep, fun h => absurd h hfound, ?_, fun _ => ⟨hs, rfl, rfl⟩⟩
    rintro ⟨pre, post, hc, hpre⟩
    refine absurd ⟨pre ++ bytes "\r\n", post, ?_, ?_⟩ hfound
    · rw [hc]
      have : bytes "\r\n.\r\n" = bytes "\r\n" ++ bytes ".\r\n" := rfl
      rw [this]
      simp
    · intro hm
      rcases List.mem_append.mp hm with h' | h'
      · exact hpre h'
      · revert h'
        decide

/-- Witness of `data_end_detection`: the connection after the dialogue up to
DATA is in `DATA_ACCEPTED`, and the chunk `hi`, CRLF, `.`, CRLF ends the
body. -/
theorem data_end_detection_witness :
    ∃ d d', driver_steps (d_smtp_connection_new_with_timeouts 60 10 10) dialogue_to_data =
        some d ∧
      d.connection.state.state = SMTP_STATE.DATA_ACCEPTED ∧
      d.connection.my_host_name = bytes "localhost" ∧
      d_smtp_connection_read_handle d (some (bytes "hi\r\n.\r\n")) = some d' ∧
      d'.connection.state.state = SMTP_STATE.DATA_ENDED ∧
      d'.written = d.written ++ [bytes "250 localhost\r\n"] ∧
      d'.outstanding = d.outstanding ++ [IoOperation.write] := by
  have hrun : (driver_steps (d_smtp_connection_new_with_timeouts 60 10 10)
      dialogue_to_data).map (fun d => (d.connection.state.state, d.connection.my_host_name)) =
      some (SMTP_STATE.DATA_ACCEPTED, bytes "localhost") := by decide
  cases hd : driver_steps (d_smtp_connection_new_with_timeouts 60 10 10) dialogue_to_data with
  | none => simp [hd] at hrun
  | some d =>
      rw [hd] at hrun
      simp only [Option.map_some', Option.some.injEq, Prod.mk.injEq] at hrun
      obtain ⟨d', h1, h2, -, -⟩ := data_end_detection d (bytes "hi\r\n.\r\n") hrun.1 hrun.2
      exact ⟨d, d', rfl, hrun.1, hrun.2, h1, h2 ⟨bytes "hi\r\n", [], by decide, by decide⟩⟩

/-- C14 (counterexample): the chunk `end of sentence.` with its CRLF does not
hold CR, LF, `.`, CR, LF, and read in `DATA_ACCEPTED`, after the dialogue up
to DATA, it ends the body: the FSM is in `DATA_ENDED`, a write is outstanding
and the reply `250 localhost` with CRLF has been handed to the socket. -/
theorem sentence_end_ends_body :
    ¬ (bytes "\r\n.\r\n" <:+: bytes "end of sentence.\r\n") ∧
    (driver_steps (d_smtp_connection_new_with_timeouts 60 10 10) dialogue_to_data).map
        (fun d => (d.connection.state.state, d.written.length)) =
      some (SMTP_STATE.DATA_ACCEPTED, 5) ∧
    (driver_steps (d_smtp_connection_new_with_timeouts 60 10 10)
        (dialogue_to_data ++ [Completion.read_done (bytes "end of sentence.\r\n")])).map
        (fun d => (d.connection.state.state, d.outstanding, d.written.drop 5)) =
      some (SMTP_STATE.DATA_ENDED, [IoOperation.write], [bytes "250 localhost\r\n"]) := by
  decide

/-! ## Theorems : what the handlers of the driver change -/

/-- The reply to a response code, as `d_smtp_connection_send_response_code`
hands it to the socket. -/
theorem send_response_code_effect (d : Driver) (code : Nat) :
    (d_smtp_connection_send_response_code d code).written =
        d.written ++
          [c_str (decimal code ++ bytes " " ++ c_str d.connection.my_host_name ++
            bytes "\r\n")] ∧
    (d_smtp_connection_send_response_code d code).outstanding =
        d.outstanding ++ [IoOperation.write] ∧
    (d_smtp_connection_send_response_code d code).disconnected = d.disconnected ∧
    (d_smtp_connection_send_response_code d code).connection.my_host_name =
        d.connection.my_host_name ∧
    (d_smtp_connection_send_response_code d code).connection.state = d.connection.state := by
  simp [d_smtp_connection_send_response_code, d_smtp_connection_send_response_text,
    d_smtp_connection_write_bytes]

/-- The function `d_smtp_connection_close` issues the close and changes
neither what was written, nor the signal count, nor the host name, nor the
FSM. -/
theorem close_effect (d : Driver) :
    (d_smtp_connection_close d).written = d.written ∧
    (d_smtp_connection_close d).outstanding = d.outstanding ++ [IoOperation.close] ∧
    (d_smtp_connection_close d).disconnected = d.disconnected ∧
    (d_smtp_connection_close d).connection.my_host_name = d.connection.my_host_name ∧
    (d_smtp_connection_close d).connection.state = d.connection.state := by
  simp [d_smtp_connection_close]

/-- The three outcomes of `d_smtp_connection_test_input`: the parser rejects
and the driver is unchanged; the parser accepts, the FSM rejects and only the
FSM has changed; both accept and the reply for the response code of the
command has been sent. -/
theorem test_input_effect (d : Driver) (chunk : List Nat) (ok : Bool) (d' : Driver)
    (h : d_smtp_connection_test_input d chunk = some (ok, d')) :
    ∃ out, parse chunk = some out ∧
      ((out.result = false ∧ ok = false ∧ d' = d) ∨
       (out.result = true ∧ ok = false ∧
          (d_smtp_state_next_state_by_command d.connection.state
            out.smtp_command.command).1 = false ∧
          d' = { d with
                 connection :=
                   { d.connection with
                     state := (d_smtp_state_next_state_by_command d.connection.state
                       out.smtp_command.command).2 } }) ∨
       (out.result = true ∧ ok = true ∧
          (d_smtp_state_next_state_by_command d.connection.state
            out.smtp_command.command).1 = true ∧
          d' = d_smtp_connection_send_response_code
                 { d with
                   connection :=
                     { d.connection with
                       state := (d_smtp_state_next_state_by_command d.connection.state
                         out.smtp_command.command).2 } }
                 out.smtp_command.response_code)) := by
  unfold d_smtp_connection_test_input at h
  simp only [] at h
  cases hp : d_smtp_command_process (d_smtp_command_set_bytes d_smtp_command_new chunk) with
  | none => simp [hp] at h
  | some out =>
      refine ⟨out, hp, ?_⟩
      simp only [hp] at h
      cases hr : out.result with
      | false =>
          simp only [hr, if_true, Option.some.injEq, Prod.mk.injEq] at h
          exact Or.inl ⟨rfl, h.1.symm, h.2.symm⟩
      | true =>
          simp only [hr, Bool.true_eq_false, if_false] at h
          have hcmd : out.smtp_command.command ≠ SMTP_COMMAND.UNKNOWN := by
            intro hc
            rcases parse_result_verb chunk out hp hr with h' | h' | h' | h' | h' <;>
              rw [hc] at h' <;> exact absurd h'.2.1 (by decide)
          simp only [d_smtp_command_get_smtp_command, d_smtp_command_get_response_code,
            if_neg hcmd] at h
          cases hacc : (d_smtp_state_next_state_by_command d.connection.state
              out.smtp_command.command).1 with
          | false =>
              simp only [hacc, if_true, Option.some.injEq, Prod.mk.injEq] at h
              exact Or.inr (Or.inl ⟨rfl, h.1.symm, rfl, h.2.symm⟩)
          | true =>
              simp only [hacc, Bool.true_eq_false, if_false, Option.some.injEq,
                Prod.mk.injEq] at h
              exact Or.inr (Or.inr ⟨rfl, h.1.symm, rfl, h.2.symm⟩)

/-- What the read handler changes: the host name and the signal count are
kept; either nothing is written and a close or a read is issued, or the
reply to one of the codes 250, 354, 221 is written and a write is issued. -/
theorem read_handle_effect (d : Driver) (bytes? : Option (List Nat)) (d' : Driver)
    (h : d_smtp_connection_read_handle d bytes? = some d') :
    d'.connection.my_host_name = d.connection.my_host_name ∧
    d'.disconnected = d.disconnected ∧
    ((d'.written = d.written ∧
        (d'.outstanding = d.outstanding ++ [IoOperation.close] ∨
          d'.outstanding = d.outstanding ++ [IoOperation.read])) ∨
      (∃ code, (code = 250 ∨ code = 354 ∨ code = 221) ∧
        d'.written = d.written ++
          [c_str (decimal code ++ bytes " " ++ c_str d.connection.my_host_name ++
            bytes "\r\n")] ∧
        d'.outstanding = d.outstanding ++ [IoOperation.write])) := by
  unfold d_smtp_connection_read_handle at h
  simp only [] at h
  cases bytes? with
  | none =>
      simp only [Option.some.injEq] at h
      subst h
      obtain ⟨h1, h2, h3, h4, -⟩ := close_effect
        { d with
          connection :=
            { d.connection with
              timeout :=
                (d_timeout_stop d.connection.timeout d.loop TIMEOUT_OPERATION.READ).1 }
          loop := (d_timeout_stop d.connection.timeout d.loop TIMEOUT_OPERATION.READ).2 }
      exact ⟨h4, h3, Or.inl ⟨h1, Or.inl h2⟩⟩
  | some chunk =>
      simp only [] at h
      split at h
      · split at h
        · simp only [Option.some.injEq] at h
          subst h
          obtain ⟨h1, h2, h3, h4, -⟩ := send_response_code_effect
            { d with
              connection :=
                { d.connection with
                  timeout :=
                    (d_timeout_stop d.connection.timeout d.loop TIMEOUT_OPERATION.READ).1
                  state :=
                    (d_smtp_state_set_next_state d.connection.state
                      SMTP_STATE.DATA_ENDED).2 }
              loop := (d_timeout_stop d.connection.timeout d.loop TIMEOUT_OPERATION.READ).2 }
            250
          exact ⟨h4, h3, Or.inr ⟨250, Or.inl rfl, h1, h2⟩⟩
        · simp only [Option.some.injEq] at h
          subst h
          exact ⟨rfl, rfl, Or.inl ⟨rfl, Or.inr rfl⟩⟩
      · split at h
        · simp at h
        · rename_i ok d1 hti
          obtain ⟨out, hp, hcase⟩ := test_input_effect _ chunk ok d1 hti
          rcases hcase with ⟨-, hok, hd1⟩ | ⟨-, hok, -, hd1⟩ | ⟨hr, hok, -, hd1⟩
          · subst hok
            simp only [if_true, Option.some.injEq] at h
            subst h
            subst hd1
            obtain ⟨h1, h2, h3, h4, -⟩ := close_effect
              { d with
                connection :=
                  { d.connection with
                    timeout :=
                      (d_timeout_stop d.connection.timeout d.loop TIMEOUT_OPERATION.READ).1 }
                loop := (d_timeout_stop d.connection.timeout d.loop TIMEOUT_OPERATION.READ).2 }
            exact ⟨h4, h3, Or.inl ⟨h1, Or.inl h2⟩⟩
          · subst hok
            simp only [if_true, Option.some.injEq] at h
            subst h
            subst hd1
            obtain ⟨h1, h2, h3, h4, -⟩ := close_effect
              { d with
                connection :=
                  { d.connection with
                    timeout :=
                      (d_timeout_stop d.connection.timeout d.loop TIMEOUT_OPERATION.READ).1
                    state := (d_smtp_state_next_state_by_command d.connection.state
                      out.smtp_command.command).2 }
                loop := (d_timeout_stop d.connection.timeout d.loop TIMEOUT_OPERATION.READ).2 }
            exact ⟨h4, h3, Or.inl ⟨h1, Or.inl h2⟩⟩
          · subst hok
            simp only [Bool.true_eq_false, if_false, Option.some.injEq] at h
            subst h
            subst hd1
            obtain ⟨h1, h2, h3, h4, -⟩ := send_response_code_effect
              { d with
                connection :=
                  { d.connection with
                    timeout :=
                      (d_timeout_stop d.connection.timeout d.loop TIMEOUT_OPERATION.READ).1
                    state := (d_smtp_state_next_state_by_command d.connection.state
                      out.smtp_command.command).2 }
                loop := (d_timeout_stop d.connection.timeout d.loop TIMEOUT_OPERATION.READ).2 }
              out.smtp_command.response_code
            have hcode : out.smtp_command.response_code = 250 ∨
                out.smtp_command.response_code = 354 ∨
                out.smtp_command.response_code = 221 := by
              rcases parse_result_verb chunk out hp hr with h' | h' | h' | h' | h'
              · exact Or.inl h'.2.2
              · exact Or.inl h'.2.2
              · exact Or.inl h'.2.2
              · exact Or.inr (Or.inl h'.2.2)
              · exact Or.inr (Or.inr h'.2.2)
            exact ⟨h4, h3, Or.inr ⟨_, hcode, h1, h2⟩⟩

/-- What the write handler changes: the host name, the signal count and what
was written are kept, and a close or a read is issued. -/
theorem write_handle_effect (d : Driver) (ok : Bool) (bytes_written : Nat) :
    (d_smtp_connection_write_handle d ok bytes_written).connection.my_host_name =
        d.connection.my_host_name ∧
    (d_smtp_connection_write_handle d ok bytes_written).disconnected = d.disconnected ∧
    (d_smtp_connection_write_handle d ok bytes_written).written = d.written ∧
    ((d_smtp_connection_write_handle d ok bytes_written).outstanding =
        d.outstanding ++ [IoOperation.close] ∨
      (d_smtp_connection_write_handle d ok bytes_written).outstanding =
        d.outstanding ++ [IoOperation.read]) := by
  unfold d_smtp_connection_write_handle
  simp only []
  split
  · simp [d_smtp_connection_close]
  · split
    · simp [d_smtp_connection_close]
    · split
      · simp [d_smtp_connection_close]
      · split
        · simp [d_smtp_connection_close]
        · simp

/-- What the close handler changes: the signal is emitted once more;
the host name, what was written and the outstanding operations are kept. -/
theorem close_handle_effect (d : Driver) (ok cancelled : Bool) :
    (d_smtp_connection_close_handle d ok cancelled).connection.my_host_name =
        d.connection.my_host_name ∧
    (d_smtp_connection_close_handle d ok cancelled).disconnected = d.disconnected + 1 ∧
    (d_smtp_connection_close_handle d ok cancelled).written = d.written ∧
    (d_smtp_connection_close_handle d ok cancelled).outstanding = d.outstanding := by
  simp [d_smtp_connection_close_handle]

/-! ## Theorems : runs of the driver -/

/-- Erasing the only operation of a list leaves none. -/
theorem erase_only (l : List IoOperation) (op : IoOperation) (hl : l.length = 1)
    (hm : op ∈ l) : l.erase op = [] := by
  cases l with
  | nil => simp at hl
  | cons a t =>
      cases t with
      | nil =>
          have : op = a := by simpa using hm
          subst this
          simp
      | cons b u => simp at hl

/-- The replies to the codes 250, 354 and 221 of a host named `localhost`. -/
theorem reply_of_code (code : Nat) (h : code = 250 ∨ code = 354 ∨ code = 221) :
    c_str (decimal code ++ bytes " " ++ c_str (bytes "localhost") ++ bytes "\r\n") =
        decimal code ++ bytes " localhost\r\n" ∧
    starts_with_code
      (c_str (decimal code ++ bytes " " ++ c_str (bytes "localhost") ++ bytes "\r\n")) := by
  unfold starts_with_code
  rcases h with h | h | h <;> subst h <;> decide

/-- One delivery keeps the invariant of the driver: the host name is
`localhost`; exactly one operation is outstanding and nothing was emitted, or
none is outstanding and `disconnected` was emitted once; every buffer written
starts with a response code.  The signal count grows by one on the
completion of a close and not otherwise. -/
theorem driver_step_invariant (d d' : Driver) (c : Completion)
    (h : driver_step d c = some d')
    (hhost : d.connection.my_host_name = bytes "localhost")
    (hinv : (d.outstanding.length = 1 ∧ d.disconnected = 0) ∨
      (d.outstanding = [] ∧ d.disconnected = 1))
    (hw : ∀ reply ∈ d.written, starts_with_code reply) :
    d'.connection.my_host_name = bytes "localhost" ∧
    ((d'.outstanding.length = 1 ∧ d'.disconnected = 0) ∨
      (d'.outstanding = [] ∧ d'.disconnected = 1)) ∧
    (∀ reply ∈ d'.written, starts_with_code reply) ∧
    d'.disconnected = d.disconnected + (if c.is_close = true then 1 else 0) := by
  have hout : ∀ op : IoOperation, op ∈ d.outstanding →
      d.outstanding.erase op = [] ∧ d.disconnected = 0 := by
    intro op hm
    rcases hinv with ⟨hl, hd⟩ | ⟨hl, -⟩
    · exact ⟨erase_only _ op hl hm, hd⟩
    · rw [hl] at hm
      simp at hm
  have hread : ∀ b? : Option (List Nat), IoOperation.read ∈ d.outstanding →
      d_smtp_connection_read_handle
        { d with outstanding := d.outstanding.erase IoOperation.read } b? = some d' →
      d'.connection.my_host_name = bytes "localhost" ∧
      ((d'.outstanding.length = 1 ∧ d'.disconnected = 0) ∨
        (d'.outstanding = [] ∧ d'.disconnected = 1)) ∧
      (∀ reply ∈ d'.written, starts_with_code reply) ∧
      d'.disconnected = d.disconnected + 0 := by
    intro b? hm hstep
    obtain ⟨he, hd0⟩ := hout _ hm
    obtain ⟨h1, h2, h3⟩ := read_handle_effect _ b? d' hstep
    simp only [he, List.nil_append] at h3
    simp only at h1 h2
    refine ⟨h1.trans hhost, Or.inl ⟨?_, by rw [h2, hd0]⟩, ?_, by rw [h2]; rfl⟩
    · rcases h3 with ⟨-, h | h⟩ | ⟨_, -, -, h⟩ <;> rw [h] <;> rfl
    · rcases h3 with ⟨hwr, -⟩ | ⟨code, hcode, hwr, -⟩
      · rw [hwr]
        exact hw
      · rw [hwr, hhost]
        intro reply hm
        rcases List.mem_append.mp hm with h' | h'
        · exact hw reply h'
        · rw [List.mem_singleton.mp h']
          exact (reply_of_code code hcode).2
  have hwrite : ∀ (ok : Bool) (n : Nat), IoOperation.write ∈ d.outstanding →
      d_smtp_connection_write_handle
        { d with outstanding := d.outstanding.erase IoOperation.write } ok n = d' →
      d'.connection.my_host_name = bytes "localhost" ∧
      ((d'.outstanding.length = 1 ∧ d'.disconnected = 0) ∨
        (d'.outstanding = [] ∧ d'.disconnected = 1)) ∧
      (∀ reply ∈ d'.written, starts_with_code reply) ∧
      d'.disconnected = d.disconnected + 0 := by
    intro ok n hm hstep
    obtain ⟨he, hd0⟩ := hout _ hm
    obtain ⟨h1, h2, h3, h4⟩ := write_handle_effect
      { d with outstanding := d.outstanding.erase IoOperation.write } ok n
    rw [hstep] at h1 h2 h3 h4
    simp only [he, List.nil_append] at h4
    simp only at h1 h2 h3
    refine ⟨h1.trans hhost, Or.inl ⟨?_, by rw [h2, hd0]⟩, by rw [h3]; exact hw,
      by rw [h2]; rfl⟩
    rcases h4 with h | h <;> rw [h] <;> rfl
  have hclose : ∀ (ok cancelled : Bool), IoOperation.close ∈ d.outstanding →
      d_smtp_connection_close_handle
        { d with outstanding := d.outstanding.erase IoOperation.close } ok cancelled = d' →
      d'.connection.my_host_name = bytes "localhost" ∧
      ((d'.outstanding.length = 1 ∧ d'.disconnected = 0) ∨
        (d'.outstanding = [] ∧ d'.disconnected = 1)) ∧
      (∀ reply ∈ d'.written, starts_with_code reply) ∧
      d'.disconnected = d.disconnected + 1 := by
    intro ok cancelled hm hstep
    obtain ⟨he, hd0⟩ := hout _ hm
    obtain ⟨h1, h2, h3, h4⟩ := close_handle_effect
      { d with outstanding := d.outstanding.erase IoOperation.close } ok cancelled
    rw [hstep] at h1 h2 h3 h4
    simp only [he] at h4
    simp only at h1 h2 h3
    exact ⟨h1.trans hhost, Or.inr ⟨h4, by rw [h2, hd0]⟩, by rw [h3]; exact hw, h2⟩
  cases c with
  | read_done chunk =>
      simp only [driver_step] at h
      split at h
      · rename_i hm
        simpa [Completion.is_close] using hread (some chunk) hm h
      · simp at h
  | read_failed cancelled =>
      simp only [driver_step] at h
      split at h
      · rename_i hm
        simpa [Completion.is_close] using hread none hm h
      · simp at h
  | write_done n =>
      simp only [driver_step] at h
      split at h
      · rename_i hm
        simp only [Option.some.injEq] at h
        simpa [Completion.is_close] using hwrite true n hm h
      · simp at h
  | write_failed n =>
      simp only [driver_step] at h
      split at h
      · rename_i hm
        simp only [Option.some.injEq] at h
        simpa [Completion.is_close] using hwrite false n hm h
      · simp at h
  | close_done =>
      simp only [driver_step] at h
      split at h
      · rename_i hm
        simp only [Option.some.injEq] at h
        simpa [Completion.is_close] using hclose true false hm h
      · simp at h
  | close_failed cancelled =>
      simp only [driver_step] at h
      split at h
      · rename_i hm
        simp only [Option.some.injEq] at h
        simpa [Completion.is_close] using hclose false cancelled hm h
      · simp at h
  | timer_expired id =>
      simp only [driver_step] at h
      split at h
      · simp only [internal_timeout_function, Option.some.injEq] at h
        subst h
        exact ⟨hhost, hinv, hw, by simp [Completion.is_close]⟩
      · simp at h

/-- The invariant of the driver along a run from a state that has it; the
signal count has grown by the number of close completions delivered. -/
theorem driver_steps_invariant (evs : List Completion) :
    ∀ (d d' : Driver), driver_steps d evs = some d' →
      d.connection.my_host_name = bytes "localhost" →
      ((d.outstanding.length = 1 ∧ d.disconnected = 0) ∨
        (d.outstanding = [] ∧ d.disconnected = 1)) →
      (∀ reply ∈ d.written, starts_with_code reply) →
      d'.connection.my_host_name = bytes "localhost" ∧
      ((d'.outstanding.length = 1 ∧ d'.disconnected = 0) ∨
        (d'.outstanding = [] ∧ d'.disconnected = 1)) ∧
      (∀ reply ∈ d'.written, starts_with_code reply) ∧
      d'.disconnected = d.disconnected + (evs.filter Completion.is_close).length := by
  induction evs with
  | nil =>
      intro d d' h hhost hinv hw
      simp only [driver_steps, Option.some.injEq] at h
      subst h
      exact ⟨hhost, hinv, hw, by simp⟩
  | cons c cs ih =>
      intro d d' h hhost hinv hw
      simp only [driver_steps] at h
      cases hstep : driver_step d c with
      | none => simp [hstep] at h
      | some d1 =>
          simp only [hstep] at h
          obtain ⟨h1, h2, h3, h4⟩ := driver_step_invariant d d1 c hstep hhost hinv hw
          obtain ⟨g1, g2, g3, g4⟩ := ih d1 d' h h1 h2 h3
          refine ⟨g1, g2, g3, ?_⟩
          rw [g4, h4, List.filter_cons]
          cases hc : c.is_close
          · simp
          · simp only [if_true, List.length_cons]
            omega

/-- A new connection has the invariant of the driver: the greeting is the
only buffer written, its write is the only outstanding operation, the FSM is
in `GREETING_SENDING`. -/
theorem new_connection (r w c : Nat) :
    (d_smtp_connection_new_with_timeouts r w c).connection.my_host_name =
        bytes "localhost" ∧
    (d_smtp_connection_new_with_timeouts r w c).outstanding = [IoOperation.write] ∧
    (d_smtp_connection_new_with_timeouts r w c).disconnected = 0 ∧
    (d_smtp_connection_new_with_timeouts r w c).written =
        [bytes "220 localhost SMTP example mail server\r\n"] ∧
    (d_smtp_connection_new_with_timeouts r w c).connection.state.state =
        SMTP_STATE.GREETING_SENDING := by
  have hg : c_str (bytes "220 " ++ (c_str (bytes "localhost") ++
      bytes " SMTP example mail server\r\n")) =
      bytes "220 localhost SMTP example mail server\r\n" := by decide
  simp [d_smtp_connection_new_with_timeouts, d_smtp_connection_set_socket,
    d_smtp_connection_send_response_text, d_smtp_connection_write_bytes,
    d_smtp_connection_init, d_smtp_state_set_next_state, hg]

/-- The invariant of the driver in every state reached from a new
connection. -/
theorem reachable_invariant (r w c : Nat) (evs : List Completion) (d : Driver)
    (h : driver_steps (d_smtp_connection_new_with_timeouts r w c) evs = some d) :
    d.connection.my_host_name = bytes "localhost" ∧
    ((d.outstanding.length = 1 ∧ d.disconnected = 0) ∨
      (d.outstanding = [] ∧ d.disconnected = 1)) ∧
    (∀ reply ∈ d.written, starts_with_code reply) ∧
    d.disconnected = (evs.filter Completion.is_close).length := by
  obtain ⟨n1, n2, n3, n4, -⟩ := new_connection r w c
  have := driver_steps_invariant evs _ d h n1 (Or.inl ⟨by rw [n2]; rfl, n3⟩) (by
    rw [n4]
    intro reply hm
    rw [List.mem_singleton.mp hm]
    exact Or.inl (by decide))
  rw [n3, Nat.zero_add] at this
  exact this

/-- C19: along every run of a connection from its construction, under any
sequence of read, write and close completions (successful, failed or
cancelled) and timer expiries, `disconnected` has been emitted at most once,
as many times as close completions were delivered, hence exactly once on
every run in which the close operation completed. -/
theorem disconnected_once (r w c : Nat) (evs : List Completion) (d : Driver)
    (h : driver_steps (d_smtp_connection_new_with_timeouts r w c) evs = some d) :
    d.disconnected ≤ 1 ∧
    d.disconnected = (evs.filter Completion.is_close).length ∧
    ((Completion.close_done ∈ evs ∨ ∃ cancelled, Completion.close_failed cancelled ∈ evs) →
      d.disconnected = 1) := by
  obtain ⟨-, hinv, -, hcount⟩ := reachable_invariant r w c evs d h
  have hle : d.disconnected ≤ 1 := by
    rcases hinv with ⟨-, h0⟩ | ⟨-, h1⟩ <;> omega
  refine ⟨hle, hcount, ?_⟩
  intro hreach
  have hpos : 0 < (evs.filter Completion.is_close).length := by
    rcases hreach with hm | ⟨b, hm⟩
    · exact List.length_pos_of_mem (List.mem_filter.mpr ⟨hm, rfl⟩)
    · exact List.length_pos_of_mem (List.mem_filter.mpr ⟨hm, rfl⟩)
  omega

/-- Witness of `disconnected_once`: the write of the greeting fails, the
close is issued and is cancelled by its timeout. -/
theorem disconnected_once_witness :
    ∃ d, driver_steps (d_smtp_connection_new_with_timeouts 60 10 10)
        [Completion.write_failed 0, Completion.timer_expired 2,
         Completion.close_failed true] = some d ∧ d.disconnected = 1 := by
  have hrun : (driver_steps (d_smtp_connection_new_with_timeouts 60 10 10)
      [Completion.write_failed 0, Completion.timer_expired 2,
       Completion.close_failed true]).isSome = true := by decide
  cases hd : driver_steps (d_smtp_connection_new_with_timeouts 60 10 10)
      [Completion.write_failed 0, Completion.timer_expired 2,
       Completion.close_failed true] with
  | none => simp [hd] at hrun
  | some d =>
      exact ⟨d, rfl, (disconnected_once 60 10 10 _ d hd).2.2 (Or.inr ⟨true, by simp⟩)⟩

/-! ## Theorems : replies and rejections of the read handler -/

/-- A command that the FSM rejects leaves it in `ERROR`. -/
theorem rejected_command_error (smtp_state : DSmtpState) (command : SMTP_COMMAND)
    (h : (d_smtp_state_next_state_by_command smtp_state command).1 = false) :
    (d_smtp_state_next_state_by_command smtp_state command).2.state = SMTP_STATE.ERROR := by
  cases smtp_state with
  | mk S => cases S <;> cases command <;> first | rfl | exact absurd h (by decide)

/-- The read handler on a chunk that the parser accepts, in a state other
than `DATA_ACCEPTED`: the command goes to the FSM; when the FSM accepts, the
reply for the response code of the command is sent; when it rejects, the
close is issued. -/
theorem read_handle_parsed (d : Driver) (chunk : List Nat) (out : ProcessOutcome)
    (hs : d.connection.state.state ≠ SMTP_STATE.DATA_ACCEPTED)
    (hp : parse chunk = some out) (hr : out.result = true) :
    d_smtp_connection_read_handle d (some chunk) =
      some (if (d_smtp_state_next_state_by_command d.connection.state
                out.smtp_command.command).1 = true then
              d_smtp_connection_send_response_code
                { d with
                  connection :=
                    { d.connection with
                      timeout :=
                        (d_timeout_stop d.connection.timeout d.loop
                          TIMEOUT_OPERATION.READ).1
                      state := (d_smtp_state_next_state_by_command d.connection.state
                        out.smtp_command.command).2 }
                  loop :=
                    (d_timeout_stop d.connection.timeout d.loop TIMEOUT_OPERATION.READ).2 }
                out.smtp_command.response_code
            else
              d_smtp_connection_close
                { d with
                  connection :=
                    { d.connection with
                      timeout :=
                        (d_timeout_stop d.connection.timeout d.loop
                          TIMEOUT_OPERATION.READ).1
                      state := (d_smtp_state_next_state_by_command d.connection.state
                        out.smtp_command.command).2 }
                  loop :=
                    (d_timeout_stop d.connection.timeout d.loop
                      TIMEOUT_OPERATION.READ).2 }) := by
  have hp' : d_smtp_command_process (d_smtp_command_set_bytes d_smtp_command_new chunk) =
      some out := hp
  have hcmd : out.smtp_command.command ≠ SMTP_COMMAND.UNKNOWN := by
    intro hc
    rcases parse_result_verb chunk out hp hr with h' | h' | h' | h' | h' <;>
      rw [hc] at h' <;> exact absurd h'.2.1 (by decide)
  cases hacc : (d_smtp_state_next_state_by_command d.connection.state
      out.smtp_command.command).1 with
  | false =>
      simp only [d_smtp_connection_read_handle, d_smtp_state_get_current_state, if_neg hs,
        d_smtp_connection_test_input, hp', hr, Bool.true_eq_false, if_false,
        d_smtp_command_get_smtp_command, if_neg hcmd, hacc, if_true, Bool.false_eq_true]
  | true =>
      simp only [d_smtp_connection_read_handle, d_smtp_state_get_current_state, if_neg hs,
        d_smtp_connection_test_input, hp', hr, Bool.true_eq_false, if_false,
        d_smtp_command_get_smtp_command, if_neg hcmd, hacc, if_true,
        d_smtp_command_get_response_code]

/-- C16: when the read handler, in a state other than `DATA_ACCEPTED` and
with host name `localhost`, is given a chunk that the parser and the FSM
accept, it hands to the socket exactly the decimal response code of the
command, a space, `localhost` and CRLF, that is `250 localhost` for HELO,
MAIL and RCPT, `354 localhost` for DATA and `221 localhost` for QUIT; and
every buffer a connection ever hands to the socket starts with one of the
codes 220, 221, 250, 354. -/
theorem reply_format :
    (∀ (d : Driver) (chunk : List Nat) (out : ProcessOutcome),
      d.connection.state.state ≠ SMTP_STATE.DATA_ACCEPTED →
      d.connection.my_host_name = bytes "localhost" →
      parse chunk = some out → out.result = true →
      (d_smtp_state_next_state_by_command d.connection.state
        out.smtp_command.command).1 = true →
      ∃ d', d_smtp_connection_read_handle d (some chunk) = some d' ∧
        d'.outstanding = d.outstanding ++ [IoOperation.write] ∧
        d'.written = d.written ++
          [decimal out.smtp_command.response_code ++ bytes " localhost\r\n"] ∧
        (((out.smtp_command.command = SMTP_COMMAND.HELO ∨
              out.smtp_command.command = SMTP_COMMAND.MAIL ∨
              out.smtp_command.command = SMTP_COMMAND.RCPT) ∧
            d'.written = d.written ++ [bytes "250 localhost\r\n"]) ∨
          (out.smtp_command.command = SMTP_COMMAND.DATA ∧
            d'.written = d.written ++ [bytes "354 localhost\r\n"]) ∨
          (out.smtp_command.command = SMTP_COMMAND.QUIT ∧
            d'.written = d.written ++ [bytes "221 localhost\r\n"]))) ∧
    (∀ (r w c : Nat) (evs : List Completion) (d : Driver),
      driver_steps (d_smtp_connection_new_with_timeouts r w c) evs = some d →
      ∀ reply ∈ d.written, starts_with_code reply) := by
  constructor
  · intro d chunk out hs hh hp hr hacc
    have hstep := read_handle_parsed d chunk out hs hp hr
    rw [if_pos hacc] at hstep
    have hcode : out.smtp_command.response_code = 250 ∨
        out.smtp_command.response_code = 354 ∨ out.smtp_command.response_code = 221 := by
      rcases parse_result_verb chunk out hp hr with h' | h' | h' | h' | h'
      · exact Or.inl h'.2.2
      · exact Or.inl h'.2.2
      · exact Or.inl h'.2.2
      · exact Or.inr (Or.inl h'.2.2)
      · exact Or.inr (Or.inr h'.2.2)
    have h250 : decimal 250 ++ bytes " localhost\r\n" = bytes "250 localhost\r\n" := by decide
    have h354 : decimal 354 ++ bytes " localhost\r\n" = bytes "354 localhost\r\n" := by decide
    have h221 : decimal 221 ++ bytes " localhost\r\n" = bytes "221 localhost\r\n" := by decide
    have key : ∀ d1 : Driver,
        d_smtp_connection_read_handle d (some chunk) =
          some (d_smtp_connection_send_response_code d1 out.smtp_command.response_code) →
        d1.connection.my_host_name = bytes "localhost" →
        d1.written = d.written → d1.outstanding = d.outstanding →
        ∃ d', d_smtp_connection_read_handle d (some chunk) = some d' ∧
          d'.outstanding = d.outstanding ++ [IoOperation.write] ∧
          d'.written = d.written ++
            [decimal out.smtp_command.response_code ++ bytes " localhost\r\n"] := by
      intro d1 g0 g1 g2 g3
      obtain ⟨e1, e2, -, -, -⟩ :=
        send_response_code_effect d1 out.smtp_command.response_code
      refine ⟨_, g0, ?_, ?_⟩
      · rw [e2, g3]
      · rw [e1, g1, g2, (reply_of_code _ hcode).1]
    obtain ⟨d', hd', h2, hw⟩ := key _ hstep hh rfl rfl
    refine ⟨d', hd', h2, hw, ?_⟩
    rcases parse_result_verb chunk out hp hr with h' | h' | h' | h' | h'
    · exact Or.inl ⟨Or.inl h'.2.1, by rw [hw, h'.2.2, h250]⟩
    · exact Or.inl ⟨Or.inr (Or.inl h'.2.1), by rw [hw, h'.2.2, h250]⟩
    · exact Or.inl ⟨Or.inr (Or.inr h'.2.1), by rw [hw, h'.2.2, h250]⟩
    · exact Or.inr (Or.inl ⟨h'.2.1, by rw [hw, h'.2.2, h354]⟩)
    · exact Or.inr (Or.inr ⟨h'.2.1, by rw [hw, h'.2.2, h221]⟩)
  · intro r w c evs d h
    exact (reachable_invariant r w c evs d h).2.2.1

/-- Witness of `reply_format`: the chunk `HELO x` with its CRLF, read by a
new connection. -/
theorem reply_format_witness :
    ((d_smtp_connection_new_with_timeouts 60 10 10).connection.state.state ≠
        SMTP_STATE.DATA_ACCEPTED ∧
      (d_smtp_connection_new_with_timeouts 60 10 10).connection.my_host_name =
        bytes "localhost" ∧
      parse (bytes "HELO x\r\n") =
        some { result := true
               smtp_command :=
                 { command := SMTP_COMMAND.HELO, response_code := 250
                   command_bytes := some (bytes "HELO x\r\n") }
               token := some (bytes "x") }) ∧
    ∃ d', d_smtp_connection_read_handle (d_smtp_connection_new_with_timeouts 60 10 10)
        (some (bytes "HELO x\r\n")) = some d' ∧
      d'.outstanding =
        (d_smtp_connection_new_with_timeouts 60 10 10).outstanding ++ [IoOperation.write] ∧
      d'.written = (d_smtp_connection_new_with_timeouts 60 10 10).written ++
        [decimal 250 ++ bytes " localhost\r\n"] :=
  ⟨by decide,
   by
    obtain ⟨d', h1, h2, h3, -⟩ := reply_format.1 (d_smtp_connection_new_with_timeouts 60 10 10)
      (bytes "HELO x\r\n")
      { result := true
        smtp_command :=
          { command := SMTP_COMMAND.HELO, response_code := 250
            command_bytes := some (bytes "HELO x\r\n") }
        token := some (bytes "x") }
      (by decide) (by decide) (by decide) rfl (by decide)
    exact ⟨d', h1, h2, h3⟩⟩

/-- C17: in every state other than `DATA_ACCEPTED`, when the parser rejects
the chunk the read handler writes nothing, leaves the FSM as it is and
issues the close; when the parser accepts the chunk and the FSM rejects the
command, the read handler writes nothing, the FSM is in `ERROR` and the close
is issued. -/
theorem rejected_chunk_closes (d : Driver) (chunk : List Nat) (out : ProcessOutcome)
    (hs : d.connection.state.state ≠ SMTP_STATE.DATA_ACCEPTED)
    (hp : parse chunk = some out) :
    (out.result = false →
      ∃ d', d_smtp_connection_read_handle d (some chunk) = some d' ∧
        d'.written = d.written ∧ d'.connection.state = d.connection.state ∧
        d'.outstanding = d.outstanding ++ [IoOperation.close]) ∧
    (out.result = true →
      (d_smtp_state_next_state_by_command d.connection.state
        out.smtp_command.command).1 = false →
      ∃ d', d_smtp_connection_read_handle d (some chunk) = some d' ∧
        d'.written = d.written ∧ d'.connection.state.state = SMTP_STATE.ERROR ∧
        d'.outstanding = d.outstanding ++ [IoOperation.close]) := by
  constructor
  · intro hr
    obtain ⟨d', h1, h2, h3, h4, -⟩ := read_handle_parse_failed d chunk out hs hp hr
    exact ⟨d', h1, h2, h3, h4⟩
  · intro hr hrej
    have hstep := read_handle_parsed d chunk out hs hp hr
    rw [if_neg (by rw [hrej]; decide)] at hstep
    have key : ∀ d1 : Driver,
        d_smtp_connection_read_handle d (some chunk) = some (d_smtp_connection_close d1) →
        d1.written = d.written → d1.outstanding = d.outstanding →
        d1.connection.state.state = SMTP_STATE.ERROR →
        ∃ d', d_smtp_connection_read_handle d (some chunk) = some d' ∧
          d'.written = d.written ∧ d'.connection.state.state = SMTP_STATE.ERROR ∧
          d'.outstanding = d.outstanding ++ [IoOperation.close] := by
      intro d1 g0 g1 g2 g3
      obtain ⟨e1, e2, -, -, e5⟩ := close_effect d1
      exact ⟨_, g0, by rw [e1, g1], by rw [e5, g3], by rw [e2, g2]⟩
    exact key _ hstep rfl rfl (rejected_command_error _ _ hrej)

/-- Witness of `rejected_chunk_closes`: after the greeting is written the FSM
is in `GREETING_SENT`; the chunk `FOOO` with its CRLF is rejected by the
parser, and afterwards the FSM is still in `GREETING_SENT`, only the greeting
was written and the close is outstanding. -/
theorem rejected_chunk_closes_witness :
    (driver_steps (d_smtp_connection_new_with_timeouts 60 10 10)
        [Completion.write_done 40, Completion.read_done (bytes "FOOO\r\n")]).map
        (fun d => (d.connection.state.state, d.outstanding, d.written)) =
      some (SMTP_STATE.GREETING_SENT, [IoOperation.close],
        [bytes "220 localhost SMTP example mail server\r\n"]) ∧
    ∃ d', d_smtp_connection_read_handle
        { connection :=
            { my_host_name := bytes "localhost", timeout := d_timeout_new
              state := { state := SMTP_STATE.HELO_ACCEPTED }, writing_bytes := none }
          loop := main_loop_new, outstanding := [], written := [], disconnected := 0 }
        (some (bytes "RCPT TO:<b@y>\r\n")) = some d' ∧
      d'.written = [] ∧ d'.connection.state.state = SMTP_STATE.ERROR ∧
      d'.outstanding = [] ++ [IoOperation.close] :=
  ⟨by decide,
   (rejected_chunk_closes
      { connection :=
          { my_host_name := bytes "localhost", timeout := d_timeout_new
            state := { state := SMTP_STATE.HELO_ACCEPTED }, writing_bytes := none }
        loop := main_loop_new, outstanding := [], written := [], disconnected := 0 }
      (bytes "RCPT TO:<b@y>\r\n")
      { result := true
        smtp_command :=
          { command := SMTP_COMMAND.RCPT, response_code := 250
            command_bytes := some (bytes "RCPT TO:<b@y>\r\n") }
        token := some (bytes "b@y") }
      (by decide) (by decide)).2 rfl (by decide)⟩

/-- C18: a new connection has the greeting handed to the socket, its write
outstanding and the FSM in `GREETING_SENDING`; when every write completes in
full (40 bytes for the greeting, 15 for each reply) and the chunks read are
HELO, MAIL, RCPT, DATA, the body with its end mark and QUIT, the buffers
handed to the socket are the greeting and the replies 250, 250, 250, 354,
250, 221 with `localhost` and CRLF, in that order; at the end the close is
the outstanding operation, the CLOSE timeout is the current one, and the
FSM is in `CLOSE`. -/
theorem happy_path :
    ((d_smtp_connection_new_with_timeouts 60 10 10).connection.state.state,
      (d_smtp_connection_new_with_timeouts 60 10 10).outstanding,
      (d_smtp_connection_new_with_timeouts 60 10 10).written) =
      (SMTP_STATE.GREETING_SENDING, [IoOperation.write],
        [bytes "220 localhost SMTP example mail server\r\n"]) ∧
    (driver_steps (d_smtp_connection_new_with_timeouts 60 10 10)
        (dialogue_to_data ++
          [Completion.read_done (bytes "hi\r\n.\r\n"), Completion.write_done 15,
           Completion.read_done (bytes "QUIT\r\n"), Completion.write_done 15])).map
        (fun d => (d.written, d.written.map List.length, d.connection.state.state,
          d.outstanding, d.connection.timeout.current_timeout_operation,
          d.loop.sources.map Prod.snd)) =
      some ([bytes "220 localhost SMTP example mail server\r\n",
             bytes "250 localhost\r\n", bytes "250 localhost\r\n",
             bytes "250 localhost\r\n", bytes "354 localhost\r\n",
             bytes "250 localhost\r\n", bytes "221 localhost\r\n"],
            [40, 15, 15, 15, 15, 15, 15],
            SMTP_STATE.CLOSE, [IoOperation.close], TIMEOUT_OPERATION.CLOSE, [10]) :=
  ⟨rfl, rfl⟩

/-- C15: after the dialogue up to the reply to DATA a read is outstanding in
`DATA_ACCEPTED` and the READ timeout of 60 seconds is armed; after a chunk of
the body without the end mark (`hi`, CRLF) a read is outstanding again in
`DATA_ACCEPTED`, but no timeout source exists and the stored source id is
0. -/
theorem body_read_without_timeout :
    (driver_steps (d_smtp_connection_new_with_timeouts 60 10 10) dialogue_to_data).map
        (fun d => (d.connection.state.state, d.outstanding,
          d.connection.timeout.current_timeout_source_id, d.loop.sources)) =
      some (SMTP_STATE.DATA_ACCEPTED, [IoOperation.read], 10, [(10, 60)]) ∧
    (driver_steps (d_smtp_connection_new_with_timeouts 60 10 10)
        (dialogue_to_data ++ [Completion.read_done (bytes "hi\r\n")])).map
        (fun d => (d.connection.state.state, d.outstanding,
          d.connection.timeout.current_timeout_source_id, d.loop.sources, d.written.length)) =
      some (SMTP_STATE.DATA_ACCEPTED, [IoOperation.read], 0, [], 5) :=
  ⟨rfl, rfl⟩

/-! ## Theorems : the supervisor -/

/-- One event keeps the cap and keeps the list within the cap. -/
theorem server_step_cap (smtp_server : DSmtpServer) (e : ServerEvent)
    (h : smtp_server.connections.length ≤ smtp_server.max_connections_count) :
    (server_step smtp_server e).max_connections_count =
        smtp_server.max_connections_count ∧
    (server_step smtp_server e).connections.length ≤ smtp_server.max_connections_count := by
  cases e with
  | accept client_socket connection =>
      simp only [server_step, d_smtp_server_accept_handler]
      split
      · exact ⟨rfl, h⟩
      · split
        · exact ⟨rfl, h⟩
        · rename_i hcap
          refine ⟨rfl, ?_⟩
          simp only [List.length_append, List.length_singleton]
          omega
  | disconnected connection =>
      simp only [server_step, d_smtp_server_connection_disconnected]
      split
      · refine ⟨rfl, ?_⟩
        have := List.length_erase_le connection smtp_server.connections
        simp only
        omega
      · exact ⟨rfl, h⟩

/-- Every sequence of events keeps the cap and keeps the list within the
cap. -/
theorem server_steps_cap (evs : List ServerEvent) :
    ∀ smtp_server : DSmtpServer,
      smtp_server.connections.length ≤ smtp_server.max_connections_count →
      (server_steps smtp_server evs).max_connections_count =
          smtp_server.max_connections_count ∧
      (server_steps smtp_server evs).connections.length ≤
          smtp_server.max_connections_count := by
  induction evs with
  | nil => intro s h; exact ⟨rfl, h⟩
  | cons e es ih =>
      intro s h
      obtain ⟨h1, h2⟩ := server_step_cap s e h
      obtain ⟨g1, g2⟩ := ih (server_step s e) (by rw [h1]; exact h2)
      exact ⟨by rw [server_steps, g1, h1], by rw [server_steps]; rw [h1] at g2; exact g2⟩

/-- C20: from the empty list, after any sequence of accept and disconnected
events the supervisor holds at most `max_connections_count` connections,
which is 100 for a new supervisor; an accepted socket arriving while the
length is at least the cap leaves the list unchanged and is shut down and
closed; below the cap exactly one connection is appended at the end. -/
theorem connection_cap :
    (∀ evs : List ServerEvent,
      (server_steps d_smtp_server_init evs).max_connections_count = 100 ∧
      (server_steps d_smtp_server_init evs).connections.length ≤ 100) ∧
    (∀ (cap : Nat) (evs : List ServerEvent),
      (server_steps { connections := [], max_connections_count := cap } evs).connections.length
        ≤ cap) ∧
    (∀ (smtp_server : DSmtpServer) (connection : Nat),
      smtp_server.connections.length ≥ smtp_server.max_connections_count →
      d_smtp_server_accept_handler smtp_server true connection = (smtp_server, true)) ∧
    (∀ (smtp_server : DSmtpServer) (connection : Nat),
      smtp_server.connections.length < smtp_server.max_connections_count →
      d_smtp_server_accept_handler smtp_server true connection =
        ({ smtp_server with connections := smtp_server.connections ++ [connection] },
          false)) := by
  refine ⟨?_, ?_, ?_, ?_⟩
  · intro evs
    exact server_steps_cap evs d_smtp_server_init (by decide)
  · intro cap evs
    exact (server_steps_cap evs { connections := [], max_connections_count := cap }
      (Nat.zero_le _)).2
  · intro s c h
    simp only [d_smtp_server_accept_handler, Bool.true_eq_false, if_false, if_pos h]
  · intro s c h
    have hn : ¬ (s.connections.length ≥ s.max_connections_count) := by omega
    simp only [d_smtp_server_accept_handler, Bool.true_eq_false, if_false, if_neg hn]

/-- Witness of `connection_cap`: with cap 1 and one live connection a second
accept leaves the list as it is and the new socket is closed; with cap 2 the
new connection is appended. -/
theorem connection_cap_witness :
    d_smtp_server_accept_handler { connections := [7], max_connections_count := 1 } true 8 =
      ({ connections := [7], max_connections_count := 1 }, true) ∧
    d_smtp_server_accept_handler { connections := [7], max_connections_count := 2 } true 8 =
      ({ connections := [7, 8], max_connections_count := 2 }, false) :=
  ⟨connection_cap.2.2.1 { connections := [7], max_connections_count := 1 } 8 (by decide),
   connection_cap.2.2.2 { connections := [7], max_connections_count := 2 } 8 (by decide)⟩

/-- C21: on a list without duplicates the disconnected handler leaves the
other connections in their order (the new list is the old one without `c`),
`c` is not in the list afterwards, the length has decreased by exactly one
when `c` was in the list, and the supervisor is unchanged when it was not;
the cap is kept. -/
theorem disconnected_removes_once (smtp_server : DSmtpServer) (connection : Nat)
    (hnodup : smtp_server.connections.Nodup) :
    (d_smtp_server_connection_disconnected smtp_server connection).connections =
        smtp_server.connections.filter (fun x => x ≠ connection) ∧
    connection ∉ (d_smtp_server_connection_disconnected smtp_server connection).connections ∧
    (∀ x, x ≠ connection →
      (x ∈ (d_smtp_server_connection_disconnected smtp_server connection).connections ↔
        x ∈ smtp_server.connections)) ∧
    (connection ∈ smtp_server.connections →
      (d_smtp_server_connection_disconnected smtp_server connection).connections.length + 1 =
        smtp_server.connections.length) ∧
    (connection ∉ smtp_server.connections →
      d_smtp_server_connection_disconnected smtp_server connection = smtp_server) ∧
    (d_smtp_server_connection_disconnected smtp_server connection).max_connections_count =
        smtp_server.max_connections_count := by
  have herase : smtp_server.connections.erase connection =
      smtp_server.connections.filter (fun x => x ≠ connection) := by
    rw [List.Nodup.erase_eq_filter hnodup connection]
    apply List.filter_congr
    intro x _
    by_cases hx : x = connection <;> simp [hx]
  have hlist : (d_smtp_server_connection_disconnected smtp_server connection).connections =
      smtp_server.connections.filter (fun x => x ≠ connection) := by
    unfold d_smtp_server_connection_disconnected
    split
    · exact herase
    · rename_i hn
      rw [List.filter_eq_self.mpr]
      intro x hx
      have : x ≠ connection := fun h => hn (h ▸ hx)
      simpa using this
  refine ⟨hlist, ?_, ?_, ?_, ?_, ?_⟩
  · rw [hlist]
    simp
  · intro x hx
    rw [hlist]
    simp [hx]
  · intro hm
    unfold d_smtp_server_connection_disconnected
    rw [if_pos hm]
    simp only
    rw [List.length_erase_of_mem hm]
    have : 0 < smtp_server.connections.length := List.length_pos_of_mem hm
    omega
  · intro hn
    unfold d_smtp_server_connection_disconnected
    rw [if_neg hn]
  · unfold d_smtp_server_connection_disconnected
    split <;> rfl

/-- Witness of `disconnected_removes_once`: the connection 8 leaves the list
7, 8, 9. -/
theorem disconnected_removes_once_witness :
    ([7, 8, 9] : List Nat).Nodup ∧
    (d_smtp_server_connection_disconnected
        { connections := [7, 8, 9], max_connections_count := 100 } 8).connections =
      ([7, 8, 9] : List Nat).filter (fun x => x ≠ 8) :=
  ⟨by decide,
   (disconnected_removes_once { connections := [7, 8, 9], max_connections_count := 100 } 8
      (by decide)).1⟩

/-! ## Theorems : the three durations -/

/-- C24: a new controller has the value 10 for READ, WRITE and CLOSE; after
`d_timeout_set_value` with kind `k` and value `v` the value of `k` is `v` and
the values of the two other kinds are the ones from before. -/
theorem timeout_values_independent :
    (∀ k, d_timeout_get_value d_timeout_new k = 10) ∧
    (∀ (timeout : DTimeout) (k : TIMEOUT_OPERATION) (v : Nat),
      d_timeout_get_value (d_timeout_set_value timeout k v) k = v) ∧
    (∀ (timeout : DTimeout) (k j : TIMEOUT_OPERATION) (v : Nat),
      d_timeout_get_value (d_timeout_set_value timeout k v) j =
        if j = k then v else d_timeout_get_value timeout j) := by
  refine ⟨?_, ?_, ?_⟩
  · intro k
    cases k <;> rfl
  · intro timeout k v
    cases k <;> rfl
  · intro timeout k j v
    cases k <;> cases j <;> simp [d_timeout_get_value, d_timeout_set_value]

/-- C25: after `d_smtp_connection_set_write_timeout` with `w` and
`d_smtp_connection_set_close_timeout` with `c`, in either order, the function
`d_smtp_connection_get_write_timeout` returns `c`, the close timeout, while
the getter of the property "write-timeout" returns `w`; with `w = 20` and
`c = 30` on a new connection the two differ. -/
theorem get_write_timeout_returns_close :
    (∀ (connection : DSmtpConnection) (w c : Nat),
      d_smtp_connection_get_write_timeout
          (d_smtp_connection_set_close_timeout
            (d_smtp_connection_set_write_timeout connection w) c) = c ∧
      d_smtp_connection_get_write_timeout
          (d_smtp_connection_set_write_timeout
            (d_smtp_connection_set_close_timeout connection c) w) = c ∧
      d_smtp_connection_get_property
          (d_smtp_connection_set_close_timeout
            (d_smtp_connection_set_write_timeout connection w) c)
          ConnectionProperty.PROP_WRITE_TIMEOUT = w ∧
      d_smtp_connection_get_property
          (d_smtp_connection_set_write_timeout
            (d_smtp_connection_set_close_timeout connection c) w)
          ConnectionProperty.PROP_WRITE_TIMEOUT = w) ∧
    d_smtp_connection_get_write_timeout
        (d_smtp_connection_set_close_timeout
          (d_smtp_connection_set_write_timeout d_smtp_connection_init 20) 30) = 30 ∧
    d_smtp_connection_get_property
        (d_smtp_connection_set_close_timeout
          (d_smtp_connection_set_write_timeout d_smtp_connection_init 20) 30)
        ConnectionProperty.PROP_WRITE_TIMEOUT = 20 := by
  refine ⟨?_, rfl, rfl⟩
  intro connection w c
  exact ⟨rfl, rfl, rfl, rfl⟩

/-- C26: the setters store a value outside 1 to 240 and the controller arms a
timer with it: on a new connection, after `d_smtp_connection_set_read_timeout`
with 0 the read duration is 0 and `d_timeout_start` for READ arms a source of
0 seconds; after `d_smtp_connection_set_write_timeout` with 1000 the source
that `d_timeout_start` for WRITE arms has 1000 seconds; the construct-time
check refuses both values. -/
theorem setters_store_out_of_range :
    d_smtp_connection_get_read_timeout
        (d_smtp_connection_set_read_timeout d_smtp_connection_init 0) = 0 ∧
    (d_timeout_start
        (d_smtp_connection_set_read_timeout d_smtp_connection_init 0).timeout
        main_loop_new TIMEOUT_OPERATION.READ).2.sources = [(1, 0)] ∧
    d_smtp_connection_get_property
        (d_smtp_connection_set_write_timeout d_smtp_connection_init 1000)
        ConnectionProperty.PROP_WRITE_TIMEOUT = 1000 ∧
    (d_timeout_start
        (d_smtp_connection_set_write_timeout d_smtp_connection_init 1000).timeout
        main_loop_new TIMEOUT_OPERATION.WRITE).2.sources = [(1, 1000)] ∧
    (d_timeout_start
        (d_timeout_set_value d_timeout_new TIMEOUT_OPERATION.CLOSE 241)
        main_loop_new TIMEOUT_OPERATION.CLOSE).2.sources = [(1, 241)] ∧
    construct_timeout d_timeout_new TIMEOUT_OPERATION.READ 0 = d_timeout_new ∧
    construct_timeout d_timeout_new TIMEOUT_OPERATION.WRITE 1000 = d_timeout_new := by
  refine ⟨rfl, rfl, rfl, rfl, rfl, rfl, rfl⟩

/-! ## Theorems : the state after an accepted command -/

/-- C27, counterexample: in `HELO_ACCEPTED` the command QUIT is accepted and
the new state is `QUIT_ACCEPTED`, not `QUIT_RECEIVED`. -/
theorem quit_goes_to_quit_accepted :
    d_smtp_state_next_state_by_command { state := SMTP_STATE.HELO_ACCEPTED }
        SMTP_COMMAND.QUIT = (true, { state := SMTP_STATE.QUIT_ACCEPTED }) ∧
    (d_smtp_state_next_state_by_command { state := SMTP_STATE.HELO_ACCEPTED }
        SMTP_COMMAND.QUIT).2.state ≠ SMTP_STATE.QUIT_RECEIVED := by
  decide

/-- C27, amended: whenever `d_smtp_state_next_state_by_command` accepts a
command, the new state is `HELO_RECEIVED` for HELO, `EHLO_RECEIVED` for EHLO,
`MAIL_RECEIVED` for MAIL, `RCPT_RECEIVED` for RCPT, `DATA_RECEIVED` for DATA
and `QUIT_ACCEPTED` for QUIT (never `QUIT_RECEIVED`); the following
write-complete is accepted and gives the matching `*_ACCEPTED` state for the
five `*_RECEIVED` states and `CLOSE` for QUIT. -/
theorem accepted_command_next_state (smtp_state : DSmtpState) (command : SMTP_COMMAND)
    (haccept : (d_smtp_state_next_state_by_command smtp_state command).1 = true) :
    (d_smtp_state_next_state_by_command smtp_state command).2.state =
      command.entered_state ∧
    SMTP_COMMAND.QUIT.entered_state = SMTP_STATE.QUIT_ACCEPTED ∧
    (d_smtp_state_next_state_by_command smtp_state command).2.state ≠
      SMTP_STATE.QUIT_RECEIVED ∧
    (d_smtp_state_next_by_write_complete
      (d_smtp_state_next_state_by_command smtp_state command).2).1 = true ∧
    (d_smtp_state_next_by_write_complete
      (d_smtp_state_next_state_by_command smtp_state command).2).2.state =
      (if command = SMTP_COMMAND.QUIT then SMTP_STATE.CLOSE
       else (d_smtp_state_next_state_by_command smtp_state command).2.state.accepted_of) := by
  rcases smtp_state with ⟨s⟩
  cases s <;> cases command <;>
    first
      | exact absurd haccept (by decide)
      | decide

/-- Witness of `accepted_command_next_state`: MAIL in `HELO_ACCEPTED`. -/
theorem accepted_command_next_state_witness :
    (d_smtp_state_next_state_by_command { state := SMTP_STATE.HELO_ACCEPTED }
        SMTP_COMMAND.MAIL).1 = true ∧
    (d_smtp_state_next_state_by_command { state := SMTP_STATE.HELO_ACCEPTED }
        SMTP_COMMAND.MAIL).2.state = SMTP_STATE.MAIL_RECEIVED :=
  ⟨by decide,
   (accepted_command_next_state { state := SMTP_STATE.HELO_ACCEPTED } SMTP_COMMAND.MAIL
      (by decide)).1⟩

/-! ## Theorems : the literal matcher -/

/-- The loop of `eat_tok` from a cursor `begin` that is not after `end`, where
`end` is the position of a byte of the buffer: the result is the position
after the word when the word stands at the cursor and ends at or before
`end`, and the null pointer otherwise; no byte outside the buffer is read. -/
theorem eat_tok_loop_exact (buffer : List Nat) (e : Nat) (he : e < buffer.length) :
    ∀ (word : List Nat) (begin : Nat), begin ≤ e →
      eat_tok_loop buffer (some e) word begin =
        some (if word <+: buffer.drop begin ∧ begin + word.length ≤ e
              then some (begin + word.length) else none) := by
  intro word
  induction word with
  | nil =>
      intro begin hbe
      simp [eat_tok_loop, hbe]
  | cons w ws ih =>
      intro begin hbe
      have hlt : begin < buffer.length := by omega
      have hdrop : buffer.drop begin = buffer[begin] :: buffer.drop (begin + 1) :=
        List.drop_eq_getElem_cons hlt
      have hget : buffer.get? begin = some buffer[begin] := by
        rw [List.get?_eq_getElem?, List.getElem?_eq_getElem hlt]
      unfold eat_tok_loop
      rw [hget]
      simp only []
      by_cases hb : buffer[begin] = w
      · rw [if_neg (not_not.mpr hb)]
        by_cases hend : begin = e
        · have h1 : (some begin = some e) := by rw [hend]
          rw [if_pos h1, if_neg]
          rintro ⟨_, hlen⟩
          simp only [List.length_cons] at hlen
          omega
        · have h1 : ¬ (some begin = some e) := by
            intro h
            exact hend (Option.some.inj h)
          rw [if_neg h1, ih (begin + 1) (by omega), hdrop, hb]
          have hiff : (w :: ws <+: w :: buffer.drop (begin + 1) ∧
                begin + (w :: ws).length ≤ e) ↔
              (ws <+: buffer.drop (begin + 1) ∧ begin + 1 + ws.length ≤ e) := by
            rw [List.cons_prefix_cons, List.length_cons]
            constructor
            · rintro ⟨⟨_, h2⟩, h3⟩
              exact ⟨h2, by omega⟩
            · rintro ⟨h2, h3⟩
              exact ⟨⟨rfl, h2⟩, by omega⟩
          by_cases hc : ws <+: buffer.drop (begin + 1) ∧ begin + 1 + ws.length ≤ e
          · rw [if_pos hc, if_pos (hiff.mpr hc), List.length_cons]
            congr 2
            omega
          · rw [if_neg hc, if_neg (fun h => hc (hiff.mp h))]
      · rw [if_pos hb, if_neg]
        rintro ⟨hp, _⟩
        rw [hdrop, List.cons_prefix_cons] at hp
        exact hb hp.1.symm

/-- The loop of `eat_tok` from a cursor `begin` that is not after `end`,
wherever `end` points: the position after the word when the word stands at
the cursor and ends at or before `end`; otherwise the null pointer, when `end`
is the position of a byte of the buffer or the bytes from the cursor to the
end of the buffer are no beginning of the word; otherwise the byte after the
buffer is read. -/
theorem eat_tok_loop_general (buffer : List Nat) (e : Nat) :
    ∀ (word : List Nat) (begin : Nat), begin ≤ e →
      eat_tok_loop buffer (some e) word begin =
        if word <+: buffer.drop begin ∧ begin + word.length ≤ e
        then some (some (begin + word.length))
        else if e < buffer.length ∨ ¬ (buffer.drop begin <+: word) then some none
        else none := by
  intro word
  induction word with
  | nil =>
      intro begin hbe
      simp [eat_tok_loop, hbe]
  | cons w ws ih =>
      intro begin hbe
      by_cases hlt : begin < buffer.length
      · have hdrop : buffer.drop begin = buffer[begin] :: buffer.drop (begin + 1) :=
          List.drop_eq_getElem_cons hlt
        have hget : buffer.get? begin = some buffer[begin] := by
          rw [List.get?_eq_getElem?, List.getElem?_eq_getElem hlt]
        unfold eat_tok_loop
        rw [hget]
        simp only []
        by_cases hb : buffer[begin] = w
        · rw [if_neg (not_not.mpr hb)]
          by_cases hend : begin = e
          · have h1 : (some begin = some e) := by rw [hend]
            have h2 : ¬ (w :: ws <+: buffer.drop begin ∧
                begin + (w :: ws).length ≤ e) := by
              rintro ⟨_, hlen⟩
              simp only [List.length_cons] at hlen
              omega
            rw [if_pos h1, if_neg h2, if_pos (Or.inl (by omega))]
          · have h1 : ¬ (some begin = some e) := by
              intro h
              exact hend (Option.some.inj h)
            have harith : begin + 1 + ws.length = begin + (ws.length + 1) := by omega
            rw [if_neg h1, ih (begin + 1) (by omega), hdrop, hb]
            simp only [List.cons_prefix_cons, List.length_cons, true_and, harith]
        · have h2 : ¬ (w :: ws <+: buffer.drop begin ∧
              begin + (w :: ws).length ≤ e) := by
            rintro ⟨hp, _⟩
            rw [hdrop, List.cons_prefix_cons] at hp
            exact hb hp.1.symm
          have h3 : ¬ (buffer.drop begin <+: w :: ws) := by
            intro hp
            rw [hdrop, List.cons_prefix_cons] at hp
            exact hb hp.1
          rw [if_pos hb, if_neg h2, if_pos (Or.inr h3)]
      · have hnil : buffer.drop begin = [] := List.drop_eq_nil_of_le (by omega)
        have hget : buffer.get? begin = none := by
          rw [List.get?_eq_getElem?]
          exact List.getElem?_eq_none (by omega)
        unfold eat_tok_loop
        rw [hget, hnil]
        simp only []
        have h2 : ¬ (w :: ws <+: ([] : List Nat) ∧ begin + (w :: ws).length ≤ e) := by
          rintro ⟨hp, _⟩
          simp at hp
        have h3 : ¬ (e < buffer.length ∨ ¬ (([] : List Nat) <+: w :: ws)) := by
          rintro (h | h)
          · omega
          · exact h (List.nil_prefix)
        rw [if_neg h2, if_neg h3]

/-- The loop of `eat_tok` with the null pointer as `end`, so that no cursor
equals it: the position after the word when the word stands at the cursor;
the null pointer when the bytes from the cursor to the end of the buffer are
no beginning of the word; otherwise the byte after the buffer is read. -/
theorem eat_tok_loop_null_end (buffer : List Nat) :
    ∀ (word : List Nat) (begin : Nat),
      eat_tok_loop buffer none word begin =
        if word <+: buffer.drop begin then some (some (begin + word.length))
        else if ¬ (buffer.drop begin <+: word) then some none
        else none := by
  intro word
  induction word with
  | nil =>
      intro begin
      simp [eat_tok_loop]
  | cons w ws ih =>
      intro begin
      by_cases hlt : begin < buffer.length
      · have hdrop : buffer.drop begin = buffer[begin] :: buffer.drop (begin + 1) :=
          List.drop_eq_getElem_cons hlt
        have hget : buffer.get? begin = some buffer[begin] := by
          rw [List.get?_eq_getElem?, List.getElem?_eq_getElem hlt]
        unfold eat_tok_loop
        rw [hget]
        simp only []
        by_cases hb : buffer[begin] = w
        · have h1 : ¬ (some begin = (none : Option Nat)) := by simp
          have harith : begin + 1 + ws.length = begin + (ws.length + 1) := by omega
          rw [if_neg (not_not.mpr hb), if_neg h1, ih (begin + 1), hdrop, hb]
          simp only [List.cons_prefix_cons, List.length_cons, true_and, harith]
        · have h2 : ¬ (w :: ws <+: buffer.drop begin) := by
            intro hp
            rw [hdrop, List.cons_prefix_cons] at hp
            exact hb hp.1.symm
          have h3 : ¬ (buffer.drop begin <+: w :: ws) := by
            intro hp
            rw [hdrop, List.cons_prefix_cons] at hp
            exact hb hp.1
          rw [if_pos hb, if_neg h2, if_pos h3]
      · have hnil : buffer.drop begin = [] := List.drop_eq_nil_of_le (by omega)
        have hget : buffer.get? begin = none := by
          rw [List.get?_eq_getElem?]
          exact List.getElem?_eq_none (by omega)
        unfold eat_tok_loop
        rw [hget, hnil]
        simp only []
        have h2 : ¬ (w :: ws <+: ([] : List Nat)) := by simp
        have h3 : ¬ ¬ (([] : List Nat) <+: w :: ws) := not_not.mpr List.nil_prefix
        rw [if_neg h2, if_neg h3]

/-- C29, counterexample: with `end` one past the last byte of the buffer
A, B and the word A, B, C, the cursor 0 is not after `end` and the word does
not stand in the buffer, yet `eat_tok` does not return the null pointer: the
two bytes match, no cursor equals `end` before the third byte is compared,
and that byte is read at position 2, outside the buffer. -/
theorem eat_tok_reads_byte_at_end :
    (0 : Nat) ≤ 2 ∧ 2 ≤ [65, 66].length ∧
    ¬ ([65, 66, 67] <+: ([65, 66] : List Nat).drop 0) ∧
    eat_tok [65, 66] (some 0) (some 2) [65, 66, 67] = none ∧
    eat_tok [65, 66] (some 0) (some 2) [65, 66, 67] ≠ some none := by
  decide

/-- C29, amended: for a cursor `begin` that is not after `end`, `eat_tok`
returns `begin + |word|` when the bytes at `begin` are `word` and
`begin + |word|` is at most `end`, wherever `end` points; a result that is
not null is `begin + |word|` and is at most `end`.  When `end` is the
position of a byte of the buffer, it returns the null pointer in every other
case and reads no byte outside the buffer.  When `end` is not the position
of a byte of the buffer, it returns the null pointer if the bytes from
`begin` to the end of the buffer are no beginning of `word`, and reads the
byte after the buffer if they are one and `word` is longer.  With the null
pointer as `end` nothing stops the loop but a byte that differs or the end of
the word.  A null cursor gives the null pointer. -/
theorem eat_tok_exact (line word : List Nat) (begin e : Nat) (hbe : begin ≤ e) :
    (word <+: line.drop begin ∧ begin + word.length ≤ e →
      eat_tok line (some begin) (some e) word = some (some (begin + word.length))) ∧
    (∀ r, eat_tok line (some begin) (some e) word = some (some r) →
      r = begin + word.length ∧ r ≤ e ∧ word <+: line.drop begin) ∧
    (e < line.length →
      eat_tok line (some begin) (some e) word =
        some (if word <+: line.drop begin ∧ begin + word.length ≤ e
              then some (begin + word.length) else none)) ∧
    (line.length ≤ e → ¬ (word <+: line.drop begin ∧ begin + word.length ≤ e) →
      eat_tok line (some begin) (some e) word =
        if line.drop begin <+: word then none else some none) ∧
    eat_tok line (some begin) none word =
      (if word <+: line.drop begin then some (some (begin + word.length))
       else if line.drop begin <+: word then none else some none) ∧
    (∀ end_, eat_tok line none end_ word = some none) := by
  have hmain : eat_tok line (some begin) (some e) word =
      if word <+: line.drop begin ∧ begin + word.length ≤ e
      then some (some (begin + word.length))
      else if e < line.length ∨ ¬ (line.drop begin <+: word) then some none
      else none :=
    eat_tok_loop_general line e word begin hbe
  have hnull : eat_tok line (some begin) none word =
      if word <+: line.drop begin then some (some (begin + word.length))
      else if ¬ (line.drop begin <+: word) then some none
      else none :=
    eat_tok_loop_null_end line word begin
  refine ⟨?_, ?_, ?_, ?_, ?_, ?_⟩
  · intro hc
    rw [hmain, if_pos hc]
  · intro r hr
    rw [hmain] at hr
    by_cases hc : word <+: line.drop begin ∧ begin + word.length ≤ e
    · rw [if_pos hc] at hr
      have hr2 : begin + word.length = r := Option.some.inj (Option.some.inj hr)
      exact ⟨hr2.symm, by omega, hc.1⟩
    · rw [if_neg hc] at hr
      split at hr
      · exact absurd (Option.some.inj hr) (by simp)
      · exact absurd hr (by simp)
  · intro he
    rw [hmain]
    by_cases hc : word <+: line.drop begin ∧ begin + word.length ≤ e
    · rw [if_pos hc, if_pos hc]
    · rw [if_neg hc, if_neg hc, if_pos (Or.inl he)]
  · intro he hc
    rw [hmain, if_neg hc]
    by_cases hp : line.drop begin <+: word
    · have h3 : ¬ (e < line.length ∨ ¬ (line.drop begin <+: word)) := by
        rintro (h | h)
        · omega
        · exact h hp
      rw [if_neg h3, if_pos hp]
    · rw [if_pos (Or.inr hp), if_neg hp]
  · rw [hnull]
    by_cases hc : word <+: line.drop begin
    · rw [if_pos hc, if_pos hc]
    · rw [if_neg hc, if_neg hc]
      by_cases hp : line.drop begin <+: word
      · rw [if_neg (not_not.mpr hp), if_pos hp]
      · rw [if_pos hp, if_neg hp]
  · intro end_
    rfl

/-- Witness of `eat_tok_exact`: the word HELO at the start of the line
"HELO a" with `end` at the carriage return. -/
theorem eat_tok_exact_witness :
    (0 : Nat) ≤ 6 ∧ 6 < [72, 69, 76, 79, 32, 97, 13, 10].length ∧
    eat_tok [72, 69, 76, 79, 32, 97, 13, 10] (some 0) (some 6) [72, 69, 76, 79] =
      some (some 4) :=
  ⟨by decide, by decide,
   ((eat_tok_exact [72, 69, 76, 79, 32, 97, 13, 10] [72, 69, 76, 79] 0 6
      (by decide)).2.2.1 (by decide)).trans (by decide)⟩

/-! ## Theorems : the timer of the timeout controller -/

/-- A new controller and a main loop without sources fit together. -/
theorem timer_invariant_new : timer_invariant d_timeout_new main_loop_new := by
  refine ⟨Or.inl ⟨rfl, rfl⟩, by decide, ?_⟩
  intro src hsrc
  simp [main_loop_new] at hsrc

/-- What `d_timeout_stop` does in a state that fits together: no source is
left, the stored id is 0 and nothing else has changed. -/
theorem stop_effect (timeout : DTimeout) (loop : MainLoop) (k : TIMEOUT_OPERATION)
    (hinv : timer_invariant timeout loop) :
    d_timeout_stop timeout loop k =
      ({ timeout with current_timeout_source_id := 0 },
       { sources := [], next_source_id := loop.next_source_id }) := by
  obtain ⟨hsrc, _, _⟩ := hinv
  rcases timeout with ⟨c, cid, op, rv, wv, cv, id⟩
  rcases loop with ⟨sources, next⟩
  simp only at hsrc
  rcases hsrc with ⟨h1, h2⟩ | ⟨v, h1, h2⟩
  · subst h1
    subst h2
    simp [d_timeout_stop]
  · subst h1
    simp [d_timeout_stop, g_source_remove, h2]

/-- What `d_timeout_start` does in a state that fits together. -/
theorem start_effect (timeout : DTimeout) (loop : MainLoop) (k : TIMEOUT_OPERATION)
    (hinv : timer_invariant timeout loop) :
    d_timeout_start timeout loop k =
      ({ timeout with
          cancelable := false
          current_timeout_operation := k
          current_timeout_source_id := loop.next_source_id },
       { sources := [(loop.next_source_id, d_timeout_get_value timeout k)]
         next_source_id := loop.next_source_id + 1 }) := by
  unfold d_timeout_start
  rw [stop_effect timeout loop k hinv]
  rcases timeout with ⟨c, cid, op, rv, wv, cv, id⟩
  cases c <;> cases k <;> simp [g_timeout_add_seconds, d_timeout_get_value]

/-- The controller and its sources fit together after `d_timeout_stop`. -/
theorem timer_invariant_stop (timeout : DTimeout) (loop : MainLoop)
    (k : TIMEOUT_OPERATION) (hinv : timer_invariant timeout loop) :
    timer_invariant (d_timeout_stop timeout loop k).1 (d_timeout_stop timeout loop k).2 := by
  rw [stop_effect timeout loop k hinv]
  refine ⟨Or.inl ⟨rfl, rfl⟩, hinv.2.1, ?_⟩
  intro src hsrc
  simp at hsrc

/-- The controller and its sources fit together after `d_timeout_start`. -/
theorem timer_invariant_start (timeout : DTimeout) (loop : MainLoop)
    (k : TIMEOUT_OPERATION) (hinv : timer_invariant timeout loop) :
    timer_invariant (d_timeout_start timeout loop k).1 (d_timeout_start timeout loop k).2 := by
  rw [start_effect timeout loop k hinv]
  have hpos : 0 < loop.next_source_id := hinv.2.1
  refine ⟨Or.inr ⟨d_timeout_get_value timeout k, rfl, ?_⟩, ?_, ?_⟩
  · simp only
    omega
  · simp only
    omega
  · intro src hsrc
    simp only [List.mem_singleton] at hsrc
    subst hsrc
    simp

/-- The controller and its sources fit together after the expiry of a source
of the main loop. -/
theorem timer_invariant_expire (timeout : DTimeout) (loop : MainLoop) (id : Nat)
    (hid : id ∈ loop.sources.map Prod.fst) (hinv : timer_invariant timeout loop) :
    timer_invariant (internal_timeout_function timeout loop id).1
      (internal_timeout_function timeout loop id).2 := by
  obtain ⟨hsrc, hpos, _⟩ := hinv
  rcases hsrc with ⟨h1, _⟩ | ⟨v, h1, _⟩
  · rw [h1] at hid
    simp at hid
  · rw [h1] at hid
    simp only [List.map_cons, List.map_nil, List.mem_singleton] at hid
    refine ⟨Or.inl ⟨?_, rfl⟩, hpos, ?_⟩
    · simp [internal_timeout_function, g_source_remove, h1, hid]
    · intro src hsrc
      simp [internal_timeout_function, g_source_remove, h1, hid] at hsrc

/-- The controller and its sources fit together after `d_timeout_set_value`. -/
theorem timer_invariant_set_value (timeout : DTimeout) (loop : MainLoop)
    (k : TIMEOUT_OPERATION) (v : Nat) (hinv : timer_invariant timeout loop) :
    timer_invariant (d_timeout_set_value timeout k v) loop := by
  cases k <;> exact hinv

/-- One event keeps the controller and its sources fitting together. -/
theorem timeout_step_invariant (st st1 : DTimeout × MainLoop) (ev : TimeoutEvent)
    (hstep : timeout_step st ev = some st1) (hinv : timer_invariant st.1 st.2) :
    timer_invariant st1.1 st1.2 := by
  cases ev with
  | start k =>
      simp only [timeout_step, Option.some.injEq] at hstep
      rw [← hstep]
      exact timer_invariant_start _ _ k hinv
  | stop k =>
      simp only [timeout_step, Option.some.injEq] at hstep
      rw [← hstep]
      exact timer_invariant_stop _ _ k hinv
  | set_value k v =>
      simp only [timeout_step, Option.some.injEq] at hstep
      rw [← hstep]
      exact timer_invariant_set_value _ _ k v hinv
  | expire id =>
      simp only [timeout_step] at hstep
      split at hstep
      · rename_i hid
        simp only [Option.some.injEq] at hstep
        rw [← hstep]
        exact timer_invariant_expire _ _ id hid hinv
      · exact absurd hstep (by simp)

/-- Every finite sequence of events keeps the controller and its sources
fitting together. -/
theorem timeout_steps_invariant (evs : List TimeoutEvent) :
    ∀ (st st1 : DTimeout × MainLoop), timeout_steps st evs = some st1 →
      timer_invariant st.1 st.2 → timer_invariant st1.1 st1.2 := by
  induction evs with
  | nil =>
      intro st st1 hrun hinv
      simp only [timeout_steps, Option.some.injEq] at hrun
      rw [← hrun]
      exact hinv
  | cons ev evs ih =>
      intro st st1 hrun hinv
      simp only [timeout_steps] at hrun
      cases hstep : timeout_step st ev with
      | none =>
          rw [hstep] at hrun
          exact absurd hrun (by simp)
      | some st2 =>
          rw [hstep] at hrun
          exact ih st2 st1 hrun (timeout_step_invariant st st2 ev hstep hinv)

/-- C22: after any finite sequence of `d_timeout_start`, `d_timeout_stop` and
`d_timeout_set_value` calls and expiries of live sources on a new controller,
the controller has at most one live source, `current_timeout_source_id` is
not 0 exactly when a source is live, every live source has that id, and
`d_timeout_stop` with any kind leaves no live source and the id 0. -/
theorem at_most_one_timer (evs : List TimeoutEvent) (st : DTimeout × MainLoop)
    (hrun : timeout_steps (d_timeout_new, main_loop_new) evs = some st) :
    st.2.sources.length ≤ 1 ∧
    (st.1.current_timeout_source_id ≠ 0 ↔ st.2.sources ≠ []) ∧
    (∀ src ∈ st.2.sources, src.1 = st.1.current_timeout_source_id) ∧
    (∀ k, (d_timeout_stop st.1 st.2 k).2.sources = [] ∧
      (d_timeout_stop st.1 st.2 k).1.current_timeout_source_id = 0) := by
  have hinv : timer_invariant st.1 st.2 :=
    timeout_steps_invariant evs _ st hrun timer_invariant_new
  have hstop : ∀ k, (d_timeout_stop st.1 st.2 k).2.sources = [] ∧
      (d_timeout_stop st.1 st.2 k).1.current_timeout_source_id = 0 := by
    intro k
    rw [stop_effect st.1 st.2 k hinv]
    exact ⟨rfl, rfl⟩
  rcases hinv.1 with ⟨h1, h2⟩ | ⟨v, h1, h2⟩
  · refine ⟨?_, ?_, ?_, hstop⟩
    · rw [h1]
      simp
    · rw [h1, h2]
      simp
    · intro src hsrc
      rw [h1] at hsrc
      simp at hsrc
  · refine ⟨?_, ?_, ?_, hstop⟩
    · rw [h1]
      simp
    · rw [h1]
      simp [h2]
    · intro src hsrc
      rw [h1] at hsrc
      simp only [List.mem_singleton] at hsrc
      rw [hsrc]

/-- Witness of `at_most_one_timer`: READ is started and expires, WRITE is
started, CLOSE is started; one source, with the id 3, is live. -/
theorem at_most_one_timer_witness :
    ∃ st, timeout_steps (d_timeout_new, main_loop_new)
        [TimeoutEvent.start TIMEOUT_OPERATION.READ, TimeoutEvent.expire 1,
         TimeoutEvent.start TIMEOUT_OPERATION.WRITE,
         TimeoutEvent.start TIMEOUT_OPERATION.CLOSE] = some st ∧
      st.2.sources = [(3, 10)] ∧ st.2.sources.length ≤ 1 :=
  ⟨_, rfl, rfl,
   (at_most_one_timer
      [TimeoutEvent.start TIMEOUT_OPERATION.READ, TimeoutEvent.expire 1,
       TimeoutEvent.start TIMEOUT_OPERATION.WRITE,
       TimeoutEvent.start TIMEOUT_OPERATION.CLOSE] _ rfl).1⟩

/-- C23: in every state in which the controller and its sources fit together
(every state a run of the controller reaches), after `d_timeout_start` with
kind `k` the source armed before is no longer live, exactly one source is
live, it has the stored id, which is not 0, and its interval is the value of
`k`; the current operation is `k`, the cancellable object is not cancelled,
and the three values are the ones from before. -/
theorem start_arms_one_timer (timeout : DTimeout) (loop : MainLoop)
    (k : TIMEOUT_OPERATION) (hinv : timer_invariant timeout loop) :
    (d_timeout_start timeout loop k).2.sources =
      [((d_timeout_start timeout loop k).1.current_timeout_source_id,
        d_timeout_get_value timeout k)] ∧
    (d_timeout_start timeout loop k).1.current_timeout_source_id ≠ 0 ∧
    (∀ src ∈ loop.sources, src ∉ (d_timeout_start timeout loop k).2.sources ∧
      src.1 ≠ (d_timeout_start timeout loop k).1.current_timeout_source_id) ∧
    (d_timeout_start timeout loop k).1.current_timeout_operation = k ∧
    (d_timeout_start timeout loop k).1.cancelable = false ∧
    (∀ j, d_timeout_get_value (d_timeout_start timeout loop k).1 j =
      d_timeout_get_value timeout j) ∧
    timer_invariant (d_timeout_start timeout loop k).1 (d_timeout_start timeout loop k).2 := by
  have hinv1 := timer_invariant_start timeout loop k hinv
  have hpos : 0 < loop.next_source_id := hinv.2.1
  have hlt : ∀ src ∈ loop.sources, src.1 < loop.next_source_id := hinv.2.2
  rw [start_effect timeout loop k hinv] at hinv1 ⊢
  refine ⟨rfl, ?_, ?_, rfl, rfl, ?_, hinv1⟩
  · simp only
    omega
  · intro src hsrc
    have h := hlt src hsrc
    refine ⟨?_, ?_⟩
    · simp only [List.mem_singleton]
      intro heq
      rw [heq] at h
      simp at h
    · simp only
      omega
  · intro j
    cases j <;> rfl

/-- Witness of `start_arms_one_timer`: the READ timer of a new controller has
expired, so the cancellable object is cancelled; WRITE is started. -/
theorem start_arms_one_timer_witness :
    timer_invariant
      (internal_timeout_function
        (d_timeout_start d_timeout_new main_loop_new TIMEOUT_OPERATION.READ).1
        (d_timeout_start d_timeout_new main_loop_new TIMEOUT_OPERATION.READ).2 1).1
      (internal_timeout_function
        (d_timeout_start d_timeout_new main_loop_new TIMEOUT_OPERATION.READ).1
        (d_timeout_start d_timeout_new main_loop_new TIMEOUT_OPERATION.READ).2 1).2 ∧
    (internal_timeout_function
        (d_timeout_start d_timeout_new main_loop_new TIMEOUT_OPERATION.READ).1
        (d_timeout_start d_timeout_new main_loop_new TIMEOUT_OPERATION.READ).2 1).1.cancelable
      = true ∧
    (d_timeout_start
      (internal_timeout_function
        (d_timeout_start d_timeout_new main_loop_new TIMEOUT_OPERATION.READ).1
        (d_timeout_start d_timeout_new main_loop_new TIMEOUT_OPERATION.READ).2 1).1
      (internal_timeout_function
        (d_timeout_start d_timeout_new main_loop_new TIMEOUT_OPERATION.READ).1
        (d_timeout_start d_timeout_new main_loop_new TIMEOUT_OPERATION.READ).2 1).2
      TIMEOUT_OPERATION.WRITE).1.cancelable = false :=
  have hinv : timer_invariant
      (internal_timeout_function
        (d_timeout_start d_timeout_new main_loop_new TIMEOUT_OPERATION.READ).1
        (d_timeout_start d_timeout_new main_loop_new TIMEOUT_OPERATION.READ).2 1).1
      (internal_timeout_function
        (d_timeout_start d_timeout_new main_loop_new TIMEOUT_OPERATION.READ).1
        (d_timeout_start d_timeout_new main_loop_new TIMEOUT_OPERATION.READ).2 1).2 :=
    ⟨Or.inl ⟨rfl, rfl⟩, by decide, by decide⟩
  ⟨hinv, rfl, (start_arms_one_timer _ _ TIMEOUT_OPERATION.WRITE hinv).2.2.2.2.1⟩

/-! ## Theorems : the outstanding operation and the FSM state -/

/-- A write-complete event in a state in which a write may be outstanding is
accepted, and the new state is `CLOSE` or a state in which a read may be
outstanding. -/
theorem write_complete_of_write_pending (smtp_state : DSmtpState)
    (h : smtp_state.state.write_pending = true) :
    (d_smtp_state_next_by_write_complete smtp_state).1 = true ∧
    ((d_smtp_state_next_by_write_complete smtp_state).2.state = SMTP_STATE.CLOSE ∨
      (d_smtp_state_next_by_write_complete smtp_state).2.state.read_pending = true) := by
  rcases smtp_state with ⟨s⟩
  cases s <;> first | exact absurd h (by decide) | decide

/-- An accepted command leaves a state in which a write may be outstanding. -/
theorem command_accepted_write_pending (smtp_state : DSmtpState) (command : SMTP_COMMAND)
    (h : (d_smtp_state_next_state_by_command smtp_state command).1 = true) :
    (d_smtp_state_next_state_by_command smtp_state command).2.state.write_pending = true := by
  rcases smtp_state with ⟨s⟩
  cases s <;> cases command <;> first | exact absurd h (by decide) | decide

/-- No transition function leaves a `*_RECEIVED` state other than an accepted
command: a write-complete event never does, a rejected command never does. -/
theorem received_only_by_command (smtp_state : DSmtpState) :
    (d_smtp_state_next_by_write_complete smtp_state).2.state.is_received = false ∧
    (∀ command, (d_smtp_state_next_state_by_command smtp_state command).1 = false →
      (d_smtp_state_next_state_by_command smtp_state command).2.state.is_received = false) := by
  rcases smtp_state with ⟨s⟩
  refine ⟨?_, ?_⟩
  · cases s <;> decide
  · intro command h
    cases s <;> cases command <;> first | exact absurd h (by decide) | decide

/-- In a `*_RECEIVED` state no read may be outstanding; the state is not
`DATA_ACCEPTED`; the write-complete event moves it to the matching
`*_ACCEPTED` state. -/
theorem received_state_facts (smtp_state : DSmtpState)
    (h : smtp_state.state.is_received = true) :
    smtp_state.state.read_pending = false ∧
    smtp_state.state ≠ SMTP_STATE.DATA_ACCEPTED ∧
    (d_smtp_state_next_by_write_complete smtp_state).2.state =
      smtp_state.state.accepted_of := by
  rcases smtp_state with ⟨s⟩
  cases s <;> first | exact absurd h (by decide) | decide

/-- What the write handler does to the FSM: nothing is written; a close is
issued and the FSM state is the one from before or the one after the
write-complete event, or a read is issued, the write-complete event was
accepted and its new state is not `CLOSE`. -/
theorem write_handle_state (d : Driver) (ok : Bool) (bytes_written : Nat) :
    (d_smtp_connection_write_handle d ok bytes_written).written = d.written ∧
    (((d_smtp_connection_write_handle d ok bytes_written).outstanding =
          d.outstanding ++ [IoOperation.close] ∧
        ((d_smtp_connection_write_handle d ok bytes_written).connection.state =
            d.connection.state ∨
          (d_smtp_connection_write_handle d ok bytes_written).connection.state =
            (d_smtp_state_next_by_write_complete d.connection.state).2)) ∨
      ((d_smtp_connection_write_handle d ok bytes_written).outstanding =
          d.outstanding ++ [IoOperation.read] ∧
        ok = true ∧
        (d_smtp_state_next_by_write_complete d.connection.state).1 = true ∧
        (d_smtp_connection_write_handle d ok bytes_written).connection.state =
          (d_smtp_state_next_by_write_complete d.connection.state).2 ∧
        (d_smtp_state_next_by_write_complete d.connection.state).2.state ≠
          SMTP_STATE.CLOSE)) := by
  unfold d_smtp_connection_write_handle
  simp only []
  split
  · simp [d_smtp_connection_close]
  · split
    · simp [d_smtp_connection_close]
    · split
      · simp [d_smtp_connection_close]
      · split
        · simp [d_smtp_connection_close]
        · rename_i hok _ hacc hclose
          refine ⟨rfl, Or.inr ⟨rfl, ?_, ?_, rfl, ?_⟩⟩
          · simpa using hok
          · simpa using hacc
          · simpa [d_smtp_state_get_current_state] using hclose

/-- What the read handler does to the FSM.  Either a close is issued, nothing
is written and the FSM state is the one from before or the one a rejected
command left; or the read is issued again, in `DATA_ACCEPTED`, and nothing
else changes; or one reply is written, a write is issued and the FSM has
moved from `DATA_ACCEPTED` to `DATA_ENDED` or has accepted a command. -/
theorem read_handle_state (d : Driver) (bytes? : Option (List Nat)) (d' : Driver)
    (h : d_smtp_connection_read_handle d bytes? = some d') :
    (d'.written = d.written ∧
      d'.outstanding = d.outstanding ++ [IoOperation.close] ∧
      (d'.connection.state = d.connection.state ∨
        ∃ command,
          (d_smtp_state_next_state_by_command d.connection.state command).1 = false ∧
          d'.connection.state =
            (d_smtp_state_next_state_by_command d.connection.state command).2)) ∨
    (d'.written = d.written ∧
      d'.outstanding = d.outstanding ++ [IoOperation.read] ∧
      d'.connection.state = d.connection.state ∧
      d.connection.state.state = SMTP_STATE.DATA_ACCEPTED) ∨
    (∃ reply, d'.written = d.written ++ [reply] ∧
      d'.outstanding = d.outstanding ++ [IoOperation.write] ∧
      ((d.connection.state.state = SMTP_STATE.DATA_ACCEPTED ∧
          d'.connection.state.state = SMTP_STATE.DATA_ENDED) ∨
        ∃ command,
          (d_smtp_state_next_state_by_command d.connection.state command).1 = true ∧
          d'.connection.state =
            (d_smtp_state_next_state_by_command d.connection.state command).2)) := by
  unfold d_smtp_connection_read_handle at h
  simp only [] at h
  cases bytes? with
  | none =>
      simp only [Option.some.injEq] at h
      subst h
      obtain ⟨h1, h2, -, -, h5⟩ := close_effect
        { d with
          connection :=
            { d.connection with
              timeout :=
                (d_timeout_stop d.connection.timeout d.loop TIMEOUT_OPERATION.READ).1 }
          loop := (d_timeout_stop d.connection.timeout d.loop TIMEOUT_OPERATION.READ).2 }
      exact Or.inl ⟨h1, h2, Or.inl h5⟩
  | some chunk =>
      simp only [] at h
      split at h
      · rename_i hstate
        split at h
        · simp only [Option.some.injEq] at h
          subst h
          obtain ⟨h1, h2, -, -, h5⟩ := send_response_code_effect
            { d with
              connection :=
                { d.connection with
                  timeout :=
                    (d_timeout_stop d.connection.timeout d.loop TIMEOUT_OPERATION.READ).1
                  state :=
                    (d_smtp_state_set_next_state d.connection.state
                      SMTP_STATE.DATA_ENDED).2 }
              loop := (d_timeout_stop d.connection.timeout d.loop TIMEOUT_OPERATION.READ).2 }
            250
          refine Or.inr (Or.inr ⟨_, h1, h2, Or.inl ⟨hstate, ?_⟩⟩)
          rw [h5]
          rfl
        · simp only [Option.some.injEq] at h
          subst h
          exact Or.inr (Or.inl ⟨rfl, rfl, rfl, hstate⟩)
      · split at h
        · simp at h
        · rename_i ok d1 hti
          obtain ⟨out, -, hcase⟩ := test_input_effect _ chunk ok d1 hti
          rcases hcase with ⟨-, hok, hd1⟩ | ⟨-, hok, hrej, hd1⟩ | ⟨-, hok, hacc, hd1⟩
          · subst hok
            simp only [if_true, Option.some.injEq] at h
            subst h
            subst hd1
            obtain ⟨h1, h2, -, -, h5⟩ := close_effect
              { d with
                connection :=
                  { d.connection with
                    timeout :=
                      (d_timeout_stop d.connection.timeout d.loop TIMEOUT_OPERATION.READ).1 }
                loop := (d_timeout_stop d.connection.timeout d.loop TIMEOUT_OPERATION.READ).2 }
            exact Or.inl ⟨h1, h2, Or.inl h5⟩
          · subst hok
            simp only [if_true, Option.some.injEq] at h
            subst h
            subst hd1
            obtain ⟨h1, h2, -, -, h5⟩ := close_effect
              { d with
                connection :=
                  { d.connection with
                    timeout :=
                      (d_timeout_stop d.connection.timeout d.loop TIMEOUT_OPERATION.READ).1
                    state := (d_smtp_state_next_state_by_command d.connection.state
                      out.smtp_command.command).2 }
                loop := (d_timeout_stop d.connection.timeout d.loop TIMEOUT_OPERATION.READ).2 }
            exact Or.inl ⟨h1, h2, Or.inr ⟨out.smtp_command.command, hrej, h5⟩⟩
          · subst hok
            simp only [Bool.true_eq_false, if_false, Option.some.injEq] at h
            subst h
            subst hd1
            obtain ⟨h1, h2, -, -, h5⟩ := send_response_code_effect
              { d with
                connection :=
                  { d.connection with
                    timeout :=
                      (d_timeout_stop d.connection.timeout d.loop TIMEOUT_OPERATION.READ).1
                    state := (d_smtp_state_next_state_by_command d.connection.state
                      out.smtp_command.command).2 }
                loop := (d_timeout_stop d.connection.timeout d.loop TIMEOUT_OPERATION.READ).2 }
              out.smtp_command.response_code
            exact Or.inr (Or.inr ⟨_, h1, h2,
              Or.inr ⟨out.smtp_command.command, hacc, h5⟩⟩)

/-- The operation that is outstanding, under the invariant: it is alone, and
the FSM is in a state that fits it. -/
theorem io_invariant_mem (d : Driver) (hinv : driver_io_invariant d) :
    (IoOperation.read ∈ d.outstanding →
      d.outstanding = [IoOperation.read] ∧
      d.connection.state.state.read_pending = true) ∧
    (IoOperation.write ∈ d.outstanding →
      d.outstanding = [IoOperation.write] ∧
      d.connection.state.state.write_pending = true) ∧
    (IoOperation.close ∈ d.outstanding → d.outstanding = [IoOperation.close]) := by
  rcases hinv with ⟨h1, h2⟩ | ⟨h1, h2⟩ | h1 | h1
  · refine ⟨?_, fun _ => ⟨h1, h2⟩, ?_⟩ <;> intro hm <;> rw [h1] at hm <;> simp at hm
  · refine ⟨fun _ => ⟨h1, h2⟩, ?_, ?_⟩ <;> intro hm <;> rw [h1] at hm <;> simp at hm
  · refine ⟨?_, ?_, fun _ => h1⟩ <;> intro hm <;> rw [h1] at hm <;> simp at hm
  · refine ⟨?_, ?_, ?_⟩ <;> intro hm <;> rw [h1] at hm <;> simp at hm

/-- The completion of the read keeps the invariant and has the effects of
`driver_step_facts`. -/
theorem read_completion_io (d d' : Driver) (b? : Option (List Nat))
    (hinv : driver_io_invariant d) (hm : IoOperation.read ∈ d.outstanding)
    (hstep : d_smtp_connection_read_handle
      { d with outstanding := d.outstanding.erase IoOperation.read } b? = some d') :
    driver_io_invariant d' ∧ driver_step_facts d d' := by
  obtain ⟨ho, hrp⟩ := (io_invariant_mem d hinv).1 hm
  have he : d.outstanding.erase IoOperation.read = [] := by
    rw [ho]
    rfl
  have hnr : d.connection.state.state.is_received = true → False := by
    intro hr
    have := (received_state_facts d.connection.state hr).1
    rw [hrp] at this
    exact absurd this (by decide)
  have hcases := read_handle_state _ b? d' hstep
  simp only [he, List.nil_append] at hcases
  rcases hcases with ⟨hw, hout, hst⟩ | ⟨hw, hout, hst, -⟩ | ⟨reply, hw, hout, hst⟩
  · refine ⟨Or.inr (Or.inr (Or.inl hout)), fun hr => (hnr hr).elim, ?_, Or.inl hw⟩
    intro hr hne
    rcases hst with hst | ⟨command, hrej, hst⟩
    · exact absurd (congrArg DSmtpState.state hst) hne
    · have := (received_only_by_command d.connection.state).2 command hrej
      rw [hst, this] at hr
      exact absurd hr (by decide)
  · refine ⟨Or.inr (Or.inl ⟨hout, ?_⟩), fun hr => (hnr hr).elim, ?_, Or.inl hw⟩
    · rw [hst]
      exact hrp
    · intro _ hne
      exact absurd (congrArg DSmtpState.state hst) hne
  · have hwp : d'.connection.state.state.write_pending = true := by
      rcases hst with ⟨-, hst⟩ | ⟨command, hacc, hst⟩
      · rw [hst]
        rfl
      · rw [hst]
        exact command_accepted_write_pending _ command hacc
    exact ⟨Or.inl ⟨hout, hwp⟩, fun hr => (hnr hr).elim,
      fun _ _ => ⟨ho, hout, reply, hw⟩, Or.inr ⟨⟨reply, hw⟩, ho, hout⟩⟩

/-- The completion of the write keeps the invariant and has the effects of
`driver_step_facts`. -/
theorem write_completion_io (d d' : Driver) (ok : Bool) (n : Nat)
    (hinv : driver_io_invariant d) (hm : IoOperation.write ∈ d.outstanding)
    (hstep : d_smtp_connection_write_handle
      { d with outstanding := d.outstanding.erase IoOperation.write } ok n = d') :
    driver_io_invariant d' ∧ driver_step_facts d d' := by
  obtain ⟨ho, hwp⟩ := (io_invariant_mem d hinv).2.1 hm
  have he : d.outstanding.erase IoOperation.write = [] := by
    rw [ho]
    rfl
  obtain ⟨hw, hcases⟩ := write_handle_state
    { d with outstanding := d.outstanding.erase IoOperation.write } ok n
  rw [hstep] at hw hcases
  simp only [he, List.nil_append] at hcases
  simp only at hw
  have hnotrec := (received_only_by_command d.connection.state).1
  obtain ⟨-, hnext⟩ := write_complete_of_write_pending d.connection.state hwp
  rcases hcases with ⟨hout, hst⟩ | ⟨hout, -, -, hst, hnc⟩
  · refine ⟨Or.inr (Or.inr (Or.inl hout)), ?_, ?_, Or.inl hw⟩
    · intro hr
      refine ⟨hw, ?_⟩
      rcases hst with hst | hst
      · exact Or.inl (congrArg DSmtpState.state hst)
      · rw [hst]
        exact Or.inr (received_state_facts d.connection.state hr).2.2
    · intro hr hne
      rcases hst with hst | hst
      · exact absurd (congrArg DSmtpState.state hst) hne
      · rw [hst, hnotrec] at hr
        exact absurd hr (by decide)
  · refine ⟨Or.inr (Or.inl ⟨hout, ?_⟩), ?_, ?_, Or.inl hw⟩
    · rw [hst]
      rcases hnext with hnext | hnext
      · exact absurd hnext hnc
      · exact hnext
    · intro hr
      refine ⟨hw, Or.inr ?_⟩
      rw [hst]
      exact (received_state_facts d.connection.state hr).2.2
    · intro hr _
      rw [hst, hnotrec] at hr
      exact absurd hr (by decide)

/-- One delivery keeps the invariant between the outstanding operation and the
FSM state, and has the effects of `driver_step_facts`. -/
theorem driver_step_io (d d' : Driver) (c : Completion)
    (h : driver_step d c = some d') (hinv : driver_io_invariant d) :
    driver_io_invariant d' ∧ driver_step_facts d d' := by
  have hclose : ∀ (ok cancelled : Bool), IoOperation.close ∈ d.outstanding →
      d_smtp_connection_close_handle
        { d with outstanding := d.outstanding.erase IoOperation.close } ok cancelled = d' →
      driver_io_invariant d' ∧ driver_step_facts d d' := by
    intro ok cancelled hm hstep
    have ho := (io_invariant_mem d hinv).2.2 hm
    have he : d.outstanding.erase IoOperation.close = [] := by
      rw [ho]
      rfl
    have hout : d'.outstanding = [] := by
      rw [← hstep]
      simp [d_smtp_connection_close_handle, he]
    have hst : d'.connection.state = d.connection.state := by
      rw [← hstep]
      simp [d_smtp_connection_close_handle]
    have hw : d'.written = d.written := by
      rw [← hstep]
      simp [d_smtp_connection_close_handle]
    refine ⟨Or.inr (Or.inr (Or.inr hout)), ?_, ?_, Or.inl hw⟩
    · intro _
      exact ⟨hw, Or.inl (congrArg DSmtpState.state hst)⟩
    · intro _ hne
      exact absurd (congrArg DSmtpState.state hst) hne
  cases c with
  | read_done chunk =>
      simp only [driver_step] at h
      split at h
      · rename_i hm
        exact read_completion_io d d' (some chunk) hinv hm h
      · simp at h
  | read_failed cancelled =>
      simp only [driver_step] at h
      split at h
      · rename_i hm
        exact read_completion_io d d' none hinv hm h
      · simp at h
  | write_done n =>
      simp only [driver_step] at h
      split at h
      · rename_i hm
        simp only [Option.some.injEq] at h
        exact write_completion_io d d' true n hinv hm h
      · simp at h
  | write_failed n =>
      simp only [driver_step] at h
      split at h
      · rename_i hm
        simp only [Option.some.injEq] at h
        exact write_completion_io d d' false n hinv hm h
      · simp at h
  | close_done =>
      simp only [driver_step] at h
      split at h
      · rename_i hm
        simp only [Option.some.injEq] at h
        exact hclose true false hm h
      · simp at h
  | close_failed cancelled =>
      simp only [driver_step] at h
      split at h
      · rename_i hm
        simp only [Option.some.injEq] at h
        exact hclose false cancelled hm h
      · simp at h
  | timer_expired id =>
      simp only [driver_step] at h
      split at h
      · simp only [Option.some.injEq] at h
        subst h
        refine ⟨hinv, ?_, ?_, Or.inl rfl⟩
        · intro _
          exact ⟨rfl, Or.inl rfl⟩
        · intro _ hne
          exact absurd rfl hne
      · simp at h

/-- Every run keeps the invariant between the outstanding operation and the
FSM state. -/
theorem driver_steps_io (evs : List Completion) :
    ∀ (d d' : Driver), driver_steps d evs = some d' →
      driver_io_invariant d → driver_io_invariant d' := by
  induction evs with
  | nil =>
      intro d d' h hinv
      simp only [driver_steps, Option.some.injEq] at h
      rw [← h]
      exact hinv
  | cons c cs ih =>
      intro d d' h hinv
      simp only [driver_steps] at h
      cases hstep : driver_step d c with
      | none =>
          rw [hstep] at h
          exact absurd h (by simp)
      | some d1 =>
          rw [hstep] at h
          exact ih d1 d' h (driver_step_io d d1 c hstep hinv).1

/-- Every state reached from a new connection has the invariant between the
outstanding operation and the FSM state. -/
theorem reachable_io (r w c : Nat) (evs : List Completion) (d : Driver)
    (h : driver_steps (d_smtp_connection_new_with_timeouts r w c) evs = some d) :
    driver_io_invariant d := by
  obtain ⟨-, n2, -, -, n5⟩ := new_connection r w c
  refine driver_steps_io evs _ d h (Or.inl ⟨n2, ?_⟩)
  rw [n5]
  rfl

/-- The states in which a write may be outstanding, one by one; none of them
is `ERROR`. -/
theorem write_pending_states (s : SMTP_STATE) (h : s.write_pending = true) :
    (s = SMTP_STATE.GREETING_SENDING ∨ s = SMTP_STATE.HELO_RECEIVED ∨
      s = SMTP_STATE.EHLO_RECEIVED ∨ s = SMTP_STATE.MAIL_RECEIVED ∨
      s = SMTP_STATE.RCPT_RECEIVED ∨ s = SMTP_STATE.DATA_RECEIVED ∨
      s = SMTP_STATE.DATA_ENDED ∨ s = SMTP_STATE.QUIT_ACCEPTED) ∧
    s ≠ SMTP_STATE.ERROR := by
  cases s <;> first | exact absurd h (by decide) | decide

/-- C30: in every state reached from a new connection in which a write is
outstanding, the FSM state is one of `GREETING_SENDING`, `HELO_RECEIVED`,
`EHLO_RECEIVED`, `MAIL_RECEIVED`, `RCPT_RECEIVED`, `DATA_RECEIVED`,
`DATA_ENDED`, `QUIT_ACCEPTED`; `d_smtp_state_next_by_write_complete` returns
`TRUE` in it, and no completion of the write leaves the FSM in `ERROR`. -/
theorem write_complete_never_rejected (r w c : Nat) (evs : List Completion) (d : Driver)
    (hrun : driver_steps (d_smtp_connection_new_with_timeouts r w c) evs = some d)
    (hm : IoOperation.write ∈ d.outstanding) :
    (d.connection.state.state = SMTP_STATE.GREETING_SENDING ∨
      d.connection.state.state = SMTP_STATE.HELO_RECEIVED ∨
      d.connection.state.state = SMTP_STATE.EHLO_RECEIVED ∨
      d.connection.state.state = SMTP_STATE.MAIL_RECEIVED ∨
      d.connection.state.state = SMTP_STATE.RCPT_RECEIVED ∨
      d.connection.state.state = SMTP_STATE.DATA_RECEIVED ∨
      d.connection.state.state = SMTP_STATE.DATA_ENDED ∨
      d.connection.state.state = SMTP_STATE.QUIT_ACCEPTED) ∧
    (d_smtp_state_next_by_write_complete d.connection.state).1 = true ∧
    (d_smtp_state_next_by_write_complete d.connection.state).2.state ≠ SMTP_STATE.ERROR ∧
    (∀ n d', driver_step d (Completion.write_done n) = some d' →
      d'.connection.state.state ≠ SMTP_STATE.ERROR) := by
  have hinv := reachable_io r w c evs d hrun
  obtain ⟨ho, hwp⟩ := (io_invariant_mem d hinv).2.1 hm
  obtain ⟨hstates, hne⟩ := write_pending_states _ hwp
  obtain ⟨hacc, hnext⟩ := write_complete_of_write_pending d.connection.state hwp
  have hnerr : (d_smtp_state_next_by_write_complete d.connection.state).2.state ≠
      SMTP_STATE.ERROR := by
    rcases hnext with h | h
    · rw [h]
      decide
    · intro he
      rw [he] at h
      exact absurd h (by decide)
  refine ⟨hstates, hacc, hnerr, ?_⟩
  intro n d' hstep
  simp only [driver_step, if_pos hm, Option.some.injEq] at hstep
  obtain ⟨-, hcases⟩ := write_handle_state
    { d with outstanding := d.outstanding.erase IoOperation.write } true n
  rw [hstep] at hcases
  rcases hcases with ⟨-, hst | hst⟩ | ⟨-, -, -, hst, -⟩
  · rw [hst]
    exact hne
  · rw [hst]
    exact hnerr
  · rw [hst]
    exact hnerr

/-- Witness of `write_complete_never_rejected`: the greeting was written and
HELO was read; the write of the reply is outstanding in `HELO_RECEIVED`. -/
theorem write_complete_never_rejected_witness :
    ∃ d, driver_steps (d_smtp_connection_new_with_timeouts 60 10 10)
        [Completion.write_done 40,
         Completion.read_done (bytes "HELO client.example\r\n")] = some d ∧
      IoOperation.write ∈ d.outstanding ∧
      (d_smtp_state_next_by_write_complete d.connection.state).1 = true := by
  have hrun : (driver_steps (d_smtp_connection_new_with_timeouts 60 10 10)
      [Completion.write_done 40,
       Completion.read_done (bytes "HELO client.example\r\n")]).map
        (fun d => d.outstanding) = some [IoOperation.write] := by decide
  cases hd : driver_steps (d_smtp_connection_new_with_timeouts 60 10 10)
      [Completion.write_done 40,
       Completion.read_done (bytes "HELO client.example\r\n")] with
  | none => simp [hd] at hrun
  | some d =>
      rw [hd] at hrun
      simp only [Option.map_some', Option.some.injEq] at hrun
      have hm : IoOperation.write ∈ d.outstanding := by
        rw [hrun]
        exact List.mem_singleton.mpr rfl
      exact ⟨d, rfl, hm, (write_complete_never_rejected 60 10 10 _ d hd hm).2.1⟩

/-- C28: in every state reached from a new connection at most one operation
is outstanding, so never a read and a write together; while a write is
outstanding, and in every `*_RECEIVED` state, no read is outstanding and no
completion of a read is delivered, so no command reaches the FSM; a delivery
in a `*_RECEIVED` state writes nothing and keeps the state or moves it to the
matching `*_ACCEPTED` state; the delivery that enters a `*_RECEIVED` state is
the completion of the read and issues exactly one write; and after every
delivery at most one operation is outstanding again. -/
theorem one_operation_outstanding (r w c : Nat) (evs : List Completion) (d : Driver)
    (hrun : driver_steps (d_smtp_connection_new_with_timeouts r w c) evs = some d) :
    d.outstanding.length ≤ 1 ∧
    ¬ (IoOperation.read ∈ d.outstanding ∧ IoOperation.write ∈ d.outstanding) ∧
    (IoOperation.write ∈ d.outstanding ∨ d.connection.state.state.is_received = true →
      IoOperation.read ∉ d.outstanding ∧
      ∀ chunk, driver_step d (Completion.read_done chunk) = none) ∧
    (∀ cpl d', driver_step d cpl = some d' →
      d'.outstanding.length ≤ 1 ∧ driver_step_facts d d') := by
  have hinv := reachable_io r w c evs d hrun
  have hlen : ∀ d1 : Driver, driver_io_invariant d1 → d1.outstanding.length ≤ 1 := by
    intro d1 h1
    rcases h1 with ⟨h, -⟩ | ⟨h, -⟩ | h | h <;> rw [h] <;> simp
  have hnoread : IoOperation.write ∈ d.outstanding ∨
      d.connection.state.state.is_received = true → IoOperation.read ∉ d.outstanding := by
    intro hcase hmr
    obtain ⟨ho, hrp⟩ := (io_invariant_mem d hinv).1 hmr
    rcases hcase with hmw | hrec
    · rw [ho] at hmw
      simp at hmw
    · have := (received_state_facts d.connection.state hrec).1
      rw [hrp] at this
      exact absurd this (by decide)
  refine ⟨hlen d hinv, ?_, ?_, ?_⟩
  · rintro ⟨hmr, hmw⟩
    exact hnoread (Or.inl hmw) hmr
  · intro hcase
    refine ⟨hnoread hcase, ?_⟩
    intro chunk
    simp only [driver_step, if_neg (hnoread hcase)]
  · intro cpl d' hstep
    obtain ⟨h1, h2⟩ := driver_step_io d d' cpl hstep hinv
    exact ⟨hlen d' h1, h2⟩

/-- Witness of `one_operation_outstanding`: the greeting was written and HELO
was read; in `HELO_RECEIVED` the write of the reply alone is outstanding. -/
theorem one_operation_outstanding_witness :
    ∃ d, driver_steps (d_smtp_connection_new_with_timeouts 60 10 10)
        [Completion.write_done 40,
         Completion.read_done (bytes "HELO client.example\r\n")] = some d ∧
      d.connection.state.state = SMTP_STATE.HELO_RECEIVED ∧
      d.outstanding.length ≤ 1 := by
  have hrun : (driver_steps (d_smtp_connection_new_with_timeouts 60 10 10)
      [Completion.write_done 40,
       Completion.read_done (bytes "HELO client.example\r\n")]).map
        (fun d => d.connection.state.state) = some SMTP_STATE.HELO_RECEIVED := by decide
  cases hd : driver_steps (d_smtp_connection_new_with_timeouts 60 10 10)
      [Completion.write_done 40,
       Completion.read_done (bytes "HELO client.example\r\n")] with
  | none => simp [hd] at hrun
  | some d =>
      rw [hd] at hrun
      simp only [Option.map_some', Option.some.injEq] at hrun
      exact ⟨d, rfl, hrun, (one_operation_outstanding 60 10 10 _ d hd).1⟩

end GioSmtp
